import Mathlib

/-!
# onnx2ncnn: a shallow embedding of the lowering engine

The development follows `src/cpp/onnx2ncnn.cpp`.  The parsed protobuf messages are
plain structures, the two output buffers are a `String` (param) and a list of bytes
(blob), the three `std::map`s and the `std::set` are association lists without
duplicate keys, and every access whose behaviour the C++ source leaves undefined
(an index outside a repeated field or a vector, a read past a payload, a division by
zero) ends the run with `Fault.bad_access`, which is neither a returned failure nor a
returned pair.
-/

namespace Onnx2Ncnn

/-! ## Outcomes -/

/-- The two ways a run can end without a `(param, blob)` pair: the failure value the
source returns through `tl::make_unexpected`, and a step at which the C++ program
does not return at all or has no defined behaviour: an access outside the bounds of a
container, a division by zero, a `reserve` of a negative size. -/
inductive Fault where
  | unexpected (msg : String)
  | bad_access (what : String)
  deriving DecidableEq, Repr

abbrev Res (α : Type) := Except Fault α

instance instDecidableEqRes {α : Type} [DecidableEq α] : DecidableEq (Res α) := fun a b =>
  match a, b with
  | .ok x, .ok y => if h : x = y then isTrue (by rw [h]) else isFalse (fun e => h (by cases e; rfl))
  | .error x, .error y =>
      if h : x = y then isTrue (by rw [h]) else isFalse (fun e => h (by cases e; rfl))
  | .ok _, .error _ => isFalse (fun e => by cases e)
  | .error _, .ok _ => isFalse (fun e => by cases e)

/-- Element `i` of a repeated field or vector; an index outside it is a fault. -/
def at_idx {α : Type} (what : String) (l : List α) (i : Int) : Res α :=
  if i < 0 then .error (.bad_access what)
  else match l.get? i.toNat with
    | some a => .ok a
    | none => .error (.bad_access what)

/-! ## Machine integers and floats -/

/-- Narrowing of a 64-bit (or wider) integer to the 32-bit `int` of the source. -/
def to_int32 (x : Int) : Int :=
  let r := x % 4294967296
  if r < 2147483648 then r else r - 4294967296

/-- A 32-bit float, kept as its four bytes in memory order. -/
structure F32 where
  b0 : Nat
  b1 : Nat
  b2 : Nat
  b3 : Nat
  deriving DecidableEq, Repr

def F32.bytes (f : F32) : List Nat := [f.b0, f.b1, f.b2, f.b3]

/-- The literal `1.f` (0x3F800000, little endian). -/
def f32_one : F32 := ⟨0, 0, 128, 63⟩
/-- The literal `0.f`. -/
def f32_zero : F32 := ⟨0, 0, 0, 0⟩
/-- The literal `0.5f` (0x3F000000). -/
def f32_half : F32 := ⟨0, 0, 0, 63⟩
/-- The literal `1e-5f` (0x3727C5AC). -/
def f32_1em5 : F32 := ⟨172, 197, 39, 55⟩
/-- The literal `0.01f` (0x3C23D70A). -/
def f32_0p01 : F32 := ⟨10, 215, 35, 60⟩
/-- The constant `FLT_MAX` (0x7F7FFFFF). -/
def f32_flt_max : F32 := ⟨255, 255, 127, 127⟩
/-- The constant `-FLT_MAX` (0xFF7FFFFF). -/
def f32_neg_flt_max : F32 := ⟨255, 255, 127, 255⟩

/-- The two float operations of the source whose result depends on IEEE arithmetic
or on the C library: `a + b` on floats and the text `%f` prints. -/
structure FloatEnv where
  add : F32 → F32 → F32
  fmt_f : F32 → String

/-- Floats read through `(const float*)raw_data().data()`: one for every four whole
bytes of the payload. -/
def raw_floats : List Nat → List F32
  | b0 :: b1 :: b2 :: b3 :: rest => ⟨b0, b1, b2, b3⟩ :: raw_floats rest
  | _ => []

def floats_bytes : List F32 → List Nat
  | [] => []
  | f :: rest => f.b0 :: f.b1 :: f.b2 :: f.b3 :: floats_bytes rest

/-! ## Parsed messages -/

structure TensorProto where
  name : String := ""
  dims : List Int := []
  data_type : Int := 0
  raw_data : Option (List Nat) := none
  float_data : List F32 := []
  int64_data : List Int := []
  deriving DecidableEq, Repr

/-- A default-constructed `TensorProto`. -/
def TensorProto.empty : TensorProto := {}

structure AttributeProto where
  name : String
  type : Int := 0
  f : F32 := f32_zero
  i : Int := 0
  s : String := ""
  t : TensorProto := {}
  floats : List F32 := []
  ints : List Int := []
  deriving DecidableEq, Repr

structure NodeProto where
  op_type : String
  name : String := ""
  input : List String := []
  output : List String := []
  attrs : List AttributeProto := []
  deriving DecidableEq, Repr

/-- The part of `GraphProto` the engine reads; `input` holds the names of the
`ValueInfoProto` entries, the only field of them the source looks at. -/
structure GraphProto where
  node : List NodeProto := []
  initializer : List TensorProto := []
  input : List String := []
  deriving DecidableEq, Repr

/-! ## Attribute readers -/

def find_attr (node : NodeProto) (key : String) : Option AttributeProto :=
  node.attrs.find? (fun a => a.name == key)

def get_node_attr_ai (node : NodeProto) (key : String) : List Int :=
  match find_attr node key with
  | some attr => attr.ints.map to_int32
  | none => []

def get_node_attr_af (node : NodeProto) (key : String) : List F32 :=
  match find_attr node key with
  | some attr => attr.floats
  | none => []

def get_node_attr_i (node : NodeProto) (key : String) (defv : Int) : Int :=
  match find_attr node key with
  | some attr => to_int32 attr.i
  | none => defv

def get_node_attr_f (node : NodeProto) (key : String) (defv : F32) : F32 :=
  match find_attr node key with
  | some attr => attr.f
  | none => defv

def get_node_attr_s (node : NodeProto) (key : String) (defv : String) : String :=
  match find_attr node key with
  | some attr => attr.s
  | none => defv

def get_node_attr_tensor (node : NodeProto) (key : String) : TensorProto :=
  match find_attr node key with
  | some attr => attr.t
  | none => TensorProto.empty

/-! ## Tensor payloads -/

def get_tensor_proto_data_size (tp : TensorProto) : Int :=
  match tp.raw_data with
  | some raw => (to_int32 (raw.length : Int)).tdiv 4
  | none => if tp.data_type = 1 then (tp.float_data.length : Int) else 0

/-- The bytes `fwrite_tensor_proto_data` pushes onto the blob buffer. -/
def tensor_proto_bytes (tp : TensorProto) : List Nat :=
  match tp.raw_data with
  | some raw => raw
  | none => if tp.data_type = 1 then floats_bytes tp.float_data else []

def fwrite_tensor_proto_data (tp : TensorProto) (bv : List Nat) : List Nat :=
  bv ++ tensor_proto_bytes tp

/-- The floats behind `tp.has_raw_data() ? (const float*)raw_data : float_data`. -/
def float_ptr (tp : TensorProto) : List F32 :=
  match tp.raw_data with
  | some raw => raw_floats raw
  | none => tp.float_data

/-! ## `std::map<std::string, T>` and `std::set<std::string>` -/

abbrev StrMap (α : Type) := List (String × α)

def map_find {α : Type} : StrMap α → String → Option α
  | [], _ => none
  | (k, v) :: rest, key => if k = key then some v else map_find rest key

def map_contains {α : Type} (m : StrMap α) (key : String) : Bool :=
  (map_find m key).isSome

/-- The assignment `m[key] = v`. -/
def map_set {α : Type} : StrMap α → String → α → StrMap α
  | [], key, v => [(key, v)]
  | (k, w) :: rest, key, v =>
      if k = key then (k, v) :: rest else (k, w) :: map_set rest key v

def map_erase {α : Type} : StrMap α → String → StrMap α
  | [], _ => []
  | (k, w) :: rest, key => if k = key then rest else (k, w) :: map_erase rest key

/-- The read `m[key]`: it inserts a value-initialised entry when the key is absent. -/
def map_index {α : Type} (m : StrMap α) (key : String) (dflt : α) : StrMap α × α :=
  match map_find m key with
  | some v => (m, v)
  | none => (map_set m key dflt, dflt)

def set_insert (s : List String) (x : String) : List String :=
  if x ∈ s then s else s ++ [x]

def set_erase (s : List String) (x : String) : List String :=
  s.filter (fun y => y != x)

/-! ## `printf` conversions -/

/-- Modelled from the spec: the `fprintf` overload on a byte vector (declared in the
absent `wmc_utils.h`) appends the formatted text; this is the `%-Ns` conversion,
left-justified and space-padded, never truncating. -/
def fmt_ls (width : Nat) (s : String) : String :=
  s ++ String.mk (List.replicate (width - s.length) ' ')

/-- Modelled from the spec: the `%d` conversion of an `int` by that `fprintf`. -/
def fmt_d (i : Int) : String := toString i

/-- Modelled from the spec: the `%lu` conversion by that `fprintf`; the argument, an
`unsigned long`, is taken modulo 2^64. -/
def fmt_lu (i : Int) : String := toString (i % 18446744073709551616).toNat

/-! ## The state of one conversion call -/

/-- The local variables of `onnx2ncnn` that outlive a loop iteration.  The param
buffer `pp` is kept as the list of the lines written so far, each with its newline;
the buffer itself is their concatenation. -/
structure State where
  pp : List String := []
  bv : List Nat := []
  node_reference : StrMap Int := []
  weights : StrMap TensorProto := []
  binaryop_weights : StrMap TensorProto := []
  blob_names : List String := []
  input_node_count : Int := 0
  reduced_node_count : Int := 0
  internal_split : Int := 0
  deriving DecidableEq, Repr

/-! ## Phase 1: weights, blob names and reference counts (lines 199-346) -/

/-- Lines 199-206: every initializer becomes a weight under its name. -/
def load_initializers : StrMap TensorProto → List TensorProto → StrMap TensorProto
  | w, [] => w
  | w, initializer :: rest => load_initializers (map_set w initializer.name initializer) rest

/-- Lines 277-288: the inputs of an `Add` or `Mul` that are weights move to
`binaryop_weights`. -/
def move_binaryop_weights : State → List String → State
  | st, [] => st
  | st, input_name :: rest =>
      match map_find st.weights input_name with
      | some t =>
          move_binaryop_weights
            { st with binaryop_weights := map_set st.binaryop_weights input_name t,
                      weights := map_erase st.weights input_name } rest
      | none => move_binaryop_weights st rest

/-- Lines 292-312: every input that is not a weight is a blob and is counted. -/
def count_inputs : State → List String → State
  | st, [] => st
  | st, input_name :: rest =>
      if map_contains st.weights input_name then count_inputs st rest
      else
        count_inputs
          { st with blob_names := set_insert st.blob_names input_name,
                    node_reference :=
                      match map_find st.node_reference input_name with
                      | none => map_set st.node_reference input_name 1
                      | some c => map_set st.node_reference input_name (c + 1) } rest

/-- Lines 321-326. -/
def insert_outputs : List String → List String → List String
  | names, [] => names
  | names, output_name :: rest => insert_outputs (set_insert names output_name) rest

/-- Lines 292-326, the part of the loop body every node reaches that was not cut
short by a `continue`. -/
def classify_tail (st : State) (node : NodeProto) : Res State :=
  if node.op_type = "Dropout" then do
    let output_name ← at_idx "output" node.output 0
    pure { count_inputs st node.input with
             blob_names := set_insert (count_inputs st node.input).blob_names output_name }
  else
    pure { count_inputs st node.input with
             blob_names := insert_outputs (count_inputs st node.input).blob_names node.output }

/-- Lines 217-221 (and 527-531): the node's name, or its first output when the name
is empty. -/
def layer_name (node : NodeProto) : Res String :=
  if node.name = "" then at_idx "output" node.output 0 else pure node.name

/-- Lines 223-228: a `Constant` becomes a weight under its first output. -/
def classify_constant (st : State) (node : NodeProto) : Res State := do
  let out0 ← at_idx "output" node.output 0
  pure { st with weights := map_set st.weights out0 (get_node_attr_tensor node "value") }

/-- Lines 231-241: a `Reshape` with one input. -/
def classify_reshape1 (st : State) (node : NodeProto) : Res State := do
  let input_name ← at_idx "input" node.input 0
  match map_find st.weights input_name with
  | some t => do
      let out0 ← at_idx "output" node.output 0
      pure { st with weights := map_set st.weights out0 t }
  | none => classify_tail st node

/-- Lines 250-260: the weights after a `Reshape` of the weight `t` with a shape input. -/
def reshape_weight (weights : StrMap TensorProto) (t : TensorProto) (out0 input1 : String) :
    StrMap TensorProto :=
  let w1 := map_set weights out0 t
  let r := map_index w1 input1 TensorProto.empty
  let c := map_index r.1 out0 TensorProto.empty
  map_set c.1 out0 { c.2 with dims := r.2.int64_data }

/-- Lines 242-264: a `Reshape` with two inputs. -/
def classify_reshape2 (st : State) (node : NodeProto) : Res State := do
  let input_name ← at_idx "input" node.input 0
  match map_find st.weights input_name with
  | some t => do
      let out0 ← at_idx "output" node.output 0
      let input1 ← at_idx "input" node.input 1
      pure { st with weights := reshape_weight st.weights t out0 input1 }
  | none => classify_tail st node

/-- Lines 223-326, after the name has been read. -/
def classify_body (st : State) (node : NodeProto) : Res State :=
  if node.op_type = "Constant" then classify_constant st node
  else if node.op_type = "Reshape" then
    if node.input.length = 1 then classify_reshape1 st node
    else if node.input.length = 2 then classify_reshape2 st node
    else classify_tail st node
  else if node.op_type = "Add" ∨ node.op_type = "Mul" then
    classify_tail (move_binaryop_weights st node.input) node
  else classify_tail st node

/-- One iteration of the loop of lines 211-327. -/
def classify_node (st : State) (node : NodeProto) : Res State := do
  let _ ← layer_name node
  classify_body st node

def classify_nodes : State → List NodeProto → Res State
  | st, [] => pure st
  | st, node :: rest => do
      let st1 ← classify_node st node
      classify_nodes st1 rest

/-- Lines 329-346. -/
def count_graph_inputs : State → List String → State
  | st, [] => st
  | st, input_name :: rest =>
      if map_contains st.weights input_name then count_graph_inputs st rest
      else if map_contains st.binaryop_weights input_name then count_graph_inputs st rest
      else
        count_graph_inputs
          { st with blob_names := set_insert st.blob_names input_name,
                    input_node_count := st.input_node_count + 1 } rest

/-- Lines 182-346: the magic line and the whole first phase. -/
def classify (graph : GraphProto) : Res State := do
  let st0 : State := { pp := ["7767517\n"], weights := load_initializers [] graph.initializer }
  let st1 ← classify_nodes st0 graph.node
  pure (count_graph_inputs st1 graph.input)

/-! ## Phase 2: Transpose(weight) - MatMul fusion (lines 348-426) -/

/-- The reads `bptr[k*w + j]` of lines 400-407, in the order they are pushed. -/
def permute_indices (h w : Int) : List Int :=
  (List.range w.toNat).flatMap (fun j =>
    (List.range h.toNat).map (fun k => Int.ofNat k * w + Int.ofNat j))

def read_floats (what : String) (data : List F32) : List Int → Res (List F32)
  | [] => pure []
  | i :: rest => do
      let v ← at_idx what data i
      let vs ← read_floats what data rest
      pure (v :: vs)

/-- Lines 409-420: the dims and the payload of `B` after the transposition. -/
def store_permuted (B : TensorProto) (h w : Int) (permuted_data : List F32) : TensorProto :=
  match B.raw_data with
  | some _ =>
      { B with dims := (B.dims.set 0 w).set 1 h, raw_data := some (floats_bytes permuted_data) }
  | none =>
      { B with dims := (B.dims.set 0 w).set 1 h,
               float_data := permuted_data ++ B.float_data.drop permuted_data.length }

/-- Lines 391-421: the weight `B` after the in-place transposition. -/
def permute_weight (B : TensorProto) : Res TensorProto := do
  let d0 ← at_idx "dims" B.dims 0
  let d1 ← at_idx "dims" B.dims 1
  if to_int32 d0 * to_int32 d1 < 0 then throw (.bad_access "reserve")
  else do
    let permuted_data ← read_floats "weight data" (float_ptr B)
      (permute_indices (to_int32 d0) (to_int32 d1))
    pure (store_permuted B (to_int32 d0) (to_int32 d1) permuted_data)

/-- The outcome of the tests of lines 355-381 on the node at index `i`. -/
inductive FuseCheck where
  | skip (st : State)
  | reduce (input0 output0 : String) (B : TensorProto)
  deriving DecidableEq, Repr

/-- Lines 365-381, for a `Transpose` of the 2-D weight `B`. -/
def fuse_check_weight (st : State) (node : NodeProto) (next : Option NodeProto)
    (input0 output0 : String) (B : TensorProto) : FuseCheck :=
  let r := map_index st.node_reference output0 0
  let st1 := { st with node_reference := r.1 }
  if r.2 ≠ 1 then .skip st1
  else if (get_node_attr_ai node "perm").length ≠ 2 then .skip st1
  else if get_node_attr_ai node "perm" ≠ [1, 0] then .skip st1
  else
    match next with
    | none => .skip st1
    | some node2 => if node2.op_type ≠ "MatMul" then .skip st1 else .reduce input0 output0 B

/-- Lines 355-381: `next` is the node at index `i+1`, when there is one. -/
def fuse_check (st : State) (node : NodeProto) (next : Option NodeProto) : Res FuseCheck :=
  if node.op_type = "Transpose" then do
    let input0 ← at_idx "input" node.input 0
    match map_find st.weights input0 with
    | none => pure (.skip st)
    | some B =>
        if B.dims.length ≠ 2 then pure (.skip st)
        else do
          let output0 ← at_idx "output" node.output 0
          pure (fuse_check_weight st node next input0 output0 B)
  else pure (.skip st)

/-- Lines 383-423: the two rewritten nodes and the state after the reduction. -/
def fuse_reduce (st : State) (node node2 : NodeProto) (input0 output0 : String)
    (B : TensorProto) : Res (State × NodeProto × NodeProto) :=
  if node2.input.length < 2 then throw (.bad_access "set_input")
  else do
    let B1 ← permute_weight B
    pure ({ st with node_reference := map_erase st.node_reference output0,
                    blob_names := set_erase st.blob_names output0,
                    weights := map_set st.weights input0 B1,
                    reduced_node_count := st.reduced_node_count + 1 },
          { node with op_type := "noop_reducedncnn" },
          { node2 with input := node2.input.set 1 input0 })

/-- The loop of lines 350-426 from the index of the head of the list on; the result
holds the nodes as the mutable graph keeps them. -/
def fuse_nodes : State → List NodeProto → Res (State × List NodeProto)
  | st, [] => pure (st, [])
  | st, [node] =>
      match fuse_check st node none with
      | .error e => .error e
      | .ok (.skip st1) => pure (st1, [node])
      | .ok (.reduce _ _ _) => pure (st, [node])
  | st, node :: node2 :: rest =>
      match fuse_check st node (some node2) with
      | .error e => .error e
      | .ok (.skip st1) =>
          match fuse_nodes st1 (node2 :: rest) with
          | .error e => .error e
          | .ok (st2, nodes) => pure (st2, node :: nodes)
      | .ok (.reduce input0 output0 B) =>
          match fuse_reduce st node node2 input0 output0 B with
          | .error e => .error e
          | .ok (st1, node1, node2a) =>
              match fuse_nodes st1 rest with
              | .error e => .error e
              | .ok (st2, nodes) => pure (st2, node1 :: node2a :: nodes)

/-! ## Phase 3: the header (lines 428-445) -/

/-- Lines 428-443: the entries left in `node_reference`. -/
def prune_node_reference (nr : StrMap Int) : StrMap Int :=
  nr.filter (fun e => e.2 != 1)

/-- Lines 429-443: the sum of the counts of the entries that stay. -/
def splitncnn_blob_count (nr : StrMap Int) : Int :=
  ((prune_node_reference nr).map (fun e => e.2)).sum

/-- The first argument of the `fprintf` of line 445, before its conversion. -/
def layer_count (node_count initializer_size : Nat) (st : State) : Int :=
  (node_count : Int) - st.reduced_node_count + st.input_node_count
    + ((prune_node_reference st.node_reference).length : Int)
    + (initializer_size : Int) - (st.weights.length : Int)

/-- The second argument of the `fprintf` of line 445. -/
def blob_count (st : State) : Int :=
  (st.blob_names.length : Int) + splitncnn_blob_count st.node_reference

/-- The line written at line 445. -/
def header_line (node_count initializer_size : Nat) (st : State) : String :=
  fmt_lu (layer_count node_count initializer_size st) ++ " " ++ fmt_lu (blob_count st) ++ "\n"

/-- Lines 428-445. -/
def write_header (node_count initializer_size : Nat) (st : State) : State :=
  { st with
      node_reference := prune_node_reference st.node_reference,
      pp := st.pp ++ [header_line node_count initializer_size st] }

/-! ## Phase 3: Input, Split and MemoryData layers (lines 449-512) -/

/-- The `refcount` tokens ` name_splitncnn_k` of lines 479-481 and 1660-1663. -/
def split_output_tokens (name : String) (refcount : Int) : String :=
  String.join ((List.range refcount.toNat).map
    (fun k => " " ++ name ++ "_splitncnn_" ++ fmt_d (Int.ofNat k)))

/-- A whole `Split` line (lines 476-482 and 1656-1664). -/
def split_line (splitname name : String) (refcount : Int) : String :=
  fmt_ls 16 "Split" ++ " " ++ fmt_ls 24 splitname ++ " " ++ fmt_d 1 ++ " " ++ fmt_d refcount
    ++ " " ++ name ++ split_output_tokens name refcount ++ "\n"

/-- The line written at line 462. -/
def input_line (input_name : String) : String :=
  fmt_ls 16 "Input" ++ " " ++ fmt_ls 24 input_name ++ " 0 1 " ++ input_name ++ "\n"

/-- Lines 449-483, the lines the loop writes; `j` is the index of the head of the
list in `graph.input`. -/
def input_lines (st : State) : Nat → List String → List String
  | _, [] => []
  | j, input_name :: rest =>
      if map_contains st.weights input_name then input_lines st (j + 1) rest
      else if map_contains st.binaryop_weights input_name then input_lines st (j + 1) rest
      else
        match map_find st.node_reference input_name with
        | none => input_line input_name :: input_lines st (j + 1) rest
        | some refcount =>
            if refcount ≤ 1 then input_line input_name :: input_lines st (j + 1) rest
            else
              input_line input_name
                :: split_line ("splitncnn_input" ++ fmt_d (j : Int)) input_name refcount
                :: input_lines st (j + 1) rest

/-- Lines 449-483. -/
def place_inputs (st : State) (inputs : List String) : State :=
  { st with pp := st.pp ++ input_lines st 0 inputs }

/-- Lines 498-507: the shape keys of a `MemoryData` layer made from a graph input. -/
def memorydata_shape (M : TensorProto) : String :=
  match M.dims with
  | [d0] => " 0=" ++ fmt_d (to_int32 d0)
  | [d0, d1] => " 0=" ++ fmt_d (to_int32 d1) ++ " 1=" ++ fmt_d (to_int32 d0)
  | [d0, d1, d2] =>
      " 0=" ++ fmt_d (to_int32 d2) ++ " 1=" ++ fmt_d (to_int32 d1) ++ " 2=" ++ fmt_d (to_int32 d0)
  | _ => ""

/-- The line written at lines 494-509. -/
def memorydata_line (input_name : String) (M : TensorProto) : String :=
  fmt_ls 16 "MemoryData" ++ " " ++ fmt_ls 24 input_name ++ " 0 1 " ++ input_name
    ++ memorydata_shape M ++ "\n"

/-- Lines 485-512. -/
def place_memorydata : State → List String → State
  | st, [] => st
  | st, input_name :: rest =>
      match map_find st.binaryop_weights input_name with
      | none => place_memorydata st rest
      | some M =>
          place_memorydata
            { st with pp := st.pp ++ [memorydata_line input_name M],
                      bv := fwrite_tensor_proto_data M st.bv } rest

/-! ## Phase 3: the layer kind of a node (lines 556-798) -/

/-- The operators whose branch of lines 556-798 only prints a fixed layer kind. -/
def plain_kind (op : String) : Option String :=
  if op = "Abs" then some "UnaryOp"
  else if op = "Acos" then some "UnaryOp"
  else if op = "Add" then some "BinaryOp"
  else if op = "Asin" then some "UnaryOp"
  else if op = "Atan" then some "UnaryOp"
  else if op = "AveragePool" ∨ op = "MaxPool" then some "Pooling"
  else if op = "BatchNormalization" then some "BatchNorm"
  else if op = "Ceil" then some "UnaryOp"
  else if op = "Clip" then some "Clip"
  else if op = "Concat" then some "Concat"
  else if op = "Cos" then some "UnaryOp"
  else if op = "Div" then some "BinaryOp"
  else if op = "Dropout" then some "Dropout"
  else if op = "Elu" then some "ELU"
  else if op = "Exp" then some "UnaryOp"
  else if op = "Flatten" then some "Flatten"
  else if op = "Floor" then some "UnaryOp"
  else if op = "GlobalAveragePool" then some "Pooling"
  else if op = "GlobalMaxPool" then some "Pooling"
  else if op = "ImageScaler" then some "Scale"
  else if op = "InstanceNormalization" then some "InstanceNorm"
  else if op = "LeakyRelu" then some "ReLU"
  else if op = "Log" then some "UnaryOp"
  else if op = "LRN" then some "LRN"
  else if op = "MatMul" then some "InnerProduct"
  else if op = "Max" then some "BinaryOp"
  else if op = "Min" then some "BinaryOp"
  else if op = "Mul" then some "BinaryOp"
  else if op = "Neg" then some "UnaryOp"
  else if op = "Pad" then some "Padding"
  else if op = "Pow" then some "BinaryOp"
  else if op = "PRelu" then some "PReLU"
  else if op = "Reciprocal" then some "UnaryOp"
  else if op = "Relu" then some "ReLU"
  else if op = "Sigmoid" then some "Sigmoid"
  else if op = "Sin" then some "UnaryOp"
  else if op = "Slice" then some "Crop"
  else if op = "Softmax" then some "Softmax"
  else if op = "Sqrt" then some "UnaryOp"
  else if op = "Sub" then some "BinaryOp"
  else if op = "Sum" then some "Eltwise"
  else if op = "Tan" then some "UnaryOp"
  else if op = "Transpose" then some "Permute"
  else if op = "Upsample" ∨ op = "Resize" then some "Interp"
  else none

/-- What the chain of lines 556-798 does for a node: print a kind (the empty text for
a `Gemm` outside the handled form), or leave the iteration by `continue`. -/
inductive KindResult where
  | kind (text : String)
  | skip
  deriving DecidableEq, Repr

/-- Lines 556-798. -/
def layer_kind (st : State) (node : NodeProto) : Res KindResult := do
  let op := node.op_type
  if op = "Constant" then
    let out0 ← at_idx "output" node.output 0
    if map_contains st.binaryop_weights out0 then pure (.kind (fmt_ls 16 "MemoryData"))
    else pure .skip
  else if op = "Conv" then
    let group := get_node_attr_i node "group" 1
    if group > 1 then pure (.kind (fmt_ls 16 "ConvolutionDepthWise"))
    else pure (.kind (fmt_ls 16 "Convolution"))
  else if op = "ConvTranspose" then
    let group := get_node_attr_i node "group" 1
    if group > 1 then pure (.kind (fmt_ls 16 "DeconvolutionDepthWise"))
    else pure (.kind (fmt_ls 16 "Deconvolution"))
  else if op = "Gemm" then
    let alpha := get_node_attr_f node "alpha" f32_one
    let beta := get_node_attr_f node "beta" f32_one
    let transA := get_node_attr_i node "transA" 0
    let transB := get_node_attr_i node "transB" 0
    if alpha = f32_one ∧ beta = f32_one ∧ transA = 0 ∧ transB = 1 then
      pure (.kind (fmt_ls 16 "InnerProduct"))
    else pure (.kind "")
  else if op = "Reshape" then
    if node.input.length = 1 ∨ node.input.length = 2 then
      let input_name ← at_idx "input" node.input 0
      if map_contains st.weights input_name then pure .skip
      else pure (.kind (fmt_ls 16 "Reshape"))
    else pure (.kind (fmt_ls 16 "Reshape"))
  else
    match plain_kind op with
    | some k => pure (.kind (fmt_ls 16 k))
    | none => throw (.unexpected (op ++ " not supported yet!"))

/-! ## Phase 3: the parameters and payload of a node (lines 832-1642) -/

/-- What the parameter branch of a node does: the `weights` map after its reads
`weights[...]`, the text it prints after the blob names, the bytes it pushes onto the
blob buffer. -/
structure Params where
  weights : StrMap TensorProto
  text : String := ""
  bytes : List Nat := []
  deriving DecidableEq, Repr

/-- The keys written for a list attribute of one or two entries: the last axis under
`key`, the axis before it under `key + 10`. -/
def pair_keys (key : Nat) (v : List Int) : String :=
  match v with
  | [a] => " " ++ toString key ++ "=" ++ fmt_d a
  | [a, b] =>
      " " ++ toString key ++ "=" ++ fmt_d b ++ " " ++ toString (key + 10) ++ "=" ++ fmt_d a
  | _ => ""

/-- The read `weights[node.input(k)]`. -/
def weight_at (weights : StrMap TensorProto) (node : NodeProto) (k : Int) :
    Res (StrMap TensorProto × TensorProto) := do
  let input_name ← at_idx "input" node.input k
  pure (map_index weights input_name TensorProto.empty)

/-- Modelled from the spec: the `fwrite` overload on a byte vector (declared in the
absent `wmc_utils.h`) pushes the bytes of its argument; these are the four bytes of
`int quantize_tag = 0`. -/
def quantize_tag : List Nat := [0, 0, 0, 0]

/-- A read of `n` floats from `data + off`. -/
def read_slice (data : List F32) (off n : Int) : Res (List F32) :=
  if off < 0 ∨ n < 0 ∨ (data.length : Int) < off + n then throw (.bad_access "weight data")
  else pure ((data.drop off.toNat).take n.toNat)

/-- Lines 857-902. -/
def params_pool (node : NodeProto) : String :=
  let auto_pad := get_node_attr_s node "auto_pad" ""
  let kernel_shape := get_node_attr_ai node "kernel_shape"
  let strides := get_node_attr_ai node "strides"
  let pads := get_node_attr_ai node "pads"
  let pool : Int := if node.op_type = "AveragePool" then 1 else 0
  let pad_mode : Int := if auto_pad = "SAME_LOWER" ∨ auto_pad = "SAME_UPPER" then 2 else 1
  let pads_text :=
    match pads with
    | [a] => " 3=" ++ fmt_d a
    | [a, b] => " 3=" ++ fmt_d b ++ " 13=" ++ fmt_d a
    | [a, b, c, d] => " 3=" ++ fmt_d b ++ " 13=" ++ fmt_d a ++ " 14=" ++ fmt_d d ++ " 15=" ++ fmt_d c
    | _ => ""
  " 0=" ++ fmt_d pool ++ pair_keys 1 kernel_shape ++ pair_keys 2 strides ++ pads_text
    ++ " 5=" ++ fmt_d pad_mode

/-- Lines 922-926: `channels` variances, each with `epsilon` added. -/
def var_bytes (fe : FloatEnv) (v : List F32) (epsilon : F32) (channels : Int) : Res (List Nat) := do
  let vs ← read_floats "var" v ((List.range channels.toNat).map Int.ofNat)
  pure (floats_bytes (vs.map (fun x => fe.add x epsilon)))

/-- Lines 903-929. -/
def params_batchnorm (fe : FloatEnv) (weights : StrMap TensorProto) (node : NodeProto) :
    Res Params := do
  let epsilon := get_node_attr_f node "epsilon" f32_1em5
  let (w1, scale) ← weight_at weights node 1
  let (w2, B) ← weight_at w1 node 2
  let (w3, mean) ← weight_at w2 node 3
  let (w4, var) ← weight_at w3 node 4
  let channels := get_tensor_proto_data_size scale
  let ve ← var_bytes fe (float_ptr var) epsilon channels
  pure { weights := w4, text := " 0=" ++ fmt_d channels,
         bytes := tensor_proto_bytes scale ++ tensor_proto_bytes mean ++ ve
                    ++ tensor_proto_bytes B }

/-- Lines 954-965: the shape keys of a `MemoryData` layer made from a `Constant`. -/
def constant_shape (M : TensorProto) : String :=
  match M.dims with
  | [d0] => " 0=" ++ fmt_d (to_int32 d0)
  | [_, d1] => " 0=" ++ fmt_d (to_int32 d1)
  | [_, d1, d2] => " 0=" ++ fmt_d (to_int32 d2) ++ " 1=" ++ fmt_d (to_int32 d1)
  | [_, d1, d2, d3] =>
      " 0=" ++ fmt_d (to_int32 d3) ++ " 1=" ++ fmt_d (to_int32 d2) ++ " 2=" ++ fmt_d (to_int32 d1)
  | _ => ""

/-- Lines 947-969: `name` is the layer name, not the first output. -/
def params_constant (st : State) (name : String) : Params :=
  match map_find st.binaryop_weights name with
  | none => { weights := st.weights }
  | some M => { weights := st.weights, text := constant_shape M, bytes := tensor_proto_bytes M }

/-- The padding keys shared by lines 1007-1026 and 1086-1105. -/
def conv_pads (auto_pad : String) (pads : List Int) : String :=
  if auto_pad = "SAME_LOWER" ∨ auto_pad = "SAME_UPPER" then " 4=-233"
  else
    match pads with
    | [a] => " 4=" ++ fmt_d a
    | [a, b] => " 4=" ++ fmt_d b ++ " 14=" ++ fmt_d a
    | [a, b, _, _] => " 4=" ++ fmt_d b ++ " 14=" ++ fmt_d a
    | _ => ""

/-- The keys 1 to 7 shared by lines 986-1034 and 1065-1113. -/
def conv_keys (node : NodeProto) (W : TensorProto) (has_bias : Int) : String :=
  let auto_pad := get_node_attr_s node "auto_pad" ""
  let kernel_shape := get_node_attr_ai node "kernel_shape"
  let dilations := get_node_attr_ai node "dilations"
  let strides := get_node_attr_ai node "strides"
  let pads := get_node_attr_ai node "pads"
  let group := get_node_attr_i node "group" 1
  pair_keys 1 kernel_shape ++ pair_keys 2 dilations ++ pair_keys 3 strides
    ++ conv_pads auto_pad pads ++ " 5=" ++ fmt_d has_bias
    ++ " 6=" ++ fmt_d (get_tensor_proto_data_size W)
    ++ (if group > 1 then " 7=" ++ fmt_d group else "")

/-- Lines 1041-1045 and 1152-1156: the bias payload, when the node has three inputs. -/
def bias_bytes (weights : StrMap TensorProto) (node : NodeProto) (has_bias : Int) :
    Res (StrMap TensorProto × List Nat) := do
  if has_bias ≠ 0 then
    let (w1, B) ← weight_at weights node 2
    pure (w1, tensor_proto_bytes B)
  else pure (weights, [])

/-- Lines 970-1046. -/
def params_conv (weights : StrMap TensorProto) (node : NodeProto) : Res Params := do
  let (w1, W) ← weight_at weights node 1
  let num_filter := to_int32 (← at_idx "dims" W.dims 0)
  let has_bias : Int := if node.input.length = 3 then 1 else 0
  let (w2, bias) ← bias_bytes w1 node has_bias
  pure { weights := w2, text := " 0=" ++ fmt_d num_filter ++ conv_keys node W has_bias,
         bytes := quantize_tag ++ tensor_proto_bytes W ++ bias }

/-- The offsets `g*maxk*num_filter_g*num_input + (j*num_filter_g + k) * maxk` from
the start of the weight, in the order of the loops of lines 1137-1150. -/
def deconv_offsets (group num_filter_g num_input maxk : Int) : List Int :=
  (List.range group.toNat).flatMap (fun g =>
    (List.range num_filter_g.toNat).flatMap (fun k =>
      (List.range num_input.toNat).map (fun j =>
        Int.ofNat g * maxk * num_filter_g * num_input
          + (Int.ofNat j * num_filter_g + Int.ofNat k) * maxk)))

def read_slices (data : List F32) (n : Int) : List Int → Res (List F32)
  | [] => pure []
  | off :: rest => do
      let a ← read_slice data off n
      let b ← read_slices data n rest
      pure (a ++ b)

/-- Lines 1118-1150: the re-ordered weight of a `ConvTranspose`. -/
def deconv_weight (W : TensorProto) (kernel_shape : List Int) (group num_filter : Int) :
    Res (List F32) := do
  let k0 ← at_idx "kernel_shape" kernel_shape 0
  let maxk := match kernel_shape with
    | [a, b] => to_int32 (b * a)
    | _ => to_int32 (k0 * k0)
  let weight_data_size := get_tensor_proto_data_size W
  let weight_data : List F32 :=
    match W.raw_data with
    | some raw => raw_floats raw
    | none => if W.data_type = 1 then W.float_data else []
  if group ≤ 0 then pure [] else
  let num_filter_g := num_filter.tdiv group
  if maxk = 0 ∨ num_filter_g = 0 then throw (.bad_access "division by zero") else
  let num_input := ((weight_data_size.tdiv maxk).tdiv num_filter_g).tdiv group
  read_slices weight_data maxk (deconv_offsets group num_filter_g num_input maxk)

/-- Lines 1047-1157. -/
def params_deconv (weights : StrMap TensorProto) (node : NodeProto) : Res Params := do
  let (w1, W) ← weight_at weights node 1
  let has_bias : Int := if node.input.length = 3 then 1 else 0
  let kernel_shape := get_node_attr_ai node "kernel_shape"
  let group := get_node_attr_i node "group" 1
  let num_filter := to_int32 ((← at_idx "dims" W.dims 1) * group)
  let weight ← deconv_weight W kernel_shape group num_filter
  let (w2, bias) ← bias_bytes w1 node has_bias
  pure { weights := w2, text := " 0=" ++ fmt_d num_filter ++ conv_keys node W has_bias,
         bytes := quantize_tag ++ floats_bytes weight ++ bias }

/-- Lines 1195-1221. -/
def params_gemm (weights : StrMap TensorProto) (node : NodeProto) : Res Params := do
  let alpha := get_node_attr_f node "alpha" f32_one
  let beta := get_node_attr_f node "beta" f32_one
  let transA := get_node_attr_i node "transA" 0
  let transB := get_node_attr_i node "transB" 0
  if alpha = f32_one ∧ beta = f32_one ∧ transA = 0 ∧ transB = 1 then
    let (w1, B) ← weight_at weights node 1
    let (w2, C) ← weight_at w1 node 2
    pure { weights := w2,
           text := " 0=" ++ fmt_d (get_tensor_proto_data_size C) ++ " 1=1"
                     ++ " 2=" ++ fmt_d (get_tensor_proto_data_size B),
           bytes := quantize_tag ++ tensor_proto_bytes B ++ tensor_proto_bytes C }
  else pure { weights := weights }

/-- Lines 1238-1253. -/
def params_imagescaler (weights : StrMap TensorProto) (node : NodeProto) : Params :=
  let bias := get_node_attr_af node "bias"
  let scale := get_node_attr_f node "scale" f32_one
  let channels : Int := to_int32 (bias.length : Int)
  { weights := weights, text := " 0=" ++ fmt_d channels ++ " 1=1",
    bytes := floats_bytes (List.replicate channels.toNat scale)
               ++ floats_bytes (bias.take channels.toNat) }

/-- Lines 1254-1265. -/
def params_instancenorm (fe : FloatEnv) (weights : StrMap TensorProto) (node : NodeProto) :
    Res Params := do
  let eps := get_node_attr_f node "epsilon" f32_1em5
  let (w1, scale) ← weight_at weights node 1
  let (w2, B) ← weight_at w1 node 2
  let channels := get_tensor_proto_data_size scale
  pure { weights := w2, text := " 0=" ++ fmt_d channels ++ " 1=" ++ fe.fmt_f eps,
         bytes := tensor_proto_bytes scale ++ tensor_proto_bytes B }

/-- Lines 1277-1291. -/
def params_lrn (fe : FloatEnv) (node : NodeProto) : String :=
  let alpha := get_node_attr_f node "alpha" f32_one
  let beta := get_node_attr_f node "beta" f32_half
  let bias := get_node_attr_f node "bias" f32_one
  let size := get_node_attr_i node "size" 1
  " 0=" ++ fmt_d 0 ++ " 1=" ++ fmt_d size ++ " 2=" ++ fe.fmt_f alpha ++ " 3=" ++ fe.fmt_f beta
    ++ " 4=" ++ fe.fmt_f bias

/-- The reads `bptr[k*num_output + j]` of lines 1312-1319, in the order written. -/
def matmul_indices (num_output num_input : Int) : List Int :=
  (List.range num_output.toNat).flatMap (fun j =>
    (List.range num_input.toNat).map (fun k => Int.ofNat k * num_output + Int.ofNat j))

/-- Lines 1292-1323. -/
def params_matmul (weights : StrMap TensorProto) (node : NodeProto) : Res Params := do
  let (w1, B) ← weight_at weights node 1
  let weight_data_size := get_tensor_proto_data_size B
  let num_output := to_int32 (← at_idx "dims" B.dims ((B.dims.length : Int) - 1))
  if num_output = 0 then throw (.bad_access "division by zero") else
  let num_input := weight_data_size.tdiv num_output
  let weight ← read_floats "weight data" (float_ptr B) (matmul_indices num_output num_input)
  pure { weights := w1,
         text := " 0=" ++ fmt_d num_output ++ " 1=0" ++ " 2=" ++ fmt_d weight_data_size,
         bytes := quantize_tag ++ floats_bytes weight }

/-- Lines 1344-1375. -/
def params_pad (fe : FloatEnv) (node : NodeProto) : Res String := do
  let mode := get_node_attr_s node "mode" ""
  let pads := get_node_attr_ai node "pads"
  let value := get_node_attr_f node "value" f32_zero
  let type : Int := if mode = "constant" then 0 else if mode = "edge" then 1 else 0
  let top ← at_idx "pads" pads 0
  let bottom ← at_idx "pads" pads 2
  let left ← at_idx "pads" pads 1
  let right ← at_idx "pads" pads 3
  pure (" 0=" ++ fmt_d top ++ " 1=" ++ fmt_d bottom ++ " 2=" ++ fmt_d left
          ++ " 3=" ++ fmt_d right ++ " 4=" ++ fmt_d type ++ " 5=" ++ fe.fmt_f value)

/-- Lines 1381-1390. -/
def params_prelu (weights : StrMap TensorProto) (node : NodeProto) : Res Params := do
  let (w1, slope) ← weight_at weights node 1
  pure { weights := w1, text := " 0=" ++ fmt_d (get_tensor_proto_data_size slope),
         bytes := tensor_proto_bytes slope }

/-- Lines 1414-1429: the keys of a `Reshape` for a target shape. -/
def reshape_keys (shape : List Int) : String :=
  match shape with
  | [s0] => " 0=" ++ fmt_d s0
  | [_, s1] => " 0=" ++ fmt_d s1
  | [_, s1, s2] => " 0=" ++ fmt_d s2 ++ " 1=" ++ fmt_d s1
  | [_, s1, s2, s3] => " 0=" ++ fmt_d s3 ++ " 1=" ++ fmt_d s2 ++ " 2=" ++ fmt_d s1
  | [_, s1, s2, s3, s4] =>
      " 0=" ++ fmt_d (to_int32 (s4 * s3)) ++ " 1=" ++ fmt_d s2 ++ " 2=" ++ fmt_d s1
  | _ => ""

/-- Lines 1396-1430. -/
def params_reshape (weights : StrMap TensorProto) (node : NodeProto) : Res Params := do
  if node.input.length = 1 then
    pure { weights := weights, text := reshape_keys (get_node_attr_ai node "shape") }
  else
    let (w1, shape_tp) ← weight_at weights node 1
    pure { weights := w1, text := reshape_keys (shape_tp.int64_data.map to_int32) }

/-- The extent `ends[i] == -1 ? -234 : ends[i] - starts[i]` of lines 1464-1480. -/
def slice_extent (starts ends : List Int) (i : Int) : Res Int := do
  let e ← at_idx "ends" ends i
  let b ← at_idx "starts" starts i
  pure (if e = -1 then -234 else to_int32 (e - b))

/-- Lines 1454-1481: `woffset, hoffset, coffset, outw, outh, outc`. -/
def slice_values (starts ends : List Int) : Res (Int × Int × Int × Int × Int × Int) := do
  if starts.length = 2 then
    let woffset ← at_idx "starts" starts 1
    let outw ← slice_extent starts ends 1
    pure (woffset, 0, 0, outw, -233, -233)
  else if starts.length = 3 then
    let woffset ← at_idx "starts" starts 2
    let hoffset ← at_idx "starts" starts 1
    let outw ← slice_extent starts ends 2
    let outh ← slice_extent starts ends 1
    pure (woffset, hoffset, 0, outw, outh, -233)
  else if starts.length = 4 then
    let woffset ← at_idx "starts" starts 3
    let hoffset ← at_idx "starts" starts 2
    let coffset ← at_idx "starts" starts 1
    let outw ← slice_extent starts ends 3
    let outh ← slice_extent starts ends 2
    let outc ← slice_extent starts ends 1
    pure (woffset, hoffset, coffset, outw, outh, outc)
  else pure (0, 0, 0, -233, -233, -233)

/-- Lines 1439-1489; the loop over `steps` (lines 1446-1452) builds a failure value
and drops it, so it has no effect. -/
def params_slice (node : NodeProto) : Res String := do
  let starts := get_node_attr_ai node "starts"
  let ends := get_node_attr_ai node "ends"
  let (woffset, hoffset, coffset, outw, outh, outc) ← slice_values starts ends
  pure (" 0=" ++ fmt_d woffset ++ " 1=" ++ fmt_d hoffset ++ " 2=" ++ fmt_d coffset
          ++ " 3=" ++ fmt_d outw ++ " 4=" ++ fmt_d outh ++ " 5=" ++ fmt_d outc)

/-- Lines 1516-1549. -/
def params_transpose (node : NodeProto) : Res String :=
  match get_node_attr_ai node "perm" with
  | [_, p1, p2, p3] =>
      if p1 = 1 ∧ p2 = 2 ∧ p3 = 3 then pure " 0=0"
      else if p1 = 1 ∧ p2 = 3 ∧ p3 = 2 then pure " 0=1"
      else if p1 = 2 ∧ p2 = 1 ∧ p3 = 3 then pure " 0=2"
      else if p1 = 2 ∧ p2 = 3 ∧ p3 = 1 then pure " 0=3"
      else if p1 = 3 ∧ p2 = 1 ∧ p3 = 2 then pure " 0=4"
      else if p1 = 3 ∧ p2 = 2 ∧ p3 = 1 then pure " 0=5"
      else pure ""
  | [_, p1, p2, p3, p4] =>
      if p1 = 1 ∧ p2 = 2 ∧ p3 = 3 ∧ p4 = 4 then pure " 0=0"
      else if p1 = 1 ∧ p2 = 3 ∧ p3 = 4 ∧ p4 = 2 then pure " 0=1"
      else if p1 = 2 ∧ p2 = 1 ∧ p3 = 3 ∧ p4 = 4 then pure " 0=2"
      else if p1 = 2 ∧ p2 = 3 ∧ p3 = 4 ∧ p4 = 1 then pure " 0=3"
      else if p1 = 3 ∧ p2 = 4 ∧ p3 = 1 ∧ p4 = 2 then pure " 0=4"
      else if p1 = 3 ∧ p2 = 4 ∧ p3 = 2 ∧ p4 = 1 then pure " 0=5"
      else throw (.unexpected "Unsupported transpose type !")
  | _ => pure ""

/-- Lines 1554-1575: the scale list of an `Upsample` or `Resize`. -/
def resize_scales (weights : StrMap TensorProto) (node : NodeProto) :
    Res (StrMap TensorProto × List F32) := do
  if node.input.length = 1 then pure (weights, get_node_attr_af node "scales")
  else
    let (w1, scales_tp) ← weight_at weights node 1
    let float_data_size : Int ←
      (if scales_tp.float_data.length = 0 then do
        let d0 ← at_idx "dims" scales_tp.dims 0
        pure (to_int32 d0)
      else pure (scales_tp.float_data.length : Int) : Res Int)
    let scales ← read_floats "scales" (float_ptr scales_tp)
      ((List.range float_data_size.toNat).map Int.ofNat)
    pure (w1, scales)

/-- Lines 1577-1589. -/
def resize_type (mode : String) : Res Int :=
  if mode = "nearest" then pure 1
  else if mode = "bilinear" ∨ mode = "linear" then pure 2
  else if mode = "trilinear" then throw (.unexpected "Unsupported Upsample/Resize mode !")
  else pure 1

/-- Lines 1591-1613: `h_scale, w_scale`. -/
def resize_hw (scales : List F32) : Res (F32 × F32) :=
  match scales with
  | [_, s1] => pure (f32_one, s1)
  | [_, s1, s2] => pure (s1, s2)
  | [_, s1, s2, s3] =>
      if s1 ≠ f32_one then throw (.unexpected "Unsupported Upsample/Resize scales !")
      else pure (s2, s3)
  | _ => throw (.unexpected "Unsupported Upsample/Resize scales !")

/-- Lines 1550-1618. -/
def params_resize (fe : FloatEnv) (weights : StrMap TensorProto) (node : NodeProto) :
    Res Params := do
  let mode := get_node_attr_s node "mode" ""
  let (w1, scales) ← resize_scales weights node
  let rt ← resize_type mode
  let (h_scale, w_scale) ← resize_hw scales
  pure { weights := w1,
         text := " 0=" ++ fmt_d rt ++ " 1=" ++ fe.fmt_f h_scale ++ " 2=" ++ fe.fmt_f w_scale }

/-- The operators whose branch of lines 832-1515 prints `0=op_type` and nothing else. -/
def op_type_code (op : String) : Option Int :=
  if op = "Abs" then some 0
  else if op = "Acos" then some 13
  else if op = "Add" then some 0
  else if op = "Asin" then some 12
  else if op = "Atan" then some 14
  else if op = "Ceil" then some 3
  else if op = "Cos" then some 10
  else if op = "Div" then some 3
  else if op = "Exp" then some 7
  else if op = "Floor" then some 2
  else if op = "Log" then some 8
  else if op = "Max" then some 4
  else if op = "Min" then some 5
  else if op = "Mul" then some 2
  else if op = "Neg" then some 1
  else if op = "Pow" then some 6
  else if op = "Reciprocal" then some 15
  else if op = "Sin" then some 9
  else if op = "Sqrt" then some 5
  else if op = "Sub" then some 1
  else if op = "Sum" then some 1
  else if op = "Tan" then some 11
  else none

/-- A parameter branch that prints `text` and touches neither map nor blob. -/
def text_only (weights : StrMap TensorProto) (text : String) : Params :=
  { weights := weights, text := text }

/-- Lines 832-1642: what a node adds after its blob names; `name` is the layer name
computed at lines 527-531. -/
def write_params (fe : FloatEnv) (st : State) (node : NodeProto) (name : String) : Res Params :=
  let op := node.op_type
  let w := st.weights
  match op_type_code op with
  | some op_type => pure (text_only w (" 0=" ++ fmt_d op_type))
  | none =>
    if op = "AveragePool" ∨ op = "MaxPool" then pure (text_only w (params_pool node))
    else if op = "BatchNormalization" then params_batchnorm fe w node
    else if op = "Clip" then
      pure (text_only w (" 0=" ++ fe.fmt_f (get_node_attr_f node "min" f32_neg_flt_max)
                          ++ " 1=" ++ fe.fmt_f (get_node_attr_f node "max" f32_flt_max)))
    else if op = "Concat" then
      pure (text_only w (" 0=" ++ fmt_d (to_int32 (get_node_attr_i node "axis" 1 - 1))))
    else if op = "Constant" then pure (params_constant st name)
    else if op = "Conv" then params_conv w node
    else if op = "ConvTranspose" then params_deconv w node
    else if op = "Dropout" then pure (text_only w "")
    else if op = "Elu" then
      pure (text_only w (" 0=" ++ fe.fmt_f (get_node_attr_f node "alpha" f32_one)))
    else if op = "Flatten" then
      let axis := get_node_attr_i node "axis" 1
      if axis ≠ 1 then throw (.unexpected ("Unsupported Flatten axis " ++ fmt_d axis ++ "!"))
      else pure (text_only w "")
    else if op = "Gemm" then params_gemm w node
    else if op = "GlobalAveragePool" then pure (text_only w (" 0=" ++ fmt_d 1 ++ " 4=" ++ fmt_d 1))
    else if op = "GlobalMaxPool" then pure (text_only w (" 0=" ++ fmt_d 0 ++ " 4=" ++ fmt_d 1))
    else if op = "ImageScaler" then pure (params_imagescaler w node)
    else if op = "InstanceNormalization" then params_instancenorm fe w node
    else if op = "LeakyRelu" then
      pure (text_only w (" 0=" ++ fe.fmt_f (get_node_attr_f node "alpha" f32_0p01)))
    else if op = "LRN" then pure (text_only w (params_lrn fe node))
    else if op = "MatMul" then params_matmul w node
    else if op = "Pad" then (params_pad fe node).map (text_only w)
    else if op = "PRelu" then params_prelu w node
    else if op = "Reshape" then params_reshape w node
    else if op = "Sigmoid" then pure (text_only w "")
    else if op = "Slice" then (params_slice node).map (text_only w)
    else if op = "Softmax" then
      pure (text_only w (" 0=" ++ fmt_d (to_int32 (get_node_attr_i node "axis" 1 - 1)) ++ " 1=1"))
    else if op = "Transpose" then (params_transpose node).map (text_only w)
    else if op = "Upsample" ∨ op = "Resize" then params_resize fe w node
    else pure (text_only w "")

/-! ## Phase 3: the node loop (lines 514-1670) -/

/-- Lines 533-547: the number of inputs that are not weights. -/
def count_runtime_inputs (weights : StrMap TensorProto) (inputs : List String) : Int :=
  (inputs.length : Int) - ((inputs.filter (fun x => map_contains weights x)).length : Int)

/-- Lines 802-823: the reference counts after the input names are written, and the
names written, each use of a counted name taking the next split output. -/
def write_inputs (weights : StrMap TensorProto) :
    StrMap Int → List String → StrMap Int × List String
  | nr, [] => (nr, [])
  | nr, input_name :: rest =>
      if map_contains weights input_name then write_inputs weights nr rest
      else
        match map_find nr input_name with
        | some c =>
            let refidx := c - 1
            let r := write_inputs weights (map_set nr input_name refidx) rest
            (r.1, (input_name ++ "_splitncnn_" ++ fmt_d refidx) :: r.2)
        | none =>
            let r := write_inputs weights nr rest
            (r.1, input_name :: r.2)

/-- Lines 534 and 637: the number of outputs written, 1 for a `Dropout`. -/
def output_size (node : NodeProto) : Nat :=
  if node.op_type = "Dropout" then 1 else node.output.length

/-- The names `node.output(j)` for `j < output_size`. -/
def first_outputs (node : NodeProto) (n : Nat) : Res (List String) :=
  if n ≤ node.output.length then pure (node.output.take n)
  else throw (.bad_access "output")

/-- Lines 1646-1669: the `Split` lines written after a node, `internal_split` being
the number of the first of them. -/
def split_lines (nr : StrMap Int) : Int → List String → List String
  | _, [] => []
  | internal_split, output_name :: rest =>
      match map_find nr output_name with
      | some refcount =>
          if refcount > 1 then
            split_line ("splitncnn_" ++ fmt_d internal_split) output_name refcount
              :: split_lines nr (internal_split + 1) rest
          else split_lines nr internal_split rest
      | none => split_lines nr internal_split rest

/-- The tokens ` a b c` for the names `a`, `b`, `c`. -/
def name_tokens (names : List String) : String :=
  String.join (names.map (fun n => " " ++ n))

/-- The line of a node (lines 556-1644): kind, layer name, counts, blob names, keys. -/
def node_line (kind name : String) (input_size : Int) (n_out : Nat)
    (inputs outputs : List String) (params : String) : String :=
  kind ++ " " ++ fmt_ls 24 name ++ " " ++ fmt_d input_size ++ " " ++ fmt_d (n_out : Int)
    ++ name_tokens inputs ++ name_tokens outputs ++ params ++ "\n"

/-- Lines 800-1669 for a node whose kind `kind` has been printed. -/
def emit_layer (fe : FloatEnv) (st : State) (node : NodeProto) (name kind : String) :
    Res State := do
  let outputs ← first_outputs node (output_size node)
  let p ← write_params fe st node name
  pure
    (let input_size := count_runtime_inputs st.weights node.input
     let r := write_inputs st.weights st.node_reference node.input
     let splits := split_lines r.1 st.internal_split outputs
     { st with
        pp := st.pp ++ node_line kind name input_size (output_size node) r.2 outputs p.text
                :: splits,
        bv := st.bv ++ p.bytes,
        weights := p.weights,
        node_reference := r.1,
        internal_split := st.internal_split + (splits.length : Int) })

/-- One iteration of the loop of lines 514-1670. -/
def emit_node (fe : FloatEnv) (st : State) (node : NodeProto) : Res State :=
  if node.op_type = "noop_reducedncnn" then pure st
  else do
    let name ← layer_name node
    let k ← layer_kind st node
    match k with
    | .skip => pure st
    | .kind kind => emit_layer fe st node name kind

def emit_nodes (fe : FloatEnv) : State → List NodeProto → Res State
  | st, [] => pure st
  | st, node :: rest => do
      let st1 ← emit_node fe st node
      emit_nodes fe st1 rest

/-! ## The conversion -/

/-- Lines 428-512: the state when the node loop starts. -/
def emit_prelude (graph : GraphProto) (st : State) : State :=
  place_memorydata
    (place_inputs (write_header graph.node.length graph.initializer.length st) graph.input)
    graph.input

/-- Lines 182-1670: the state when the node loop ends. -/
def run (fe : FloatEnv) (graph : GraphProto) : Res State := do
  let st1 ← classify graph
  let r ← fuse_nodes st1 graph.node
  emit_nodes fe (emit_prelude graph r.1) r.2

/-- Lines 182-1672, from the parsed graph to the two buffers. -/
def convert (fe : FloatEnv) (graph : GraphProto) : Res (String × List Nat) := do
  let st ← run fe graph
  pure (String.join st.pp, st.bv)

/-- The function `onnx2ncnn`; `parsed` is what `ParseFromString` made of the input
bytes, `none` when it returned false. -/
def onnx2ncnn (fe : FloatEnv) (parsed : Option GraphProto) : Res (String × List Nat) :=
  match parsed with
  | none => throw (.unexpected "read_proto_from_binary failed")
  | some graph => convert fe graph

/-! ## The runs of the two loops, as relations

`Fused st l st' l'` holds when the fusion loop, started in state `st` on the nodes
`l`, ends in state `st'` with the nodes rewritten to `l'`; `emitter_state_at` is the
state of the emitter when it reaches the node at index `i`. -/

/-- The graph of `fuse_nodes` on the runs that end without a fault. -/
inductive Fused : State → List NodeProto → State → List NodeProto → Prop where
  | nil (st : State) : Fused st [] st []
  | skip {st st1 st2 : State} {node : NodeProto} {rest out : List NodeProto} :
      fuse_check st node rest.head? = .ok (.skip st1) → Fused st1 rest st2 out →
      Fused st (node :: rest) st2 (node :: out)
  | reduce {st st1 st2 : State} {node node2 node1 node2a : NodeProto}
      {rest out : List NodeProto} {input0 output0 : String} {B : TensorProto} :
      fuse_check st node (some node2) = .ok (.reduce input0 output0 B) →
      fuse_reduce st node node2 input0 output0 B = .ok (st1, node1, node2a) →
      Fused st1 rest st2 out →
      Fused st (node :: node2 :: rest) st2 (node1 :: node2a :: out)

/-- How the fusion loop may change a node: not at all, a `Transpose` into the marker
`noop_reducedncnn`, or the second input of a `MatMul`. -/
def NodeRel (n n1 : NodeProto) : Prop :=
  n1 = n ∨ (n.op_type = "Transpose" ∧ n1 = { n with op_type := "noop_reducedncnn" })
    ∨ (n.op_type = "MatMul" ∧ ∃ w, n1 = { n with input := n.input.set 1 w })

/-- Every key of `binaryop_weights` is an input of an `Add` or `Mul` node of `nodes`. -/
def BinaryOpKeys (nodes : List NodeProto) (st : State) : Prop :=
  ∀ k, map_contains st.binaryop_weights k = true →
    ∃ n ∈ nodes, (n.op_type = "Add" ∨ n.op_type = "Mul") ∧ k ∈ n.input

/-- The state in which the node loop of lines 514-1670 reaches index `i`, with the
nodes from index `i` on as the rewriter left them. -/
def emitter_state_at (fe : FloatEnv) (graph : GraphProto) (i : Nat) :
    Res (State × List NodeProto) := do
  let st1 ← classify graph
  let r ← fuse_nodes st1 graph.node
  let sa ← emit_nodes fe (emit_prelude graph r.1) (r.2.take i)
  pure (sa, r.2.drop i)

/-! ## Reading a param buffer back

The properties below speak about the header numbers and about the layer lines of the
text the conversion returns; these functions take that text apart along the grammar
`kind name in_count out_count blob_name* (key=value)*`. -/

def split_chars (sep : Char) : List Char → List (List Char)
  | [] => [[]]
  | c :: rest =>
      if c = sep then [] :: split_chars sep rest
      else
        match split_chars sep rest with
        | [] => [[c]]
        | cur :: more => (c :: cur) :: more

def text_lines (pp : String) : List String :=
  (split_chars '\n' pp.data).map String.mk

/-- The non-empty lines below the magic line and the header line. -/
def layer_lines (pp : String) : List String :=
  ((text_lines pp).drop 2).filter (fun l => l ≠ "")

def line_tokens (l : String) : List String :=
  ((split_chars ' ' l.data).filter (fun t => t ≠ [])).map String.mk

def parse_digits : List Char → Nat → Option Nat
  | [], acc => some acc
  | c :: rest, acc =>
      if 48 ≤ c.toNat ∧ c.toNat ≤ 57 then parse_digits rest (acc * 10 + (c.toNat - 48))
      else none

def parse_nat (s : String) : Option Nat :=
  if s.data = [] then none else parse_digits s.data 0

/-- The two numbers of the header line, the line after the magic line. -/
def header_counts (pp : String) : Option (Nat × Nat) :=
  match text_lines pp with
  | _ :: h :: _ =>
      match line_tokens h with
      | [a, b] =>
          match parse_nat a, parse_nat b with
          | some l, some n => some (l, n)
          | _, _ => none
      | _ => none
  | _ => none

/-- A layer line taken apart. -/
structure LayerLine where
  kind : String
  name : String
  inputs : List String
  outputs : List String
  params : List String
  deriving DecidableEq, Repr

def parse_layer (l : String) : Option LayerLine :=
  match line_tokens l with
  | kind :: name :: ic :: oc :: rest =>
      match parse_nat ic, parse_nat oc with
      | some i, some o =>
          if i + o ≤ rest.length then
            some { kind := kind, name := name, inputs := rest.take i,
                   outputs := (rest.drop i).take o, params := rest.drop (i + o) }
          else none
      | _, _ => none
  | _ => none

/-- The layer lines of a param buffer, each taken apart (`none` for a line that
does not follow the grammar). -/
def layers (pp : String) : List (Option LayerLine) :=
  (layer_lines pp).map parse_layer

/-- The distinct names written as an output of some layer. -/
def output_names (pp : String) : List String :=
  ((layers pp).flatMap (fun l => match l with | some x => x.outputs | none => [])).foldl
    set_insert []

/-- The `Split` layers whose input is `name`. -/
def splits_of (pp : String) (name : String) : List LayerLine :=
  (layers pp).filterMap (fun l =>
    match l with
    | some x => if x.kind = "Split" ∧ x.inputs = [name] then some x else none
    | none => none)

/-- The source operators of the table of supported operators. -/
def supported_ops : List String :=
  ["Abs", "Acos", "Asin", "Atan", "Ceil", "Cos", "Exp", "Floor", "Log", "Neg", "Reciprocal",
   "Sin", "Sqrt", "Tan", "Add", "Sub", "Mul", "Div", "Max", "Min", "Pow", "Sum",
   "AveragePool", "MaxPool", "GlobalAveragePool", "GlobalMaxPool", "BatchNormalization",
   "Clip", "Concat", "Constant", "Conv", "ConvTranspose", "Dropout", "Elu", "Flatten", "Gemm",
   "ImageScaler", "InstanceNormalization", "LeakyRelu", "LRN", "MatMul", "Pad", "PRelu",
   "Relu", "Reshape", "Sigmoid", "Softmax", "Slice", "Transpose", "Upsample", "Resize"]

/-! ## Example graphs -/

/-- A float with the given first byte, for payloads whose value plays no role. -/
def f32_of_byte (b : Nat) : F32 := ⟨b, 0, 0, 0⟩

/-- Input `x`, initializer `k` of shape (1), listed among the graph inputs, and the
nodes `Add(x,k) -> y`, `Add(y,k) -> z`: the weight `k` has two runtime uses. -/
def shared_weight_graph : GraphProto :=
  { node := [{ op_type := "Add", input := ["x", "k"], output := ["y"] },
             { op_type := "Add", input := ["y", "k"], output := ["z"] }],
    initializer := [{ name := "k", dims := [1], data_type := 1, float_data := [f32_of_byte 7] }],
    input := ["x", "k"] }

def shared_weight_param : String :=
  "7767517\n5 6\n" ++
  "Input            x                        0 1 x\n" ++
  "MemoryData       k                        0 1 k 0=1\n" ++
  "BinaryOp         y                        2 1 x k_splitncnn_1 y 0=0\n" ++
  "BinaryOp         z                        2 1 y k_splitncnn_0 z 0=0\n"

/-- Input `x`, initializer `k` of shape (1), and the nodes `Sub(x,k) -> y`,
`Add(y,k) -> z`, `Add(z,k) -> w`: `k` is still a weight when the classifier visits
the `Sub` and a binary-op weight when the emitter writes it. -/
def late_weight_graph : GraphProto :=
  { node := [{ op_type := "Sub", input := ["x", "k"], output := ["y"] },
             { op_type := "Add", input := ["y", "k"], output := ["z"] },
             { op_type := "Add", input := ["z", "k"], output := ["w"] }],
    initializer := [{ name := "k", dims := [1], data_type := 1, float_data := [f32_of_byte 7] }],
    input := ["x", "k"] }

def late_weight_param : String :=
  "7767517\n6 7\n" ++
  "Input            x                        0 1 x\n" ++
  "MemoryData       k                        0 1 k 0=1\n" ++
  "BinaryOp         y                        2 1 x k_splitncnn_1 y 0=1\n" ++
  "BinaryOp         z                        2 1 y k_splitncnn_0 z 0=0\n" ++
  "BinaryOp         w                        2 1 z k_splitncnn_-1 w 0=0\n"

/-- Input `x`, a `Constant` node named `c0` that produces `k` (shape (1), one float)
and the node `Add(x,k) -> y`. -/
def named_constant_graph : GraphProto :=
  { node := [{ op_type := "Constant", name := "c0", output := ["k"],
               attrs := [{ name := "value",
                           t := { dims := [1], data_type := 1, float_data := [f32_of_byte 7] } }] },
             { op_type := "Add", input := ["x", "k"], output := ["y"] }],
    input := ["x"] }

def named_constant_param : String :=
  "7767517\n3 3\n" ++
  "Input            x                        0 1 x\n" ++
  "MemoryData       c0                       0 1 k\n" ++
  "BinaryOp         y                        2 1 x k y 0=0\n"

/-- A float environment for the example graphs: none of them adds two floats or
prints one, so neither function is ever called on them. -/
def example_floats : FloatEnv := ⟨fun a _ => a, fun _ => "0.000000"⟩

/-- The state in which the emitter reaches the first node of `named_constant_graph`. -/
def named_constant_state : State :=
  { pp := ["7767517\n", "3 3\n", "Input            x                        0 1 x\n"],
    binaryop_weights := [("k", { dims := [1], data_type := 1, float_data := [f32_of_byte 7] })],
    blob_names := ["x", "k", "y"],
    input_node_count := 1 }

/-- Input `x` and one node whose operator is the marker the rewriter gives a collapsed
`Transpose`. -/
def marker_graph : GraphProto :=
  { node := [{ op_type := "noop_reducedncnn", input := ["x"], output := ["y"] }],
    input := ["x"] }

/-- Input `x` and the node `Einsum(x) -> y`. -/
def einsum_graph : GraphProto :=
  { node := [{ op_type := "Einsum", input := ["x"], output := ["y"] }], input := ["x"] }

/-- Input `x` and an `Einsum` node with an empty name and no output. -/
def nameless_einsum_graph : GraphProto :=
  { node := [{ op_type := "Einsum", input := ["x"] }], input := ["x"] }

/-- The state in which the emitter reaches the node of `einsum_graph`. -/
def einsum_state : State :=
  { pp := ["7767517\n", "2 2\n", "Input            x                        0 1 x\n"],
    blob_names := ["x", "y"],
    input_node_count := 1 }

/-- The weight `W` of shape (3,4) with the floats 0..11 (first bytes) in row-major
order. -/
def fusion_weight : TensorProto :=
  { name := "W", dims := [3, 4], data_type := 1, float_data := (List.range 12).map f32_of_byte }

/-- The `Transpose` node shared by the two graphs below: `Transpose(W, perm=[1,0]) -> Wt`. -/
def transpose_node : NodeProto :=
  { op_type := "Transpose", input := ["W"], output := ["Wt"],
    attrs := [{ name := "perm", ints := [1, 0] }] }

/-- Input `x`, initializer `W` of shape (3,4), nodes `Transpose(W, perm=[1,0]) -> Wt`
and `MatMul(x, Wt) -> y`. -/
def fusion_graph : GraphProto :=
  { node := [transpose_node, { op_type := "MatMul", input := ["x", "Wt"], output := ["y"] }],
    initializer := [fusion_weight],
    input := ["x"] }

/-- The state of `fusion_graph` after the classifier. -/
def fusion_classified : State :=
  { pp := ["7767517\n"],
    node_reference := [("x", 1), ("Wt", 1)],
    weights := [("W", fusion_weight)],
    blob_names := ["Wt", "x", "y"],
    input_node_count := 1 }

/-- The floats of `W` after the rewriter: the (4,3) transposition of 0..11. -/
def fusion_permuted : List F32 :=
  [0, 4, 8, 1, 5, 9, 2, 6, 10, 3, 7, 11].map f32_of_byte

/-- The state of `fusion_graph` after the rewriter. -/
def fusion_fused : State :=
  { pp := ["7767517\n"],
    node_reference := [("x", 1)],
    weights := [("W", { fusion_weight with dims := [4, 3], float_data := fusion_permuted })],
    blob_names := ["x", "y"],
    input_node_count := 1,
    reduced_node_count := 1 }

def fusion_param : String :=
  "7767517\n2 2\n" ++
  "Input            x                        0 1 x\n" ++
  "InnerProduct     y                        1 1 x y 0=3 1=0 2=12\n"

/-- Input `x`, initializers `W` of shape (1,2) and `K` of shape (2,1), nodes
`Transpose(W, perm=[1,0]) -> Wt` and `MatMul(x, K) -> y`: nothing consumes `Wt`. -/
def unused_transpose_graph : GraphProto :=
  { node := [transpose_node, { op_type := "MatMul", input := ["x", "K"], output := ["y"] }],
    initializer := [{ name := "W", dims := [1, 2], data_type := 1,
                      float_data := [f32_of_byte 1, f32_of_byte 2] },
                    { name := "K", dims := [2, 1], data_type := 1,
                      float_data := [f32_of_byte 3, f32_of_byte 4] }],
    input := ["x"] }

def unused_transpose_param : String :=
  "7767517\n4 3\n" ++
  "Input            x                        0 1 x\n" ++
  "Permute          Wt                       0 1 Wt\n" ++
  "InnerProduct     y                        1 1 x y 0=1 1=0 2=2\n"

/-- The row-major floats `T` of the (w,h) transposition of the (h,w) floats `data`:
`T[j*h + k] = data[k*w + j]` for `j < w` and `k < h`. -/
def transposed (h w : Nat) (data : List F32) : List F32 :=
  (List.range w).flatMap (fun j => (List.range h).map (fun k => data.getD (k * w + j) f32_zero))

/-- Inputs `x`, `z`, initializers `W1`, `W2` of shape (1,2) and `K` of shape (2,1),
nodes `Transpose(W1) -> Wt`, `MatMul(x, Wt) -> y`, `Transpose(W2) -> Wt`,
`MatMul(z, K) -> y2`: the two `Transpose` nodes write the same name. -/
def duplicate_output_graph : GraphProto :=
  { node := [{ transpose_node with input := ["W1"] },
             { op_type := "MatMul", input := ["x", "Wt"], output := ["y"] },
             { transpose_node with input := ["W2"] },
             { op_type := "MatMul", input := ["z", "K"], output := ["y2"] }],
    initializer := [{ name := "W1", dims := [1, 2], data_type := 1,
                      float_data := [f32_of_byte 1, f32_of_byte 2] },
                    { name := "W2", dims := [1, 2], data_type := 1,
                      float_data := [f32_of_byte 5, f32_of_byte 6] },
                    { name := "K", dims := [2, 1], data_type := 1,
                      float_data := [f32_of_byte 3, f32_of_byte 4] }],
    input := ["x", "z"] }

def duplicate_output_param : String :=
  "7767517\n6 4\n" ++
  "Input            x                        0 1 x\n" ++
  "Input            z                        0 1 z\n" ++
  "InnerProduct     y                        1 1 x y 0=1 1=0 2=2\n" ++
  "Permute          Wt                       0 1 Wt\n" ++
  "InnerProduct     y2                       1 1 z y2 0=1 1=0 2=2\n"

/-- Input `x` and the nodes `Relu(x) -> r`, `Abs(r) -> a`, `Ceil(r) -> c`. -/
def fanout_graph : GraphProto :=
  { node := [{ op_type := "Relu", input := ["x"], output := ["r"] },
             { op_type := "Abs", input := ["r"], output := ["a"] },
             { op_type := "Ceil", input := ["r"], output := ["c"] }],
    input := ["x"] }

def fanout_param : String :=
  "7767517\n5 6\n" ++
  "Input            x                        0 1 x\n" ++
  "ReLU             r                        1 1 x r\n" ++
  "Split            splitncnn_0              1 2 r r_splitncnn_0 r_splitncnn_1\n" ++
  "UnaryOp          a                        1 1 r_splitncnn_1 a 0=0\n" ++
  "UnaryOp          c                        1 1 r_splitncnn_0 c 0=3\n"

/-- Input `x`, initializer `k` of shape (4) listed among the graph inputs, and the
node `Add(x,k) -> y`. -/
def add_weight_graph : GraphProto :=
  { node := [{ op_type := "Add", input := ["x", "k"], output := ["y"] }],
    initializer := [{ name := "k", dims := [4], data_type := 1,
                      float_data := [1, 2, 3, 4].map f32_of_byte }],
    input := ["x", "k"] }

def add_weight_param : String :=
  "7767517\n3 3\n" ++
  "Input            x                        0 1 x\n" ++
  "MemoryData       k                        0 1 k 0=4\n" ++
  "BinaryOp         y                        2 1 x k y 0=0\n"

/-- The state after lines 800-1669 for a node whose kind `kind` has been printed, whose
written output names are `outputs` and whose parameter branch did `p`. -/
def layer_state (st : State) (node : NodeProto) (name kind : String) (outputs : List String)
    (p : Params) : State :=
  { st with
      pp := st.pp ++ node_line kind name (count_runtime_inputs st.weights node.input)
                (output_size node) (write_inputs st.weights st.node_reference node.input).2
                outputs p.text
              :: split_lines (write_inputs st.weights st.node_reference node.input).1
                   st.internal_split outputs,
      bv := st.bv ++ p.bytes,
      weights := p.weights,
      node_reference := (write_inputs st.weights st.node_reference node.input).1,
      internal_split := st.internal_split
        + ((split_lines (write_inputs st.weights st.node_reference node.input).1
              st.internal_split outputs).length : Int) }

/-- The graph with input `x` whose only node is `node`. -/
def single_node_graph (node : NodeProto) : GraphProto :=
  { node := [node], input := ["x"] }

/-- The state in which the emitter reaches the node of a `single_node_graph` whose node
reads `x` and writes `y`. -/
def single_node_state : State :=
  { pp := ["7767517\n", "2 2\n", "Input            x                        0 1 x\n"],
    blob_names := ["x", "y"],
    input_node_count := 1 }

/-- The node `Slice(x) -> y` with `starts = [0,0]`, `ends = [1,8]`, `steps = [1,2]`. -/
def slice_step_node : NodeProto :=
  { op_type := "Slice", input := ["x"], output := ["y"],
    attrs := [{ name := "starts", ints := [0, 0] }, { name := "ends", ints := [1, 8] },
              { name := "steps", ints := [1, 2] }] }

/-- The node `Flatten(x) -> y` without attributes. -/
def flatten_node : NodeProto :=
  { op_type := "Flatten", input := ["x"], output := ["y"] }

/-- The float 2.0. -/
def f32_two : F32 := ⟨0, 0, 0, 64⟩

/-- The node `Upsample(x) -> y` with the given `mode` and `scales` attributes. -/
def upsample_node (mode : String) (scales : List F32) : NodeProto :=
  { op_type := "Upsample", input := ["x"], output := ["y"],
    attrs := [{ name := "mode", s := mode }, { name := "scales", floats := scales }] }

/-- The node `Transpose(x) -> y` with the given `perm`. -/
def permute_node (perm : List Int) : NodeProto :=
  { op_type := "Transpose", input := ["x"], output := ["y"],
    attrs := [{ name := "perm", ints := perm }] }

/-- The node `Concat(x) -> y` with `axis = 2`. -/
def concat_node : NodeProto :=
  { op_type := "Concat", input := ["x"], output := ["y"], attrs := [{ name := "axis", i := 2 }] }

/-- The node `Softmax(x) -> y` without attributes. -/
def softmax_node : NodeProto :=
  { op_type := "Softmax", input := ["x"], output := ["y"] }

/-- The six values of `(perm[1], perm[2], perm[3], perm[4])` that lines 1533-1546 accept
for a `perm` of 5 entries, each at the index that is its flag. -/
def rank5_patterns : List (Int × Int × Int × Int) :=
  [(1, 2, 3, 4), (1, 3, 4, 2), (2, 1, 3, 4), (2, 3, 4, 1), (3, 4, 1, 2), (3, 4, 2, 1)]

/-- A weight that holds `n` float32 elements: a raw payload of `4 n` bytes, or no raw
payload, the element type FLOAT (1) and `n` unpacked floats. -/
def holds_floats (tp : TensorProto) (n : Nat) : Bool :=
  match tp.raw_data with
  | some raw => raw.length == 4 * n
  | none => tp.data_type == 1 && tp.float_data.length == n

/-- The initializers `scale`, `b`, `mean` (unpacked) and `var` (raw) of two floats each. -/
def batchnorm_weights : List TensorProto :=
  [{ name := "scale", dims := [2], data_type := 1, float_data := [f32_of_byte 1, f32_of_byte 2] },
   { name := "b", dims := [2], data_type := 1, float_data := [f32_of_byte 3, f32_of_byte 4] },
   { name := "mean", dims := [2], data_type := 1, float_data := [f32_of_byte 5, f32_of_byte 6] },
   { name := "var", dims := [2], data_type := 1, raw_data := some [7, 0, 0, 0, 8, 0, 0, 0] }]

/-- The node `BatchNormalization(x, scale, b, mean, var)` with the given outputs. -/
def batchnorm_node (outputs : List String) : NodeProto :=
  { op_type := "BatchNormalization", input := ["x", "scale", "b", "mean", "var"],
    output := outputs }

/-- Input `x`, the initializers `batchnorm_weights` and the node
`batchnorm_node outputs`. -/
def batchnorm_graph (outputs : List String) : GraphProto :=
  { node := [batchnorm_node outputs], initializer := batchnorm_weights, input := ["x"] }

/-- The state in which the emitter reaches the node of `batchnorm_graph ["y"]`. -/
def batchnorm_state : State :=
  { single_node_state with weights := batchnorm_weights.map (fun t => (t.name, t)) }

/-- The node `ConvTranspose(x, W) -> y` with the given `kernel_shape`. -/
def deconv_node (kernel_shape : List Int) : NodeProto :=
  { op_type := "ConvTranspose", input := ["x", "W"], output := ["y"],
    attrs := [{ name := "kernel_shape", ints := kernel_shape }] }

/-- Input `x`, the initializer `W` and the node `deconv_node kernel_shape`. -/
def deconv_graph (W : TensorProto) (kernel_shape : List Int) : GraphProto :=
  { node := [deconv_node kernel_shape], initializer := [W], input := ["x"] }

/-- A weight of dims (2, 3, 1, 2) holding the floats 0..11. -/
def deconv_weight_2d : TensorProto :=
  { name := "W", dims := [2, 3, 1, 2], data_type := 1,
    float_data := (List.range 12).map f32_of_byte }

/-- A weight of dims (1, 1, 3) holding the floats 1, 2, 3. -/
def deconv_weight_1d : TensorProto :=
  { name := "W", dims := [1, 1, 3], data_type := 1,
    float_data := [f32_of_byte 1, f32_of_byte 2, f32_of_byte 3] }

/-- The layer count in the words of the specification: the surviving nodes, the input
nodes, the names whose fan-out count is greater than 1, the initializers, less the
weights, all read after the rewriter. -/
def spec_layer_count (node_count initializer_size : Nat) (st : State) : Int :=
  ((node_count : Int) - st.reduced_node_count) + st.input_node_count
    + ((st.node_reference.filter (fun e => e.2 > 1)).length : Int)
    + (initializer_size : Int) - (st.weights.length : Int)

/-- The blob count in the words of the specification: the blob names, and the sum of
the fan-out counts greater than 1. -/
def spec_blob_count (st : State) : Int :=
  (st.blob_names.length : Int)
    + ((st.node_reference.filter (fun e => e.2 > 1)).map (fun e => e.2)).sum

/-- The state of `unused_transpose_graph` after the classifier. -/
def unused_transpose_classified : State :=
  { pp := ["7767517\n"],
    node_reference := [("x", 1)],
    weights := unused_transpose_graph.initializer.map (fun t => (t.name, t)),
    blob_names := ["Wt", "x", "y"],
    input_node_count := 1 }

/-- The node `Dropout(x) -> y, mask`. -/
def dropout_node : NodeProto :=
  { op_type := "Dropout", input := ["x"], output := ["y", "mask"] }

/-- Input `x`, initializer `W` of shape (3,4), nodes `Transpose(W, perm=[1,0]) -> Wt`,
`Relu(x) -> r` and `MatMul(r, Wt) -> y`: the only reader of `Wt` is the `MatMul`, which
does not stand right after the `Transpose`. -/
def separated_matmul_graph : GraphProto :=
  { node := [transpose_node, { op_type := "Relu", input := ["x"], output := ["r"] },
             { op_type := "MatMul", input := ["r", "Wt"], output := ["y"] }],
    initializer := [fusion_weight],
    input := ["x"] }

/-- The state of `separated_matmul_graph` after the classifier, which the rewriter
leaves as it is. -/
def separated_matmul_classified : State :=
  { pp := ["7767517\n"],
    node_reference := [("x", 1), ("r", 1), ("Wt", 1)],
    weights := [("W", fusion_weight)],
    blob_names := ["Wt", "x", "r", "y"],
    input_node_count := 1 }

/-- The unary operators of the specification's table with their `op_type` codes. -/
def unary_codes : List (String × Int) :=
  [("Abs", 0), ("Neg", 1), ("Floor", 2), ("Ceil", 3), ("Sqrt", 5), ("Exp", 7), ("Log", 8),
   ("Sin", 9), ("Cos", 10), ("Tan", 11), ("Asin", 12), ("Acos", 13), ("Atan", 14),
   ("Reciprocal", 15)]

/-- The binary operators of the specification's table with their `op_type` codes. -/
def binary_codes : List (String × Int) :=
  [("Add", 0), ("Sub", 1), ("Mul", 2), ("Div", 3), ("Max", 4), ("Min", 5), ("Pow", 6)]

/-- The node `Reshape(x) -> y` with the given `shape` attribute. -/
def reshape_node (shape : List Int) : NodeProto :=
  { op_type := "Reshape", input := ["x"], output := ["y"],
    attrs := [{ name := "shape", ints := shape }] }

/-- A weight `k` of dims (2, 3) holding the floats 0..5. -/
def matrix_weight : TensorProto :=
  { name := "k", dims := [2, 3], data_type := 1, float_data := (List.range 6).map f32_of_byte }

/-- Inputs `x` and `k`, the initializer `matrix_weight` and the node `Add(x, k) -> y`. -/
def input_weight_graph : GraphProto :=
  { node := [{ op_type := "Add", input := ["x", "k"], output := ["y"] }],
    initializer := [matrix_weight], input := ["x", "k"] }

/-- Input `x` and the nodes `Constant(value = matrix_weight) -> k`, `Add(x, k) -> y`. -/
def constant_weight_graph : GraphProto :=
  { node := [{ op_type := "Constant", output := ["k"],
               attrs := [{ name := "value", t := matrix_weight }] },
             { op_type := "Add", input := ["x", "k"], output := ["y"] }],
    input := ["x"] }

/-- Input `x` and the node `Relu(x)` with an empty name and no output. -/
def no_output_graph : GraphProto :=
  { node := [{ op_type := "Relu", input := ["x"] }], input := ["x"] }

/-- Input `x`, the initializer `matrix_weight` (`k`) and the nodes `Constant() -> c`
without a `value` attribute and `Reshape(k, s) -> r` whose shape input `s` is not a
weight. -/
def odd_weights_graph : GraphProto :=
  { node := [{ op_type := "Constant", output := ["c"] },
             { op_type := "Reshape", input := ["k", "s"], output := ["r"] }],
    initializer := [matrix_weight], input := ["x"] }

/-- A weight `K` of shape (4,3) with the floats 100..111 (first bytes). -/
def second_weight : TensorProto :=
  { name := "K", dims := [4, 3], data_type := 1,
    float_data := (List.range 12).map (fun k => f32_of_byte (k + 100)) }

/-- Input `x`, initializers `W` of shape (3,4) and `K` of shape (4,3), and the nodes
`Transpose(W, perm=[1,0]) -> Wt`, `MatMul(x, K) -> y`, `Relu(Wt) -> r`: the only reader of
`Wt` is the `Relu`, the `MatMul` behind the `Transpose` reads `K`. -/
def misdirected_matmul_graph : GraphProto :=
  { node := [transpose_node,
             { op_type := "MatMul", input := ["x", "K"], output := ["y"] },
             { op_type := "Relu", input := ["Wt"], output := ["r"] }],
    initializer := [fusion_weight, second_weight],
    input := ["x"] }

/-- No graph input, the initializer `matrix_weight` (`k`) and the node
`Reshape(k, s) -> r` whose shape input `s` is not a weight. -/
def shape_entry_graph : GraphProto :=
  { node := [{ op_type := "Reshape", input := ["k", "s"], output := ["r"] }],
    initializer := [matrix_weight] }

/-- The operators of the element-wise layers: the unary operators, `Relu`, `Sigmoid`, the
binary operators and `Sum`. -/
def elementwise_ops : List String :=
  ["Abs", "Acos", "Asin", "Atan", "Ceil", "Cos", "Exp", "Floor", "Log", "Neg", "Reciprocal",
   "Sin", "Sqrt", "Tan", "Relu", "Sigmoid", "Add", "Sub", "Mul", "Div", "Max", "Min", "Pow",
   "Sum"]

/-- The test of lines 467-474 and 1650-1654: the name has an entry in `node_reference`
and its count exceeds 1, so a `Split` layer follows the layer that writes the blob. -/
def needs_split (nr : StrMap Int) (name : String) : Bool :=
  match map_find nr name with
  | some refcount => decide (1 < refcount)
  | none => false

/-- Inputs `x` and `z`, initializer `W` of shape (3,4), and two `Transpose`-`MatMul` pairs
on the same weight: `Transpose(W, perm=[1,0]) -> Wt`, `MatMul(x, Wt) -> y`,
`Transpose(W, perm=[1,0]) -> Wt2`, `MatMul(z, Wt2) -> y2`. -/
def double_fusion_graph : GraphProto :=
  { node := [transpose_node,
             { op_type := "MatMul", input := ["x", "Wt"], output := ["y"] },
             { transpose_node with output := ["Wt2"] },
             { op_type := "MatMul", input := ["z", "Wt2"], output := ["y2"] }],
    initializer := [fusion_weight],
    input := ["x", "z"] }

/-! ## Evaluations shared by several results -/

set_option maxRecDepth 100000 in
theorem shared_weight_convert (fe : FloatEnv) :
    convert fe shared_weight_graph = .ok (shared_weight_param, [7, 0, 0, 0]) := by
  rfl

set_option maxRecDepth 100000 in
theorem shared_weight_fanout :
    (classify shared_weight_graph).map (fun st => map_find st.node_reference "k")
      = .ok (some 2) := by
  decide

/-! ## Results on binds, maps and frames -/

theorem bind_ok {α β : Type} {x : Res α} {f : α → Res β} {b : β}
    (h : (x >>= f) = .ok b) : ∃ a, x = .ok a ∧ f a = .ok b := by
  cases x with
  | error e => cases h
  | ok a => exact ⟨a, rfl, h⟩

theorem emit_layer_bw {fe : FloatEnv} {st st1 : State} {node : NodeProto} {name kind : String}
    (h : emit_layer fe st node name kind = .ok st1) :
    st1.binaryop_weights = st.binaryop_weights := by
  unfold emit_layer at h
  obtain ⟨outs, _, h⟩ := bind_ok h
  obtain ⟨p, _, h⟩ := bind_ok h
  cases h; rfl

theorem emit_node_bw {fe : FloatEnv} {st st1 : State} {node : NodeProto}
    (h : emit_node fe st node = .ok st1) :
    st1.binaryop_weights = st.binaryop_weights := by
  unfold emit_node at h
  split at h
  · cases h; rfl
  · obtain ⟨name, _, h⟩ := bind_ok h
    obtain ⟨k, _, h⟩ := bind_ok h
    cases k with
    | skip => cases h; rfl
    | kind text => exact emit_layer_bw h

theorem emit_nodes_bw {fe : FloatEnv} {nodes : List NodeProto} {st st1 : State}
    (h : emit_nodes fe st nodes = .ok st1) :
    st1.binaryop_weights = st.binaryop_weights := by
  induction nodes generalizing st with
  | nil => cases h; rfl
  | cons n rest ih =>
    unfold emit_nodes at h
    obtain ⟨s, hs, h⟩ := bind_ok h
    rw [ih h, emit_node_bw hs]

theorem place_memorydata_bw (inputs : List String) (st : State) :
    (place_memorydata st inputs).binaryop_weights = st.binaryop_weights := by
  induction inputs generalizing st with
  | nil => rfl
  | cons n rest ih =>
    unfold place_memorydata
    split
    · exact ih _
    · rw [ih]

theorem emit_prelude_bw (graph : GraphProto) (st : State) :
    (emit_prelude graph st).binaryop_weights = st.binaryop_weights := by
  unfold emit_prelude
  rw [place_memorydata_bw]; rfl

theorem fuse_check_bw {st : State} {node : NodeProto} {next : Option NodeProto} {st1 : State}
    (h : fuse_check st node next = .ok (.skip st1)) :
    st1.binaryop_weights = st.binaryop_weights := by
  unfold fuse_check at h
  split at h
  · obtain ⟨i0, _, h⟩ := bind_ok h
    split at h
    · cases h; rfl
    · split at h
      · cases h; rfl
      · obtain ⟨o0, _, h⟩ := bind_ok h
        simp only [pure, Except.pure, Except.ok.injEq] at h
        unfold fuse_check_weight at h
        simp only at h
        split at h
        · cases h; rfl
        · split at h
          · cases h; rfl
          · split at h
            · cases h; rfl
            · split at h
              · cases h; rfl
              · split at h
                · cases h; rfl
                · cases h
  · cases h; rfl

theorem fuse_reduce_bw {st : State} {node node2 : NodeProto} {i0 o0 : String} {B : TensorProto}
    {st1 : State} {n1 n2 : NodeProto}
    (h : fuse_reduce st node node2 i0 o0 B = .ok (st1, n1, n2)) :
    st1.binaryop_weights = st.binaryop_weights := by
  unfold fuse_reduce at h
  split at h
  · cases h
  · obtain ⟨B1, _, h⟩ := bind_ok h
    cases h; rfl

theorem fuse_check_none {st : State} {node : NodeProto} {i0 o0 : String} {B : TensorProto} :
    fuse_check st node none ≠ .ok (.reduce i0 o0 B) := by
  intro h
  unfold fuse_check at h
  split at h
  · obtain ⟨i0, _, h⟩ := bind_ok h
    split at h
    · cases h
    · split at h
      · cases h
      · obtain ⟨o0, _, h⟩ := bind_ok h
        simp only [pure, Except.pure, Except.ok.injEq] at h
        unfold fuse_check_weight at h
        simp only at h
        split at h
        · cases h
        · split at h
          · cases h
          · split at h
            · cases h
            · cases h
  · cases h

theorem fuse_nodes_fused {nodes : List NodeProto} {st st' : State} {out : List NodeProto}
    (h : fuse_nodes st nodes = .ok (st', out)) : Fused st nodes st' out := by
  induction st, nodes using fuse_nodes.induct generalizing st' out with
  | case1 st => unfold fuse_nodes at h; cases h; exact .nil _
  | case2 st node e he => unfold fuse_nodes at h; rw [he] at h; cases h
  | case3 st node st1 hs =>
    unfold fuse_nodes at h; rw [hs] at h; cases h
    exact .skip hs (.nil _)
  | case4 st node i0 o0 B hr => exact absurd hr fuse_check_none
  | case5 st node node2 rest e he => unfold fuse_nodes at h; rw [he] at h; cases h
  | case6 st node node2 rest st1 hs e he _ =>
    unfold fuse_nodes at h; rw [hs] at h; simp only [he] at h; cases h
  | case7 st node node2 rest st1 hs st2 nodes hn ih =>
    unfold fuse_nodes at h; rw [hs] at h; simp only [hn] at h; cases h
    exact .skip hs (ih hn)
  | case8 st node node2 rest i0 o0 B hr e he =>
    unfold fuse_nodes at h; rw [hr] at h; simp only [he] at h; cases h
  | case9 st node node2 rest i0 o0 B hr st1 n1 n2a hred e he _ =>
    unfold fuse_nodes at h; rw [hr] at h; simp only [hred, he] at h; cases h
  | case10 st node node2 rest i0 o0 B hr st1 n1 n2a hred st2 nodes hn ih =>
    unfold fuse_nodes at h; rw [hr] at h; simp only [hred, hn] at h; cases h
    exact .reduce hr hred (ih hn)

theorem map_find_set {α : Type} (m : StrMap α) (k k' : String) (v : α) :
    map_find (map_set m k v) k' = if k = k' then some v else map_find m k' := by
  induction m with
  | nil => simp [map_set, map_find]
  | cons e rest ih =>
    obtain ⟨a, w⟩ := e
    unfold map_set
    by_cases hak : a = k
    · subst hak
      simp only [if_true, map_find]
      by_cases hk : a = k' <;> simp [hk]
    · simp only [hak, if_false, map_find, ih]
      by_cases hk : a = k'
      · subst hk
        simp [Ne.symm hak]
      · simp [hk]

theorem count_inputs_bw (inputs : List String) (st : State) :
    (count_inputs st inputs).binaryop_weights = st.binaryop_weights := by
  induction inputs generalizing st with
  | nil => rfl
  | cons a rest ih =>
    unfold count_inputs
    split
    · exact ih _
    · rw [ih]

theorem classify_tail_bw {st st1 : State} {node : NodeProto}
    (h : classify_tail st node = .ok st1) :
    st1.binaryop_weights = st.binaryop_weights := by
  unfold classify_tail at h
  split at h
  · obtain ⟨o, _, h⟩ := bind_ok h
    cases h
    exact count_inputs_bw _ _
  · cases h
    exact count_inputs_bw _ _

theorem move_binaryop_weights_keys (inputs : List String) (st : State) (k : String)
    (h : map_contains (move_binaryop_weights st inputs).binaryop_weights k = true) :
    map_contains st.binaryop_weights k = true ∨ k ∈ inputs := by
  induction inputs generalizing st with
  | nil => exact Or.inl h
  | cons a rest ih =>
    unfold move_binaryop_weights at h
    split at h
    · rcases ih _ h with h1 | h1
      · simp only [map_contains, map_find_set] at h1
        by_cases hak : a = k
        · right; simp [hak]
        · left; simpa [map_contains, hak] using h1
      · right; exact List.mem_cons_of_mem _ h1
    · rcases ih _ h with h1 | h1
      · exact Or.inl h1
      · right; exact List.mem_cons_of_mem _ h1

theorem classify_body_keys {st st1 : State} {node : NodeProto}
    (h : classify_body st node = .ok st1) (k : String)
    (hk : map_contains st1.binaryop_weights k = true) :
    map_contains st.binaryop_weights k = true ∨
      ((node.op_type = "Add" ∨ node.op_type = "Mul") ∧ k ∈ node.input) := by
  unfold classify_body at h
  split at h
  · unfold classify_constant at h
    obtain ⟨o, _, h⟩ := bind_ok h
    cases h; exact Or.inl hk
  · split at h
    · split at h
      · unfold classify_reshape1 at h
        obtain ⟨i0, _, h⟩ := bind_ok h
        split at h
        · obtain ⟨o, _, h⟩ := bind_ok h
          cases h; exact Or.inl hk
        · rw [classify_tail_bw h] at hk; exact Or.inl hk
      · split at h
        · unfold classify_reshape2 at h
          obtain ⟨i0, _, h⟩ := bind_ok h
          split at h
          · obtain ⟨o, _, h⟩ := bind_ok h
            obtain ⟨i1, _, h⟩ := bind_ok h
            cases h; exact Or.inl hk
          · rw [classify_tail_bw h] at hk; exact Or.inl hk
        · rw [classify_tail_bw h] at hk; exact Or.inl hk
    · split at h
      · rename_i hop
        rw [classify_tail_bw h] at hk
        rcases move_binaryop_weights_keys _ _ _ hk with h1 | h1
        · exact Or.inl h1
        · exact Or.inr ⟨hop, h1⟩
      · rw [classify_tail_bw h] at hk; exact Or.inl hk

theorem classify_nodes_keys {nodes : List NodeProto} {st st1 : State} (done : List NodeProto)
    (h : classify_nodes st nodes = .ok st1) (hinv : BinaryOpKeys done st) :
    BinaryOpKeys (done ++ nodes) st1 := by
  induction nodes generalizing st done with
  | nil => cases h; simpa using hinv
  | cons n rest ih =>
    unfold classify_nodes at h
    obtain ⟨s, hs, h⟩ := bind_ok h
    have := ih (done ++ [n]) h (by
      intro k hk
      unfold classify_node at hs
      obtain ⟨_, _, hs⟩ := bind_ok hs
      rcases classify_body_keys hs k hk with h1 | h1
      · obtain ⟨m, hm, hm2⟩ := hinv k h1
        exact ⟨m, by simp [hm], hm2⟩
      · exact ⟨n, by simp, h1⟩)
    simpa using this

theorem count_graph_inputs_bw (inputs : List String) (st : State) :
    (count_graph_inputs st inputs).binaryop_weights = st.binaryop_weights := by
  induction inputs generalizing st with
  | nil => rfl
  | cons a rest ih =>
    unfold count_graph_inputs
    split
    · exact ih _
    · split
      · exact ih _
      · rw [ih]

theorem classify_keys {graph : GraphProto} {st : State} (h : classify graph = .ok st) :
    BinaryOpKeys graph.node st := by
  unfold classify at h
  obtain ⟨s, hs, h⟩ := bind_ok h
  cases h
  have := classify_nodes_keys [] hs (by intro k hk; simp [map_contains, map_find] at hk)
  intro k hk
  rw [count_graph_inputs_bw] at hk
  simpa using this k hk

theorem fuse_check_reduce {st : State} {node : NodeProto} {next : Option NodeProto}
    {i0 o0 : String} {B : TensorProto}
    (h : fuse_check st node next = .ok (.reduce i0 o0 B)) :
    node.op_type = "Transpose" ∧ at_idx "input" node.input 0 = .ok i0
      ∧ at_idx "output" node.output 0 = .ok o0 ∧ map_find st.weights i0 = some B
      ∧ B.dims.length = 2 ∧ map_find st.node_reference o0 = some 1
      ∧ get_node_attr_ai node "perm" = [1, 0]
      ∧ ∃ node2, next = some node2 ∧ node2.op_type = "MatMul" := by
  unfold fuse_check at h
  split at h
  · rename_i hop
    obtain ⟨i0', hi0, h⟩ := bind_ok h
    split at h
    · cases h
    · rename_i B' hB
      split at h
      · cases h
      · rename_i hd
        obtain ⟨o0', ho0, h⟩ := bind_ok h
        simp only [pure, Except.pure, Except.ok.injEq] at h
        unfold fuse_check_weight at h
        simp only at h
        split at h
        · cases h
        · rename_i hr
          split at h
          · cases h
          · split at h
            · cases h
            · rename_i hp
              cases next with
              | none => cases h
              | some node2 =>
                simp only at h
                split at h
                · cases h
                · rename_i hm
                  cases h
                  refine ⟨hop, hi0, ho0, hB, by simpa using hd, ?_, by simpa using hp,
                    node2, rfl, by simpa using hm⟩
                  simp only [ne_eq, Decidable.not_not] at hr
                  unfold map_index at hr
                  split at hr
                  · rename_i v hv
                    simp only at hr
                    rw [hv, hr]
                  · simp at hr
  · cases h

theorem fuse_reduce_ok {st : State} {node node2 : NodeProto} {i0 o0 : String} {B : TensorProto}
    {st1 : State} {n1 n2a : NodeProto}
    (h : fuse_reduce st node node2 i0 o0 B = .ok (st1, n1, n2a)) :
    2 ≤ node2.input.length ∧ n1 = { node with op_type := "noop_reducedncnn" }
      ∧ n2a = { node2 with input := node2.input.set 1 i0 }
      ∧ ∃ B1, permute_weight B = .ok B1 ∧
          st1 = { st with node_reference := map_erase st.node_reference o0,
                          blob_names := set_erase st.blob_names o0,
                          weights := map_set st.weights i0 B1,
                          reduced_node_count := st.reduced_node_count + 1 } := by
  unfold fuse_reduce at h
  split at h
  · cases h
  · rename_i hl
    obtain ⟨B1, hB1, h⟩ := bind_ok h
    cases h
    exact ⟨by omega, rfl, rfl, B1, hB1, rfl⟩

theorem fused_rel {st st1 : State} {l l1 : List NodeProto} (h : Fused st l st1 l1) :
    List.Forall₂ NodeRel l l1 := by
  induction h with
  | nil => exact .nil
  | skip _ _ ih => exact .cons (Or.inl rfl) ih
  | reduce hc hr _ ih =>
    obtain ⟨hop, -, -, -, -, -, -, node2, hn, hm⟩ := fuse_check_reduce hc
    cases hn
    obtain ⟨-, h1, h2, -⟩ := fuse_reduce_ok hr
    exact .cons (Or.inr (Or.inl ⟨hop, h1⟩)) (.cons (Or.inr (Or.inr ⟨hm, _, h2⟩)) ih)

theorem fused_bw {st st1 : State} {l l1 : List NodeProto} (h : Fused st l st1 l1) :
    st1.binaryop_weights = st.binaryop_weights := by
  induction h with
  | nil => rfl
  | skip hc _ ih => rw [ih, fuse_check_bw hc]
  | reduce _ hr _ ih => rw [ih, fuse_reduce_bw hr]

theorem forall₂_get {α β : Type} {R : α → β → Prop} {l : List α} {l1 : List β}
    (h : List.Forall₂ R l l1) {i : Nat} {a : α} (hi : l[i]? = some a) :
    ∃ b, l1[i]? = some b ∧ R a b := by
  induction h generalizing i with
  | nil => simp at hi
  | cons hab _ ih =>
    cases i with
    | zero => simp at hi; subst hi; exact ⟨_, by simp, hab⟩
    | succ i => simp at hi; simpa using ih hi

theorem forall₂_get_right {α β : Type} {R : α → β → Prop} {l : List α} {l1 : List β}
    (h : List.Forall₂ R l l1) {i : Nat} {b : β} (hi : l1[i]? = some b) :
    ∃ a, l[i]? = some a ∧ R a b := by
  induction h generalizing i with
  | nil => simp at hi
  | cons hab _ ih =>
    cases i with
    | zero => simp at hi; subst hi; exact ⟨_, by simp, hab⟩
    | succ i => simp at hi; simpa using ih hi

theorem ok_bind {α β : Type} (a : α) (f : α → Res β) : (Except.ok a >>= f) = f a := rfl

theorem error_bind {α β : Type} (e : Fault) (f : α → Res β) :
    ((Except.error e : Res α) >>= f) = Except.error e := rfl

theorem emit_nodes_append (fe : FloatEnv) (l1 l2 : List NodeProto) (st : State) :
    emit_nodes fe st (l1 ++ l2) = emit_nodes fe st l1 >>= fun s => emit_nodes fe s l2 := by
  induction l1 generalizing st with
  | nil => rfl
  | cons n rest ih =>
    simp only [List.cons_append, emit_nodes]
    cases emit_node fe st n with
    | error e => rfl
    | ok s => exact ih s

/-- The whole node loop is the loop up to index `i` followed by the loop from `i`. -/
theorem run_from_state_at (fe : FloatEnv) (graph : GraphProto) (i : Nat) :
    run fe graph = emitter_state_at fe graph i >>= fun r => emit_nodes fe r.1 r.2 := by
  unfold run emitter_state_at
  cases classify graph with
  | error e => rfl
  | ok st1 =>
    simp only [ok_bind]
    cases fuse_nodes st1 graph.node with
    | error e => rfl
    | ok r =>
      simp only [ok_bind]
      have := emit_nodes_append fe (r.2.take i) (r.2.drop i) (emit_prelude graph r.1)
      rw [List.take_append_drop] at this
      rw [this]
      cases emit_nodes fe (emit_prelude graph r.1) (List.take i r.2) with
      | error e => rfl
      | ok s => rfl

theorem state_at_ok {fe : FloatEnv} {graph : GraphProto} {i : Nat} {sa : State}
    {rest : List NodeProto} (h : emitter_state_at fe graph i = .ok (sa, rest)) :
    ∃ st1 st2 nodes, classify graph = .ok st1 ∧ fuse_nodes st1 graph.node = .ok (st2, nodes)
      ∧ emit_nodes fe (emit_prelude graph st2) (nodes.take i) = .ok sa ∧ rest = nodes.drop i := by
  unfold emitter_state_at at h
  obtain ⟨st1, h1, h⟩ := bind_ok h
  obtain ⟨⟨st2, nodes⟩, h2, h⟩ := bind_ok h
  obtain ⟨s, h3, h⟩ := bind_ok h
  cases h
  exact ⟨st1, st2, nodes, h1, h2, h3, rfl⟩

theorem state_at_bw {fe : FloatEnv} {graph : GraphProto} {i : Nat} {sa : State}
    {rest : List NodeProto} (h : emitter_state_at fe graph i = .ok (sa, rest)) :
    BinaryOpKeys graph.node sa := by
  obtain ⟨st1, st2, nodes, h1, h2, h3, -⟩ := state_at_ok h
  intro k hk
  rw [emit_nodes_bw h3, emit_prelude_bw, fused_bw (fuse_nodes_fused h2)] at hk
  exact classify_keys h1 k hk

theorem state_at_rel {fe : FloatEnv} {graph : GraphProto} {i : Nat} {sa : State}
    {node : NodeProto} {rest : List NodeProto}
    (h : emitter_state_at fe graph i = .ok (sa, node :: rest)) :
    ∃ n, graph.node[i]? = some n ∧ NodeRel n node := by
  obtain ⟨st1, st2, nodes, -, h2, -, h4⟩ := state_at_ok h
  have hi : nodes[i]? = some node := by
    have : (nodes.drop i)[0]? = some node := by rw [← h4]; simp
    simpa using this
  exact forall₂_get_right (fused_rel (fuse_nodes_fused h2)) hi

theorem at_idx_zero {α : Type} {what : String} {l : List α} {a : α}
    (h : at_idx what l 0 = .ok a) : l.head? = some a := by
  unfold at_idx at h
  cases l with
  | nil => simp at h
  | cons x xs => simp at h; simp [h]

theorem emit_constant {fe : FloatEnv} {sa sb : State} {node : NodeProto}
    (hop : node.op_type = "Constant") (h : emit_node fe sa node = .ok sb) :
    ∃ o, node.output.head? = some o ∧ (map_contains sa.binaryop_weights o = false → sb = sa) := by
  unfold emit_node at h
  rw [if_neg (by rw [hop]; decide)] at h
  obtain ⟨name, _, h⟩ := bind_ok h
  obtain ⟨k, hk, h⟩ := bind_ok h
  unfold layer_kind at hk
  simp only [hop, if_true] at hk
  obtain ⟨o, ho, hk⟩ := bind_ok hk
  refine ⟨o, at_idx_zero ho, fun hno => ?_⟩
  rw [hno] at hk
  simp only [Bool.false_eq_true, if_false, pure, Except.pure, Except.ok.injEq] at hk
  subst hk
  simp only [pure, Except.pure, Except.ok.injEq] at h
  exact h.symm

theorem layer_kind_unsupported (st : State) {node : NodeProto}
    (hop : node.op_type ∉ supported_ops) :
    layer_kind st node = .error (.unexpected (node.op_type ++ " not supported yet!")) := by
  simp only [supported_ops, List.mem_cons, List.mem_singleton, not_or, List.not_mem_nil,
    not_false_eq_true, and_true] at hop
  unfold layer_kind plain_kind
  simp [hop]
  rfl

theorem emit_node_unsupported (fe : FloatEnv) (st : State) {node : NodeProto} {name : String}
    (hop : node.op_type ∉ supported_ops) (hs : node.op_type ≠ "noop_reducedncnn")
    (hname : layer_name node = .ok name) :
    emit_node fe st node = .error (.unexpected (node.op_type ++ " not supported yet!")) := by
  unfold emit_node
  rw [if_neg hs, hname, ok_bind, layer_kind_unsupported st hop]
  rfl

theorem emit_node_unsupported_not_ok (fe : FloatEnv) (st st1 : State) {node : NodeProto}
    (hop : node.op_type ∉ supported_ops) (hs : node.op_type ≠ "noop_reducedncnn") :
    emit_node fe st node ≠ .ok st1 := by
  intro h
  unfold emit_node at h
  rw [if_neg hs] at h
  obtain ⟨name, _, h⟩ := bind_ok h
  rw [layer_kind_unsupported st hop] at h
  cases h

theorem emit_nodes_mem {fe : FloatEnv} {nodes : List NodeProto} {st st1 : State}
    (h : emit_nodes fe st nodes = .ok st1) {node : NodeProto} (hn : node ∈ nodes) :
    ∃ s s1, emit_node fe s node = .ok s1 := by
  induction nodes generalizing st with
  | nil => simp at hn
  | cons n rest ih =>
    unfold emit_nodes at h
    obtain ⟨s, hs, h⟩ := bind_ok h
    rcases List.mem_cons.mp hn with rfl | hm
    · exact ⟨st, s, hs⟩
    · exact ih h hm

theorem node_rel_unsupported {n node : NodeProto} (h : NodeRel n node)
    (hop : n.op_type ∉ supported_ops) : node = n := by
  rcases h with h | ⟨ht, _⟩ | ⟨hm, _⟩
  · exact h
  · rw [ht] at hop; exact absurd (by decide) hop
  · rw [hm] at hop; exact absurd (by decide) hop

theorem node_rel_unsupported_right {n node : NodeProto} (h : NodeRel n node)
    (hop : node.op_type ∉ supported_ops) (hs : node.op_type ≠ "noop_reducedncnn") :
    node = n := by
  rcases h with h | ⟨_, h⟩ | ⟨hm, w, h⟩
  · exact h
  · rw [h] at hs; exact absurd rfl hs
  · rw [h] at hop; simp only at hop; rw [hm] at hop; exact absurd (by decide) hop

theorem forall₂_mem {α β : Type} {R : α → β → Prop} {l : List α} {l1 : List β}
    (h : List.Forall₂ R l l1) {a : α} (ha : a ∈ l) : ∃ b ∈ l1, R a b := by
  induction h with
  | nil => simp at ha
  | cons hab _ ih =>
    rcases List.mem_cons.mp ha with rfl | hm
    · exact ⟨_, by simp, hab⟩
    · obtain ⟨b, hb, hr⟩ := ih hm
      exact ⟨b, List.mem_cons_of_mem _ hb, hr⟩

theorem convert_ok {fe : FloatEnv} {graph : GraphProto} {r : String × List Nat}
    (h : convert fe graph = .ok r) :
    ∃ st1 st2 nodes st, classify graph = .ok st1 ∧ fuse_nodes st1 graph.node = .ok (st2, nodes)
      ∧ emit_nodes fe (emit_prelude graph st2) nodes = .ok st := by
  unfold convert run at h
  obtain ⟨st, h, _⟩ := bind_ok h
  obtain ⟨st1, h1, h⟩ := bind_ok h
  obtain ⟨⟨st2, nodes⟩, h2, h⟩ := bind_ok h
  exact ⟨st1, st2, nodes, st, h1, h2, h⟩

theorem classify_nodes_names {nodes : List NodeProto} {st st1 : State}
    (h : classify_nodes st nodes = .ok st1) {node : NodeProto} (hn : node ∈ nodes) :
    ∃ name, layer_name node = .ok name := by
  induction nodes generalizing st with
  | nil => simp at hn
  | cons n rest ih =>
    unfold classify_nodes at h
    obtain ⟨s, hs, h⟩ := bind_ok h
    rcases List.mem_cons.mp hn with rfl | hm
    · unfold classify_node at hs
      obtain ⟨name, hname, _⟩ := bind_ok hs
      exact ⟨name, hname⟩
    · exact ih h hm

theorem classify_names {graph : GraphProto} {st : State} (h : classify graph = .ok st)
    {node : NodeProto} (hn : node ∈ graph.node) : ∃ name, layer_name node = .ok name := by
  unfold classify at h
  obtain ⟨s, hs, _⟩ := bind_ok h
  exact classify_nodes_names hs hn

theorem map_find_erase_ne {α : Type} (m : StrMap α) {k k' : String} (h : k ≠ k') :
    map_find (map_erase m k) k' = map_find m k' := by
  induction m with
  | nil => rfl
  | cons e rest ih =>
    obtain ⟨a, w⟩ := e
    unfold map_erase
    by_cases hak : a = k
    · subst hak
      simp only [if_true, map_find, if_neg h]
    · simp only [hak, if_false, map_find, ih]

theorem map_index_find {α : Type} (m : StrMap α) (k k' : String) (d v : α)
    (h : map_find m k' = some v) : map_find (map_index m k d).1 k' = some v := by
  unfold map_index
  split
  · exact h
  · rename_i hk
    simp only [map_find_set]
    by_cases hkk : k = k'
    · subst hkk; rw [hk] at h; cases h
    · rw [if_neg hkk]; exact h

theorem fuse_check_skip {st : State} {node : NodeProto} {next : Option NodeProto} {st1 : State}
    (h : fuse_check st node next = .ok (.skip st1)) :
    st1 = st ∨ ∃ o0, st1 = { st with node_reference := (map_index st.node_reference o0 0).1 } := by
  unfold fuse_check at h
  split at h
  · obtain ⟨i0, _, h⟩ := bind_ok h
    split at h
    · cases h; exact Or.inl rfl
    · split at h
      · cases h; exact Or.inl rfl
      · obtain ⟨o0, _, h⟩ := bind_ok h
        simp only [pure, Except.pure, Except.ok.injEq] at h
        unfold fuse_check_weight at h
        simp only at h
        right
        refine ⟨o0, ?_⟩
        split at h
        · cases h; rfl
        · split at h
          · cases h; rfl
          · split at h
            · cases h; rfl
            · split at h
              · cases h; rfl
              · split at h
                · cases h; rfl
                · cases h
  · cases h; exact Or.inl rfl

theorem at_idx_zero_of_head {α : Type} (what : String) {l : List α} {a : α}
    (h : l.head? = some a) : at_idx what l 0 = .ok a := by
  cases l with
  | nil => simp at h
  | cons x xs => simp at h; subst h; rfl

theorem fuse_check_reduce_of {st : State} {t m : NodeProto} {W Wt : String} {B : TensorProto}
    (ht : t.op_type = "Transpose") (hm : m.op_type = "MatMul")
    (hin : t.input.head? = some W) (hout : t.output.head? = some Wt)
    (hperm : get_node_attr_ai t "perm" = [1, 0])
    (hW : map_find st.weights W = some B) (hB : B.dims.length = 2)
    (hfan : map_find st.node_reference Wt = some 1) :
    fuse_check st t (some m) = .ok (.reduce W Wt B) := by
  unfold fuse_check
  rw [if_pos ht, at_idx_zero_of_head "input" hin, ok_bind]
  simp only [hW, hB, ne_eq, not_true_eq_false, if_false]
  rw [at_idx_zero_of_head "output" hout, ok_bind]
  unfold fuse_check_weight map_index
  simp [hfan, hperm, hm]
  rfl

theorem store_permuted_dims (B : TensorProto) (h w : Int) (p : List F32) :
    (store_permuted B h w p).dims.length = B.dims.length := by
  unfold store_permuted
  split <;> simp

theorem permute_weight_dims {B B1 : TensorProto} (h : permute_weight B = .ok B1) :
    B1.dims.length = B.dims.length := by
  unfold permute_weight at h
  obtain ⟨d0, _, h⟩ := bind_ok h
  obtain ⟨d1, _, h⟩ := bind_ok h
  split at h
  · cases h
  · obtain ⟨p, _, h⟩ := bind_ok h
    cases h
    exact store_permuted_dims _ _ _ _

/-- The facts about the state that make the rewriter collapse a `Transpose` of `W`
into `Wt`. -/
theorem fused_collapses {st st2 : State} {l out : List NodeProto} (h : Fused st l st2 out) :
    ∀ (pre post : List NodeProto) (t m : NodeProto) (W Wt : String),
      l = pre ++ t :: m :: post →
      t.op_type = "Transpose" → m.op_type = "MatMul" →
      t.input.head? = some W → t.output.head? = some Wt →
      get_node_attr_ai t "perm" = [1, 0] →
      (∃ B, map_find st.weights W = some B ∧ B.dims.length = 2) →
      map_find st.node_reference Wt = some 1 →
      (∀ n ∈ pre, n.output.head? ≠ some Wt) →
      out[pre.length]? = some { t with op_type := "noop_reducedncnn" } := by
  induction h with
  | nil => intro pre post t m W Wt hl; simp at hl
  | @skip st st1 st2 node rest out hc _ ih =>
    intro pre post t m W Wt hl ht hm hin hout hperm hW hfan hpre
    cases pre with
    | nil =>
      simp only [List.nil_append, List.cons.injEq] at hl
      obtain ⟨rfl, rfl⟩ := hl
      obtain ⟨B, hB1, hB2⟩ := hW
      have hc2 := fuse_check_reduce_of ht hm hin hout hperm hB1 hB2 hfan
      simp only [List.head?_cons] at hc
      rw [hc2] at hc
      cases hc
    | cons p pre1 =>
      simp only [List.cons_append, List.cons.injEq] at hl
      obtain ⟨rfl, rfl⟩ := hl
      have hw1 : st1.weights = st.weights ∧
          map_find st1.node_reference Wt = some 1 := by
        rcases fuse_check_skip hc with h1 | ⟨o0, h1⟩
        · subst h1; exact ⟨rfl, hfan⟩
        · subst h1; exact ⟨rfl, map_index_find _ _ _ _ _ hfan⟩
      have := ih pre1 post t m W Wt rfl ht hm hin hout hperm (by rw [hw1.1]; exact hW) hw1.2
        (fun n hn => hpre n (List.mem_cons_of_mem _ hn))
      simpa using this
  | @reduce st st1 st2 node node2 node1 node2a rest out i0 o0 B0 hc hr _ ih =>
    intro pre post t m W Wt hl ht hm hin hout hperm hW hfan hpre
    obtain ⟨hop, -, ho0, -, -, -, -, n2, hn2, hmm⟩ := fuse_check_reduce hc
    cases hn2
    obtain ⟨-, h1, -, B1, hB1, hst⟩ := fuse_reduce_ok hr
    cases pre with
    | nil =>
      simp only [List.nil_append, List.cons.injEq] at hl
      obtain ⟨rfl, -, -⟩ := hl
      simp [h1]
    | cons p pre1 =>
      cases pre1 with
      | nil =>
        simp only [List.cons_append, List.nil_append, List.cons.injEq] at hl
        obtain ⟨-, rfl, -⟩ := hl
        rw [ht] at hmm; simp at hmm
      | cons p2 pre2 =>
        simp only [List.cons_append, List.cons.injEq] at hl
        obtain ⟨rfl, rfl, rfl⟩ := hl
        have hne : o0 ≠ Wt := by
          intro he
          exact hpre node (by simp) (by rw [at_idx_zero ho0, he])
        have := ih pre2 post t m W Wt rfl ht hm hin hout hperm
          (by
            subst hst
            simp only [map_find_set]
            by_cases hiw : i0 = W
            · rw [if_pos hiw]
              exact ⟨B1, rfl, by
                rw [permute_weight_dims hB1]
                exact (fuse_check_reduce hc).2.2.2.2.1⟩
            · rw [if_neg hiw]; exact hW)
          (by subst hst; simp only; rw [map_find_erase_ne _ hne]; exact hfan)
          (fun n hn => hpre n (List.mem_cons_of_mem _ (List.mem_cons_of_mem _ hn)))
        simpa using this

/-- A row-major grid enumerated row by row is the enumeration of its flat indices. -/
theorem grid_eq_map_range {α : Type} (a b : Nat) (g : Nat → Nat → α) :
    (List.range a).flatMap (fun x => (List.range b).map (g x))
      = (List.range (a * b)).map (fun n => g (n / b) (n % b)) := by
  induction a with
  | zero => simp
  | succ a ih =>
    rw [List.range_succ, List.flatMap_append, ih, Nat.succ_mul, List.range_add, List.map_append]
    congr 1
    simp only [List.flatMap_cons, List.flatMap_nil, List.append_nil, List.map_map]
    apply List.map_congr_left
    intro y hy
    have hy' : y < b := List.mem_range.mp hy
    have hb : 0 < b := by omega
    simp only [Function.comp]
    rw [Nat.mul_comm a b, Nat.mul_add_div hb, Nat.mul_add_mod, Nat.div_eq_of_lt hy',
      Nat.mod_eq_of_lt hy', Nat.add_zero]

theorem map_getD_range {α : Type} (l : List α) (d : α) :
    (List.range l.length).map (fun n => l.getD n d) = l := by
  apply List.ext_getElem
  · simp
  · intro n h1 h2
    simp at h1
    simp [h1]

theorem at_idx_nat {α : Type} (what : String) (l : List α) (n : Nat) (d : α)
    (h : n < l.length) : at_idx what l (Int.ofNat n) = .ok (l.getD n d) := by
  unfold at_idx
  rw [if_neg (by simp)]
  simp [h]

theorem read_floats_nat (what : String) (data : List F32) (ns : List Nat)
    (h : ∀ n ∈ ns, n < data.length) :
    read_floats what data (ns.map Int.ofNat)
      = .ok (ns.map (fun n => data.getD n f32_zero)) := by
  induction ns with
  | nil => rfl
  | cons n rest ih =>
    simp only [List.map_cons, read_floats]
    rw [at_idx_nat what data n f32_zero (h n (by simp)), ok_bind,
      ih (fun m hm => h m (List.mem_cons_of_mem _ hm)), ok_bind]
    rfl

theorem permute_indices_nat (h w : Nat) :
    permute_indices (h : Int) (w : Int)
      = ((List.range w).flatMap (fun j => (List.range h).map (fun k => k * w + j))).map
          Int.ofNat := by
  unfold permute_indices
  simp [List.map_flatMap, Function.comp_def]

theorem matmul_indices_nat (h w : Nat) :
    matmul_indices (h : Int) (w : Int)
      = ((List.range h).flatMap (fun j => (List.range w).map (fun k => k * h + j))).map
          Int.ofNat := by
  unfold matmul_indices
  simp [List.map_flatMap, Function.comp_def]

theorem transposed_length (h w : Nat) (data : List F32) :
    (transposed h w data).length = h * w := by
  unfold transposed
  rw [grid_eq_map_range]
  simp [Nat.mul_comm]

theorem transposed_getD (h w : Nat) (data : List F32) (j k : Nat) (hj : j < w) (hk : k < h) :
    (transposed h w data).getD (j * h + k) f32_zero = data.getD (k * w + j) f32_zero := by
  unfold transposed
  rw [grid_eq_map_range]
  have hlt : j * h + k < w * h := by
    calc j * h + k < j * h + h := by omega
      _ = (j + 1) * h := by ring
      _ ≤ w * h := Nat.mul_le_mul_right h hj
  have hh : 0 < h := by omega
  rw [List.getD_eq_getElem?_getD, List.getElem?_map, List.getElem?_range hlt]
  simp only [Option.map_some', Option.getD_some]
  rw [Nat.mul_comm j h, Nat.mul_add_div hh, Nat.mul_add_mod, Nat.div_eq_of_lt hk,
    Nat.mod_eq_of_lt hk, Nat.add_zero]

/-- Transposing twice, (h,w) to (w,h) and back, gives the original floats. -/
theorem transposed_transposed (h w : Nat) (data : List F32) (hlen : data.length = h * w) :
    transposed w h (transposed h w data) = data := by
  have : transposed w h (transposed h w data)
      = (List.range h).flatMap (fun j => (List.range w).map
          (fun k => data.getD (j * w + k) f32_zero)) := by
    unfold transposed
    apply List.flatMap_congr
    intro j hj
    apply List.map_congr_left
    intro k hk
    exact transposed_getD h w data k j (List.mem_range.mp hk) (List.mem_range.mp hj)
  rw [this, grid_eq_map_range]
  have h2 : ∀ n, n / w * w + n % w = n := fun n => by
    rw [Nat.mul_comm]; exact Nat.div_add_mod n w
  simp only [h2]
  rw [← hlen]
  exact map_getD_range data f32_zero

theorem to_int32_small {x : Int} (h0 : 0 ≤ x) (h1 : x < 2147483648) : to_int32 x = x := by
  unfold to_int32
  have : x % 4294967296 = x := Int.emod_eq_of_lt h0 (by omega)
  simp only [this, if_pos h1]

theorem raw_floats_bytes (p : List F32) : raw_floats (floats_bytes p) = p := by
  induction p with
  | nil => rfl
  | cons f rest ih => simp [floats_bytes, raw_floats, ih]

theorem floats_bytes_length (p : List F32) : (floats_bytes p).length = 4 * p.length := by
  induction p with
  | nil => rfl
  | cons f rest ih => simp [floats_bytes, ih]; omega

theorem grid_index_lt {h w j k : Nat} (hj : j < w) (hk : k < h) : k * w + j < h * w := by
  calc k * w + j < k * w + w := by omega
    _ = (k + 1) * w := by ring
    _ ≤ h * w := Nat.mul_le_mul_right w hk

theorem read_permuted (what : String) (data : List F32) (h w : Nat)
    (hlen : data.length = h * w) :
    read_floats what data (permute_indices (h : Int) (w : Int)) = .ok (transposed h w data) := by
  rw [permute_indices_nat, read_floats_nat]
  · unfold transposed
    simp [List.map_flatMap, Function.comp_def]
  · intro n hn
    simp only [List.mem_flatMap, List.mem_range, List.mem_map] at hn
    obtain ⟨j, hj, k, hk, rfl⟩ := hn
    rw [hlen]
    exact grid_index_lt hj hk

theorem read_matmul (what : String) (p : List F32) (h w : Nat) (hlen : p.length = w * h) :
    read_floats what p (matmul_indices (h : Int) (w : Int)) = .ok (transposed w h p) := by
  rw [matmul_indices_nat, read_floats_nat]
  · unfold transposed
    simp [List.map_flatMap, Function.comp_def]
  · intro n hn
    simp only [List.mem_flatMap, List.mem_range, List.mem_map] at hn
    obtain ⟨j, hj, k, hk, rfl⟩ := hn
    rw [hlen]
    exact grid_index_lt hj hk

/-- The weight the rewriter stores for a weight of shape (h,w) holding `h*w` floats. -/
theorem permute_weight_ok (B : TensorProto) (h w : Nat)
    (hdims : B.dims = [(h : Int), (w : Int)]) (hsmall : 4 * (h * w) < 2147483648)
    (hh : 0 < h) (hw : 0 < w)
    (hlen : (float_ptr B).length = h * w) :
    permute_weight B
      = .ok (store_permuted B (h : Int) (w : Int) (transposed h w (float_ptr B))) := by
  have hh1 : h ≤ h * w := Nat.le_mul_of_pos_right h hw
  have hw1 : w ≤ h * w := Nat.le_mul_of_pos_left w hh
  unfold permute_weight
  have e0 : at_idx "dims" B.dims 0 = .ok (h : Int) := by rw [hdims]; rfl
  have e1 : at_idx "dims" B.dims 1 = .ok (w : Int) := by rw [hdims]; rfl
  rw [e0, ok_bind, e1, ok_bind, to_int32_small (by omega) (by omega),
    to_int32_small (by omega) (by omega)]
  rw [if_neg (by have : (0 : Int) ≤ (h : Int) * (w : Int) := by positivity
                 omega), read_permuted _ _ h w hlen, ok_bind]
  rfl

theorem store_permuted_ptr (B : TensorProto) (h w : Nat)
    (hlen : (float_ptr B).length = h * w) :
    float_ptr (store_permuted B (h : Int) (w : Int) (transposed h w (float_ptr B)))
      = transposed h w (float_ptr B) := by
  unfold store_permuted
  cases hr : B.raw_data with
  | some raw => simp [float_ptr, raw_floats_bytes]
  | none =>
    simp only [float_ptr, hr] at hlen ⊢
    rw [transposed_length, ← hlen]
    simp

theorem store_permuted_size (B : TensorProto) (h w : Nat)
    (hsmall : 4 * (h * w) < 2147483648) (hh : 0 < h) (hw : 0 < w)
    (hsize : get_tensor_proto_data_size B = ((h * w : Nat) : Int))
    (hlen : (float_ptr B).length = h * w) :
    get_tensor_proto_data_size
        (store_permuted B (h : Int) (w : Int) (transposed h w (float_ptr B)))
      = ((h * w : Nat) : Int) := by
  unfold store_permuted
  cases hr : B.raw_data with
  | some raw =>
    simp only [get_tensor_proto_data_size, floats_bytes_length, transposed_length]
    rw [to_int32_small (by omega) (by omega)]
    have : Int.tdiv ((4 * (h * w) : Nat) : Int) ((4 : Nat) : Int) = ((h * w : Nat) : Int) := by
      rw [← Int.ofNat_tdiv, Nat.mul_div_cancel_left _ (by decide)]
    exact this
  | none =>
    have hpos : 0 < h * w := Nat.mul_pos hh hw
    simp only [get_tensor_proto_data_size, hr] at hsize ⊢
    simp only [float_ptr, hr] at hlen ⊢
    split at hsize
    · rename_i hdt
      simp only [hdt, if_true]
      rw [transposed_length, ← hlen]
      simp [transposed_length, hlen]
    · exfalso
      have : (0 : Int) < ((h * w : Nat) : Int) := by exact_mod_cast hpos
      omega

/-- The `InnerProduct` parameters and payload of a `MatMul` whose second input is the
weight the rewriter stored: the floats come out in the order the weight had before
the rewriter transposed it. -/
theorem params_matmul_permuted (weights : StrMap TensorProto) (m1 : NodeProto) (W : String)
    (B : TensorProto) (h w : Nat)
    (hdims : B.dims = [(h : Int), (w : Int)]) (hsmall : 4 * (h * w) < 2147483648)
    (hh : 0 < h) (hw : 0 < w)
    (hsize : get_tensor_proto_data_size B = ((h * w : Nat) : Int))
    (hlen : (float_ptr B).length = h * w)
    (hin : m1.input[1]? = some W)
    (hW : map_find weights W
        = some (store_permuted B (h : Int) (w : Int) (transposed h w (float_ptr B)))) :
    params_matmul weights m1
      = .ok { weights := weights,
              text := " 0=" ++ fmt_d (h : Int) ++ " 1=0" ++ " 2=" ++ fmt_d ((h * w : Nat) : Int),
              bytes := quantize_tag ++ floats_bytes (float_ptr B) } := by
  have hh1 : h ≤ h * w := Nat.le_mul_of_pos_right h hw
  unfold params_matmul weight_at
  have e1 : at_idx "input" m1.input 1 = .ok W := by
    unfold at_idx
    simp only [show ¬ ((1 : Int) < 0) by omega, if_false]
    have : m1.input.get? (1 : Int).toNat = some W := by simpa using hin
    rw [this]
  rw [e1, ok_bind]
  simp only [pure, Except.pure, ok_bind, map_index, hW]
  rw [store_permuted_size B h w hsmall hh hw hsize hlen, store_permuted_ptr B h w hlen]
  have ed : (store_permuted B (h : Int) (w : Int) (transposed h w (float_ptr B))).dims
      = [(w : Int), (h : Int)] := by
    unfold store_permuted
    split <;> simp [hdims]
  rw [ed]
  have e2 : at_idx "dims" [(w : Int), (h : Int)] (((([(w : Int), (h : Int)] : List Int).length : Nat) : Int) - 1)
      = .ok (h : Int) := by rfl
  rw [e2, ok_bind, to_int32_small (by omega) (by omega)]
  rw [if_neg (by omega)]
  have e3 : Int.tdiv ((h * w : Nat) : Int) (h : Int) = (w : Int) := by
    rw [← Int.ofNat_tdiv, Nat.mul_div_cancel_left w hh]
  rw [e3, read_matmul _ _ h w (by rw [transposed_length, Nat.mul_comm]), ok_bind,
    transposed_transposed h w _ hlen]

theorem emit_nodes_at {fe : FloatEnv} {nodes : List NodeProto} {st sf : State}
    (h : emit_nodes fe st nodes = .ok sf) {i : Nat} {node : NodeProto}
    (hi : nodes[i]? = some node) :
    ∃ sa sb, emit_nodes fe st (nodes.take i) = .ok sa ∧ emit_node fe sa node = .ok sb := by
  have hsplit : nodes = nodes.take i ++ node :: nodes.drop (i + 1) := by
    have hlt : i < nodes.length := (List.getElem?_eq_some.mp hi).1
    have hget : nodes[i] = node := (List.getElem?_eq_some.mp hi).2
    rw [← hget, ← List.drop_eq_getElem_cons hlt, List.take_append_drop]
  rw [hsplit, emit_nodes_append] at h
  obtain ⟨sa, hsa, h⟩ := bind_ok h
  unfold emit_nodes at h
  obtain ⟨sb, hsb, _⟩ := bind_ok h
  exact ⟨sa, sb, hsa, hsb⟩

theorem node_rel_of_constant {n node : NodeProto} (h : NodeRel n node)
    (hop : n.op_type = "Constant") : node = n := by
  rcases h with h | ⟨ht, _⟩ | ⟨hm, _⟩
  · exact h
  · rw [ht] at hop; simp at hop
  · rw [hm] at hop; simp at hop

/-- On a run that returns a pair the emitter reaches every node and translates it. -/
theorem convert_reaches {fe : FloatEnv} {graph : GraphProto} {r : String × List Nat}
    (h : convert fe graph = .ok r) {i : Nat} {n : NodeProto} (hi : graph.node[i]? = some n) :
    ∃ node sa sb rest, NodeRel n node ∧ emitter_state_at fe graph i = .ok (sa, node :: rest)
      ∧ emit_node fe sa node = .ok sb := by
  obtain ⟨st1, st2, nodes, st, h1, h2, h3⟩ := convert_ok h
  obtain ⟨node, hnode, hrel⟩ := forall₂_get (fused_rel (fuse_nodes_fused h2)) hi
  obtain ⟨sa, sb, hsa, hsb⟩ := emit_nodes_at h3 hnode
  refine ⟨node, sa, sb, nodes.drop (i + 1), hrel, ?_, hsb⟩
  unfold emitter_state_at
  rw [h1, ok_bind, h2, ok_bind, hsa, ok_bind]
  have hlt : i < nodes.length := (List.getElem?_eq_some.mp hnode).1
  have hget : nodes[i] = node := (List.getElem?_eq_some.mp hnode).2
  simp only [pure, Except.pure, Except.ok.injEq, Prod.mk.injEq, true_and]
  rw [← hget, ← List.drop_eq_getElem_cons hlt]

theorem emit_layer_eq (fe : FloatEnv) (st : State) (node : NodeProto) (name kind : String) :
    emit_layer fe st node name kind
      = first_outputs node (output_size node) >>= fun outputs =>
          write_params fe st node name >>= fun p =>
            pure (layer_state st node name kind outputs p) := rfl

theorem emit_node_kind (fe : FloatEnv) {st : State} {node : NodeProto} {name kind : String}
    (hop : node.op_type ≠ "noop_reducedncnn") (hname : layer_name node = .ok name)
    (hkind : layer_kind st node = .ok (.kind kind)) :
    emit_node fe st node = emit_layer fe st node name kind := by
  unfold emit_node
  rw [if_neg hop, hname, ok_bind, hkind, ok_bind]

theorem first_outputs_all {node : NodeProto} (hop : node.op_type ≠ "Dropout") :
    first_outputs node (output_size node) = .ok node.output := by
  unfold first_outputs output_size
  rw [if_neg hop, if_pos (Nat.le_refl _), List.take_length]
  rfl

/-- A node that is not a `Dropout`, has a name or an output, and whose kind is printed
is written as the line and the bytes of its parameter branch. -/
theorem emit_node_params (fe : FloatEnv) {st : State} {node : NodeProto} {name kind : String}
    {p : Params}
    (hop : node.op_type ≠ "noop_reducedncnn") (hd : node.op_type ≠ "Dropout")
    (hname : layer_name node = .ok name) (hkind : layer_kind st node = .ok (.kind kind))
    (hp : write_params fe st node name = .ok p) :
    emit_node fe st node = .ok (layer_state st node name kind node.output p) := by
  rw [emit_node_kind fe hop hname hkind, emit_layer_eq, first_outputs_all hd, ok_bind, hp, ok_bind]
  rfl

theorem emit_node_params_error (fe : FloatEnv) {st : State} {node : NodeProto}
    {name kind : String} {e : Fault}
    (hop : node.op_type ≠ "noop_reducedncnn") (hd : node.op_type ≠ "Dropout")
    (hname : layer_name node = .ok name) (hkind : layer_kind st node = .ok (.kind kind))
    (hp : write_params fe st node name = .error e) :
    emit_node fe st node = .error e := by
  rw [emit_node_kind fe hop hname hkind, emit_layer_eq, first_outputs_all hd, ok_bind, hp]
  rfl

theorem node_rel_name {n node : NodeProto} (h : NodeRel n node) :
    layer_name node = layer_name n := by
  rcases h with h | ⟨_, h⟩ | ⟨_, w, h⟩ <;> rw [h] <;> rfl

theorem state_at_name {fe : FloatEnv} {graph : GraphProto} {i : Nat} {sa : State}
    {node : NodeProto} {rest : List NodeProto}
    (h : emitter_state_at fe graph i = .ok (sa, node :: rest)) :
    ∃ name, layer_name node = .ok name := by
  obtain ⟨n, hn, hrel⟩ := state_at_rel h
  obtain ⟨st1, _, _, h1, _, _, _⟩ := state_at_ok h
  obtain ⟨name, hname⟩ := classify_names h1 (List.getElem?_mem hn)
  exact ⟨name, by rw [node_rel_name hrel, hname]⟩

theorem state_at_same {fe : FloatEnv} {graph : GraphProto} {i : Nat} {sa : State}
    {node : NodeProto} {rest : List NodeProto}
    (h : emitter_state_at fe graph i = .ok (sa, node :: rest))
    (hop : node.op_type ≠ "noop_reducedncnn") (hm : node.op_type ≠ "MatMul") :
    graph.node[i]? = some node := by
  obtain ⟨n, hn, hrel⟩ := state_at_rel h
  rcases hrel with h1 | ⟨_, h1⟩ | ⟨hmm, w, h1⟩
  · rw [hn, h1]
  · rw [h1] at hop; exact absurd rfl hop
  · rw [h1] at hm; exact absurd hmm hm

/-- A failure of the emitter at the node it has reached is the result of the run. -/
theorem state_at_error {fe : FloatEnv} {graph : GraphProto} {i : Nat} {sa : State}
    {node : NodeProto} {rest : List NodeProto} {e : Fault}
    (h : emitter_state_at fe graph i = .ok (sa, node :: rest))
    (he : emit_node fe sa node = .error e) :
    onnx2ncnn fe (some graph) = .error e := by
  show convert fe graph = _
  unfold convert
  rw [run_from_state_at fe graph i, h, ok_bind]
  show (emit_nodes fe sa (node :: rest) >>= _) = _
  unfold emit_nodes
  rw [he]
  rfl

theorem layer_kind_plain (st : State) {node : NodeProto} {k : String}
    (hc : node.op_type ≠ "Constant") (hv : node.op_type ≠ "Conv")
    (ht : node.op_type ≠ "ConvTranspose") (hg : node.op_type ≠ "Gemm")
    (hr : node.op_type ≠ "Reshape") (hk : plain_kind node.op_type = some k) :
    layer_kind st node = .ok (.kind (fmt_ls 16 k)) := by
  unfold layer_kind
  simp only [hc, hv, ht, hg, hr, if_false, hk]
  rfl

/-- The emitter moves on from a node it translated to the next index. -/
theorem state_at_succ {fe : FloatEnv} {graph : GraphProto} {i : Nat} {sa sb : State}
    {node : NodeProto} {rest : List NodeProto}
    (h : emitter_state_at fe graph i = .ok (sa, node :: rest))
    (hb : emit_node fe sa node = .ok sb) :
    emitter_state_at fe graph (i + 1) = .ok (sb, rest) := by
  obtain ⟨st1, st2, nodes, h1, h2, h3, h4⟩ := state_at_ok h
  have hlt : i < nodes.length := by
    by_contra hge
    rw [List.drop_eq_nil_of_le (Nat.le_of_not_lt hge)] at h4
    cases h4
  have hd := List.drop_eq_getElem_cons hlt
  rw [← h4] at hd
  injection hd with hnode hrest
  have ht : nodes.take (i + 1) = nodes.take i ++ [node] := by
    rw [List.take_succ, List.getElem?_eq_getElem hlt, ← hnode]
    rfl
  unfold emitter_state_at
  rw [h1, ok_bind, h2, ok_bind]
  show (emit_nodes fe (emit_prelude graph st2) (nodes.take (i + 1)) >>= _) = _
  rw [ht, emit_nodes_append, h3, ok_bind]
  have hone : emit_nodes fe sa [node] = .ok sb := by
    unfold emit_nodes
    rw [hb]
    rfl
  rw [hone, hrest]
  rfl

theorem write_params_flatten (fe : FloatEnv) (st : State) {node : NodeProto} (name : String)
    (hop : node.op_type = "Flatten") :
    write_params fe st node name
      = if get_node_attr_i node "axis" 1 ≠ 1 then
          .error (.unexpected
            ("Unsupported Flatten axis " ++ fmt_d (get_node_attr_i node "axis" 1) ++ "!"))
        else .ok (text_only st.weights "") := by
  unfold write_params
  simp only [hop]
  rfl

theorem output_size_eq {node : NodeProto} (hd : node.op_type ≠ "Dropout") :
    output_size node = node.output.length := by
  unfold output_size
  rw [if_neg hd]

theorem resize_type_eq (mode : String) :
    resize_type mode
      = if mode = "trilinear" then .error (.unexpected "Unsupported Upsample/Resize mode !")
        else .ok (if mode = "bilinear" ∨ mode = "linear" then 2 else 1) := by
  unfold resize_type
  by_cases h1 : mode = "nearest"
  · subst h1; rfl
  by_cases h2 : mode = "bilinear"
  · subst h2; rfl
  by_cases h3 : mode = "linear"
  · subst h3; rfl
  by_cases h4 : mode = "trilinear"
  · subst h4; rfl
  simp only [h1, h2, h3, h4, if_false, or_self]
  rfl

/-- The scale lists lines 1591-1613 reject: four entries with `scales[1]` not 1, or a
number of entries other than 2, 3 and 4. -/
theorem resize_hw_error_iff (scales : List F32) :
    (∃ e, resize_hw scales = .error e)
      ↔ (scales.length = 4 ∧ scales[1]? ≠ some f32_one)
        ∨ (scales.length ≠ 2 ∧ scales.length ≠ 3 ∧ scales.length ≠ 4) := by
  rcases scales with _ | ⟨a, _ | ⟨b, _ | ⟨c, _ | ⟨d, _ | ⟨e, t⟩⟩⟩⟩⟩
  · exact ⟨fun _ => Or.inr ⟨by decide, by decide, by decide⟩, fun _ => ⟨_, rfl⟩⟩
  · exact ⟨fun _ => Or.inr ⟨by simp, by simp, by simp⟩, fun _ => ⟨_, rfl⟩⟩
  · refine ⟨fun ⟨e, he⟩ => (by cases he), fun h => ?_⟩
    rcases h with ⟨h, _⟩ | ⟨h, _⟩
    · cases h
    · exact absurd rfl h
  · refine ⟨fun ⟨e, he⟩ => (by cases he), fun h => ?_⟩
    rcases h with ⟨h, _⟩ | ⟨_, h, _⟩
    · cases h
    · exact absurd rfl h
  · unfold resize_hw
    by_cases hb : b = f32_one
    · subst hb
      refine ⟨fun ⟨e, he⟩ => ?_, fun h => ?_⟩
      · cases he
      · rcases h with ⟨_, h⟩ | ⟨_, _, h⟩
        · exact absurd rfl h
        · exact absurd rfl h
    · refine ⟨fun _ => Or.inl ⟨rfl, ?_⟩,
        fun _ => ⟨.unexpected "Unsupported Upsample/Resize scales !", ?_⟩⟩
      · simpa using hb
      · simp only [ne_eq, hb, not_false_eq_true, if_true]
        rfl
  · refine ⟨fun _ => Or.inr ⟨?_, ?_, ?_⟩, fun _ => ⟨_, rfl⟩⟩ <;> simp

theorem resize_hw_error {scales : List F32} {e : Fault} (h : resize_hw scales = .error e) :
    e = .unexpected "Unsupported Upsample/Resize scales !" := by
  unfold resize_hw at h
  split at h
  · cases h
  · cases h
  · split at h
    · cases h; rfl
    · cases h
  · cases h; rfl

theorem params_resize_eq (fe : FloatEnv) {weights w1 : StrMap TensorProto} {node : NodeProto}
    {scales : List F32} (hrs : resize_scales weights node = .ok (w1, scales)) :
    params_resize fe weights node
      = resize_type (get_node_attr_s node "mode" "") >>= fun rt =>
          resize_hw scales >>= fun hw =>
            pure { weights := w1,
                   text := " 0=" ++ fmt_d rt ++ " 1=" ++ fe.fmt_f hw.1
                             ++ " 2=" ++ fe.fmt_f hw.2 } := by
  unfold params_resize
  rw [hrs]
  rfl

theorem write_params_resize (fe : FloatEnv) (st : State) {node : NodeProto} (name : String)
    (hop : node.op_type = "Upsample" ∨ node.op_type = "Resize") :
    write_params fe st node name = params_resize fe st.weights node := by
  unfold write_params
  rcases hop with hop | hop <;> simp only [hop] <;> rfl

theorem layer_kind_resize (st : State) {node : NodeProto}
    (hop : node.op_type = "Upsample" ∨ node.op_type = "Resize") :
    layer_kind st node = .ok (.kind (fmt_ls 16 "Interp")) := by
  rcases hop with hop | hop <;>
  exact layer_kind_plain st (by rw [hop]; decide) (by rw [hop]; decide) (by rw [hop]; decide)
      (by rw [hop]; decide) (by rw [hop]; decide) (by rw [hop]; rfl)

/-- What the emitter writes for a node whose kind is printed and whose parameter branch
completes: one line, the splits of its outputs, and the bytes of the branch. -/
theorem emit_node_line (fe : FloatEnv) {graph : GraphProto} {i : Nat} {sa : State}
    {node : NodeProto} {rest : List NodeProto} {name kind : String} {p : Params}
    (hat : emitter_state_at fe graph i = .ok (sa, node :: rest))
    (hop : node.op_type ≠ "noop_reducedncnn") (hd : node.op_type ≠ "Dropout")
    (hname : layer_name node = .ok name) (hkind : layer_kind sa node = .ok (.kind kind))
    (hp : write_params fe sa node name = .ok p) :
    ∃ sb, emit_node fe sa node = .ok sb
      ∧ emitter_state_at fe graph (i + 1) = .ok (sb, rest)
      ∧ sb.pp = sa.pp
          ++ node_line kind name (count_runtime_inputs sa.weights node.input) node.output.length
               (write_inputs sa.weights sa.node_reference node.input).2 node.output p.text
          :: split_lines (write_inputs sa.weights sa.node_reference node.input).1
               sa.internal_split node.output
      ∧ sb.bv = sa.bv ++ p.bytes := by
  have hb := emit_node_params fe hop hd hname hkind hp
  refine ⟨_, hb, state_at_succ hat hb, ?_, rfl⟩
  show sa.pp ++ _ = _
  rw [output_size_eq hd]

theorem params_transpose_rank5 {node : NodeProto} {p0 p1 p2 p3 p4 : Int}
    (hperm : get_node_attr_ai node "perm" = [p0, p1, p2, p3, p4]) :
    ((p1, p2, p3, p4) ∉ rank5_patterns →
        params_transpose node = .error (.unexpected "Unsupported transpose type !"))
    ∧ (∀ k : Nat, rank5_patterns[k]? = some (p1, p2, p3, p4) →
        params_transpose node = .ok (" 0=" ++ fmt_d (Int.ofNat k))) := by
  constructor
  · intro hnot
    simp only [rank5_patterns, List.mem_cons, Prod.mk.injEq, List.mem_nil_iff, or_false,
      not_or] at hnot
    obtain ⟨h0, h1, h2, h3, h4, h5⟩ := hnot
    unfold params_transpose
    rw [hperm]
    simp only [h0, h1, h2, h3, h4, h5, if_false]
    rfl
  · intro k hk
    unfold params_transpose
    rw [hperm]
    rcases k with _ | _ | _ | _ | _ | _ | k
    all_goals first
      | (simp only [rank5_patterns, List.getElem?_cons_zero, List.getElem?_cons_succ,
           Option.some.injEq, Prod.mk.injEq] at hk
         obtain ⟨rfl, rfl, rfl, rfl⟩ := hk
         rfl)
      | (simp [rank5_patterns] at hk)

theorem write_params_transpose (fe : FloatEnv) (st : State) {node : NodeProto} (name : String)
    (hop : node.op_type = "Transpose") :
    write_params fe st node name = (params_transpose node).map (text_only st.weights) := by
  unfold write_params
  simp only [hop]
  rfl

theorem to_int32_range (x : Int) : -2147483648 ≤ to_int32 x ∧ to_int32 x < 2147483648 := by
  unfold to_int32
  simp only []
  split <;> omega

theorem to_int32_id {x : Int} (h1 : -2147483648 ≤ x) (h2 : x < 2147483648) :
    to_int32 x = x := by
  unfold to_int32
  simp only []
  split <;> omega

theorem get_node_attr_i_range (node : NodeProto) (key : String) {defv : Int}
    (h1 : -2147483648 ≤ defv) (h2 : defv < 2147483648) :
    -2147483648 ≤ get_node_attr_i node key defv ∧ get_node_attr_i node key defv < 2147483648 := by
  unfold get_node_attr_i
  split
  · exact to_int32_range _
  · exact ⟨h1, h2⟩

theorem write_params_axis (fe : FloatEnv) (st : State) {node : NodeProto} (name : String)
    (hop : node.op_type = "Concat" ∨ node.op_type = "Softmax") :
    write_params fe st node name
      = .ok (text_only st.weights
          (" 0=" ++ fmt_d (to_int32 (get_node_attr_i node "axis" 1 - 1))
            ++ (if node.op_type = "Softmax" then " 1=1" else ""))) := by
  unfold write_params
  rcases hop with hop | hop <;> simp only [hop]
  · show Except.ok _ = Except.ok _
    simp [String.append_empty]
  · rfl

theorem raw_floats_length (l : List Nat) : (raw_floats l).length = l.length / 4 := by
  induction l using raw_floats.induct with
  | case1 b0 b1 b2 b3 rest ih =>
    simp only [raw_floats, List.length_cons, ih]
    omega
  | case2 l h =>
    have hr : raw_floats l = [] := by
      unfold raw_floats
      split
      · rename_i b0 b1 b2 b3 rest
        exact absurd rfl (h b0 b1 b2 b3 rest)
      · rfl
    rw [hr]
    have hl : l.length < 4 := by
      rcases l with _ | ⟨a, _ | ⟨b, _ | ⟨c, _ | ⟨d, t⟩⟩⟩⟩
      · simp
      · simp
      · simp
      · simp
      · exact absurd rfl (h a b c d t)
    simp only [List.length_nil]
    omega

/-- What the source reads from a weight that holds `n` floats, below 2 GiB. -/
theorem holds_floats_facts {tp : TensorProto} {n : Nat} (h : holds_floats tp n = true)
    (hs : 4 * n < 2147483648) :
    get_tensor_proto_data_size tp = (n : Int) ∧ (tensor_proto_bytes tp).length = 4 * n
      ∧ (float_ptr tp).length = n := by
  unfold holds_floats at h
  unfold get_tensor_proto_data_size tensor_proto_bytes float_ptr
  cases hr : tp.raw_data with
  | some raw =>
    rw [hr] at h
    simp only [beq_iff_eq] at h
    simp only []
    refine ⟨?_, h, ?_⟩
    · rw [h, to_int32_small (by omega) (by omega)]
      simp only [Nat.cast_mul, Nat.cast_ofNat]
      rw [Int.mul_comm, Int.mul_tdiv_cancel _ (by decide)]
    · rw [raw_floats_length, h]
      omega
  | none =>
    rw [hr] at h
    simp only [Bool.and_eq_true, beq_iff_eq] at h
    simp only [h.1, if_true]
    exact ⟨by rw [h.2], by rw [floats_bytes_length, h.2], h.2⟩

theorem weight_at_found {weights : StrMap TensorProto} {node : NodeProto} {k : Nat}
    {key : String} {tp : TensorProto} (hin : node.input[k]? = some key)
    (hw : map_find weights key = some tp) :
    weight_at weights node (Int.ofNat k) = .ok (weights, tp) := by
  unfold weight_at
  have hlt : k < node.input.length := (List.getElem?_eq_some.mp hin).1
  rw [at_idx_nat "input" node.input k "" hlt, ok_bind]
  have : node.input.getD k "" = key := by
    rw [List.getD_eq_getElem?_getD, hin]
    rfl
  rw [this]
  unfold map_index
  rw [hw]
  rfl

theorem var_bytes_all (fe : FloatEnv) (v : List F32) (epsilon : F32) :
    var_bytes fe v epsilon (v.length : Int)
      = .ok (floats_bytes (v.map (fun t => fe.add t epsilon))) := by
  unfold var_bytes
  have : ((v.length : Int)).toNat = v.length := by simp
  rw [this, read_floats_nat "var" v (List.range v.length) (fun n hn => List.mem_range.mp hn),
    ok_bind, map_getD_range]
  rfl

theorem map_contains_found {α : Type} {m : StrMap α} {k : String} {a : α}
    (h : map_find m k = some a) : map_contains m k = true := by
  unfold map_contains
  rw [h]
  rfl

theorem write_params_batchnorm (fe : FloatEnv) (st : State) {node : NodeProto} (name : String)
    (hop : node.op_type = "BatchNormalization") :
    write_params fe st node name = params_batchnorm fe st.weights node := by
  unfold write_params
  simp only [hop]
  rfl

theorem params_batchnorm_found (fe : FloatEnv) {weights : StrMap TensorProto}
    {node : NodeProto} {x s b m v : String} {scale B mean var : TensorProto} {channels : Nat}
    (hin : node.input = [x, s, b, m, v])
    (hs : map_find weights s = some scale) (hb : map_find weights b = some B)
    (hm : map_find weights m = some mean) (hv : map_find weights v = some var)
    (hfs : holds_floats scale channels = true) (hfv : holds_floats var channels = true)
    (hsmall : 4 * channels < 2147483648) :
    params_batchnorm fe weights node
      = .ok { weights := weights, text := " 0=" ++ fmt_d (channels : Int),
              bytes := tensor_proto_bytes scale ++ tensor_proto_bytes mean
                ++ floats_bytes ((float_ptr var).map
                     (fun t => fe.add t (get_node_attr_f node "epsilon" f32_1em5)))
                ++ tensor_proto_bytes B } := by
  have e1 : weight_at weights node 1 = .ok (weights, scale) :=
    weight_at_found (k := 1) (by rw [hin]; rfl) hs
  have e2 : weight_at weights node 2 = .ok (weights, B) :=
    weight_at_found (k := 2) (by rw [hin]; rfl) hb
  have e3 : weight_at weights node 3 = .ok (weights, mean) :=
    weight_at_found (k := 3) (by rw [hin]; rfl) hm
  have e4 : weight_at weights node 4 = .ok (weights, var) :=
    weight_at_found (k := 4) (by rw [hin]; rfl) hv
  unfold params_batchnorm
  simp only [e1, e2, e3, e4, ok_bind]
  rw [(holds_floats_facts hfs hsmall).1]
  have hl := (holds_floats_facts hfv hsmall).2.2
  rw [← hl, var_bytes_all, ok_bind]
  rfl

theorem write_params_matmul (fe : FloatEnv) (st : State) {node : NodeProto} (name : String)
    (hop : node.op_type = "MatMul") :
    write_params fe st node name = params_matmul st.weights node := by
  unfold write_params
  simp only [hop]
  rfl

theorem flatMap_uniform_length {α : Type} (a b : Nat) (L : Nat → List α)
    (hL : ∀ x, x < a → (L x).length = b) : ((List.range a).flatMap L).length = a * b := by
  induction a with
  | zero => simp
  | succ a ih =>
    rw [List.range_succ, List.flatMap_append, List.length_append,
      ih (fun x hx => hL x (Nat.lt_succ_of_lt hx))]
    simp only [List.flatMap_cons, List.flatMap_nil, List.append_nil]
    rw [hL a (Nat.lt_succ_self a), Nat.succ_mul]

/-- Element `x * b + y` of a concatenation of blocks of length `b` is element `y` of
block `x`. -/
theorem flatMap_uniform_getD {α : Type} (a b : Nat) (L : Nat → List α) (d : α)
    (hL : ∀ x, x < a → (L x).length = b) {x y : Nat} (hx : x < a) (hy : y < b) :
    ((List.range a).flatMap L).getD (x * b + y) d = (L x).getD y d := by
  induction a with
  | zero => omega
  | succ a ih =>
    have hlen := flatMap_uniform_length a b L (fun x hx => hL x (Nat.lt_succ_of_lt hx))
    rw [List.range_succ, List.flatMap_append]
    simp only [List.flatMap_cons, List.flatMap_nil, List.append_nil]
    by_cases hxa : x < a
    · have hlt : x * b + y < ((List.range a).flatMap L).length := by
        rw [hlen]
        calc x * b + y < x * b + b := by omega
          _ = (x + 1) * b := by ring
          _ ≤ a * b := Nat.mul_le_mul_right b hxa
      rw [List.getD_append _ _ _ _ hlt]
      exact ih (fun x hx => hL x (Nat.lt_succ_of_lt hx)) hxa
    · have hxe : x = a := by omega
      subst hxe
      rw [List.getD_append_right _ _ _ _ (by rw [hlen]; omega), hlen]
      congr 1
      omega

theorem read_slice_nat (data : List F32) (o n : Nat) (h : o + n ≤ data.length) :
    read_slice data (Int.ofNat o) (Int.ofNat n) = .ok ((data.drop o).take n) := by
  unfold read_slice
  rw [if_neg]
  · rfl
  · simp only [Int.ofNat_eq_coe, not_or, not_lt]
    omega

theorem read_slices_nat (data : List F32) (n : Nat) (offs : List Nat)
    (h : ∀ o ∈ offs, o + n ≤ data.length) :
    read_slices data (Int.ofNat n) (offs.map Int.ofNat)
      = .ok (offs.flatMap (fun o => (data.drop o).take n)) := by
  induction offs with
  | nil => rfl
  | cons o rest ih =>
    simp only [List.map_cons, read_slices]
    rw [read_slice_nat data o n (h o (List.mem_cons_self _ _)), ok_bind,
      ih (fun o ho => h o (List.mem_cons_of_mem _ ho)), ok_bind]
    rfl

theorem take_drop_getD (data : List F32) (o n m : Nat) (hm : m < n) :
    ((data.drop o).take n).getD m f32_zero = data.getD (o + m) f32_zero := by
  rw [List.getD_eq_getElem?_getD, List.getD_eq_getElem?_getD, List.getElem?_take_of_lt hm,
    List.getElem?_drop]

theorem take_drop_length (data : List F32) (o n : Nat) (h : o + n ≤ data.length) :
    ((data.drop o).take n).length = n := by
  rw [List.length_take, List.length_drop]
  omega

theorem deconv_offsets_nat (G F ni mk : Nat) :
    deconv_offsets (G : Int) (F : Int) (ni : Int) (mk : Int)
      = ((List.range G).flatMap (fun g => (List.range F).flatMap (fun k =>
          (List.range ni).map (fun j => g * mk * F * ni + (j * F + k) * mk)))).map
          Int.ofNat := by
  unfold deconv_offsets
  simp [List.map_flatMap, Function.comp_def]

theorem deconv_offset_le {G F ni mk g k j : Nat} (hg : g < G) (hk : k < F) (hj : j < ni) :
    g * mk * F * ni + (j * F + k) * mk + mk ≤ G * ni * F * mk := by
  have h1 : j * F + k + 1 ≤ ni * F := grid_index_lt hk hj
  have h2 : (j * F + k + 1) * mk ≤ ni * F * mk := Nat.mul_le_mul_right mk h1
  have h3 : (g + 1) * (ni * F * mk) ≤ G * (ni * F * mk) := Nat.mul_le_mul_right _ hg
  calc g * mk * F * ni + (j * F + k) * mk + mk
      = g * (ni * F * mk) + (j * F + k + 1) * mk := by ring
    _ ≤ g * (ni * F * mk) + ni * F * mk := by omega
    _ = (g + 1) * (ni * F * mk) := by ring
    _ ≤ G * (ni * F * mk) := h3
    _ = G * ni * F * mk := by ring

/-- The floats the loops of lines 1137-1150 stream from `data`, which holds
`G * ni * F * mk` floats: group `g`'s block of shape `(ni, F, mk)` is written as
`(F, ni, mk)`. -/
theorem read_deconv (data : List F32) (G F ni mk : Nat)
    (hlen : data.length = G * ni * F * mk) :
    ∃ S, read_slices data (Int.ofNat mk) (deconv_offsets (G : Int) (F : Int) (ni : Int) (mk : Int))
          = .ok S
      ∧ S.length = G * ni * F * mk
      ∧ ∀ g k j m, g < G → k < F → j < ni → m < mk →
          S.getD (((g * F + k) * ni + j) * mk + m) f32_zero
            = data.getD (((g * ni + j) * F + k) * mk + m) f32_zero := by
  have hoff : ∀ g k j, g < G → k < F → j < ni →
      g * mk * F * ni + (j * F + k) * mk + mk ≤ data.length := by
    intro g k j hg hk hj
    rw [hlen]
    exact deconv_offset_le hg hk hj
  have hl3 : ∀ g k, g < G → k < F → ∀ j, j < ni →
      ((data.drop (g * mk * F * ni + (j * F + k) * mk)).take mk).length = mk :=
    fun g k hg hk j hj => take_drop_length data _ mk (hoff g k j hg hk hj)
  have hl2 : ∀ g, g < G → ∀ k, k < F →
      ((List.range ni).flatMap (fun j =>
          (data.drop (g * mk * F * ni + (j * F + k) * mk)).take mk)).length = ni * mk :=
    fun g hg k hk => flatMap_uniform_length ni mk _ (hl3 g k hg hk)
  have hl1 : ∀ g, g < G →
      ((List.range F).flatMap (fun k => (List.range ni).flatMap (fun j =>
          (data.drop (g * mk * F * ni + (j * F + k) * mk)).take mk))).length
        = F * (ni * mk) :=
    fun g hg => flatMap_uniform_length F (ni * mk) _ (hl2 g hg)
  refine ⟨(List.range G).flatMap (fun g => (List.range F).flatMap (fun k =>
      (List.range ni).flatMap (fun j =>
        (data.drop (g * mk * F * ni + (j * F + k) * mk)).take mk))), ?_, ?_, ?_⟩
  · rw [deconv_offsets_nat, read_slices_nat]
    · simp only [List.flatMap_assoc, List.flatMap_map]
    · intro o ho
      simp only [List.mem_flatMap, List.mem_range, List.mem_map] at ho
      obtain ⟨g, hg, k, hk, j, hj, rfl⟩ := ho
      exact hoff g k j hg hk hj
  · rw [flatMap_uniform_length G (F * (ni * mk)) _ hl1]
    ring
  · intro g k j m hg hk hj hm
    have hy2 : j * mk + m < ni * mk := grid_index_lt hm hj
    have hy1 : k * (ni * mk) + (j * mk + m) < F * (ni * mk) := grid_index_lt hy2 hk
    have hidx : ((g * F + k) * ni + j) * mk + m
        = g * (F * (ni * mk)) + (k * (ni * mk) + (j * mk + m)) := by ring
    rw [hidx, flatMap_uniform_getD G (F * (ni * mk)) _ f32_zero hl1 hg hy1,
      flatMap_uniform_getD F (ni * mk) _ f32_zero (hl2 g hg) hk hy2,
      flatMap_uniform_getD ni mk _ f32_zero (hl3 g k hg hk) hj hm,
      take_drop_getD data _ mk m hm]
    congr 1
    ring

theorem holds_floats_data {tp : TensorProto} {n : Nat} (h : holds_floats tp n = true) :
    (match tp.raw_data with
      | some raw => raw_floats raw
      | none => if tp.data_type = 1 then tp.float_data else []) = float_ptr tp := by
  unfold holds_floats at h
  unfold float_ptr
  cases hr : tp.raw_data with
  | some raw => rfl
  | none =>
    rw [hr] at h
    simp only [Bool.and_eq_true, beq_iff_eq] at h
    simp only [h.1, if_true]

theorem deconv_weight_eq {W : TensorProto} {ks : List Int} {G F ni kh kw : Nat}
    (hks : ks = [(kh : Int), (kw : Int)]
      ∨ (ks.length ≠ 2 ∧ ks.head? = some (kh : Int) ∧ kw = kh))
    (hf : holds_floats W (G * ni * F * (kh * kw)) = true)
    (hG : 0 < G) (hF : 0 < F) (hk : 0 < kh * kw)
    (hsmall : 4 * (G * ni * F * (kh * kw)) < 2147483648)
    (hmk : kh * kw < 2147483648) :
    deconv_weight W ks (G : Int) ((F * G : Nat) : Int)
      = read_slices (float_ptr W) (Int.ofNat (kh * kw))
          (deconv_offsets (G : Int) (F : Int) (ni : Int) ((kh * kw : Nat) : Int)) := by
  obtain ⟨hsize, -, -⟩ := holds_floats_facts hf hsmall
  have hdata := holds_floats_data hf
  have hmx : to_int32 ((kw : Int) * (kh : Int)) = ((kh * kw : Nat) : Int) := by
    have hlt : (kw : Int) * (kh : Int) < 2147483648 := by
      exact_mod_cast (show kw * kh < 2147483648 by rw [Nat.mul_comm]; exact hmk)
    rw [to_int32_small (by positivity) hlt]
    push_cast
    ring
  have e1 : Int.tdiv ((F * G : Nat) : Int) (G : Int) = (F : Int) := by
    rw [← Int.ofNat_tdiv, Nat.mul_div_cancel F hG]
  have e2 : (((((G * ni * F * (kh * kw) : Nat) : Int).tdiv ((kh * kw : Nat) : Int)).tdiv
      (F : Int)).tdiv (G : Int)) = (ni : Int) := by
    rw [← Int.ofNat_tdiv, ← Int.ofNat_tdiv, ← Int.ofNat_tdiv, Nat.mul_div_cancel _ hk,
      Nat.mul_div_cancel _ hF, Nat.mul_comm G ni, Nat.mul_div_cancel _ hG]
  have hG0 : ¬ ((G : Int) ≤ 0) := by omega
  have hk0 : ∀ t, at_idx "kernel_shape" ((kh : Int) :: t) 0 = .ok (kh : Int) := fun _ => rfl
  have hz : ¬ (((kh * kw : Nat) : Int) = 0 ∨ (F : Int) = 0) := by omega
  have shapes : ks = [(kh : Int), (kw : Int)] ∨ (ks = [(kh : Int)] ∧ kh = kw)
      ∨ ∃ b c t, ks = (kh : Int) :: b :: c :: t ∧ kh = kw := by
    rcases hks with hks | ⟨hlen, hhead, hkw⟩
    · exact Or.inl hks
    · rcases ks with _ | ⟨a, _ | ⟨b, _ | ⟨c, t⟩⟩⟩
      · cases hhead
      · cases hhead
        exact Or.inr (Or.inl ⟨rfl, hkw.symm⟩)
      · exact absurd rfl hlen
      · cases hhead
        exact Or.inr (Or.inr ⟨b, c, t, rfl, hkw.symm⟩)
  rcases shapes with rfl | ⟨rfl, rfl⟩ | ⟨b, c, t, rfl, rfl⟩ <;>
  · unfold deconv_weight
    rw [hk0, ok_bind]
    simp only [hmx, hsize, e1, e2, if_neg hG0, if_neg hz]
    exact congrArg (fun d => read_slices d _ _) hdata

theorem write_params_deconv (fe : FloatEnv) (st : State) {node : NodeProto} (name : String)
    (hop : node.op_type = "ConvTranspose") :
    write_params fe st node name = params_deconv st.weights node := by
  unfold write_params
  simp only [hop]
  rfl

theorem bias_bytes_ok (weights : StrMap TensorProto) (node : NodeProto) :
    ∃ r, bias_bytes weights node (if node.input.length = 3 then 1 else 0) = .ok r := by
  unfold bias_bytes
  by_cases h3 : node.input.length = 3
  · rw [if_pos h3, if_pos (by decide)]
    have hlt : 2 < node.input.length := by omega
    have e : weight_at weights node 2
        = .ok (map_index weights (node.input.getD 2 "") TensorProto.empty) := by
      unfold weight_at
      rw [show (2 : Int) = Int.ofNat 2 from rfl, at_idx_nat "input" node.input 2 "" hlt, ok_bind]
      rfl
    rw [e, ok_bind]
    exact ⟨_, rfl⟩
  · rw [if_neg h3, if_neg (by decide)]
    exact ⟨_, rfl⟩

theorem layer_kind_deconv (st : State) {node : NodeProto} (hop : node.op_type = "ConvTranspose") :
    ∃ kind, layer_kind st node = .ok (.kind kind) := by
  unfold layer_kind
  simp only [hop]
  by_cases hg : get_node_attr_i node "group" 1 > 1
  · exact ⟨fmt_ls 16 "DeconvolutionDepthWise", by simp only [hg, if_true]; rfl⟩
  · exact ⟨fmt_ls 16 "Deconvolution", by simp only [hg, if_false]; rfl⟩

theorem params_deconv_found {weights : StrMap TensorProto} {node : NodeProto} {Wn : String}
    {W : TensorProto} {G F ni kh kw : Nat}
    (hin : node.input[1]? = some Wn) (hW : map_find weights Wn = some W)
    (hG : get_node_attr_i node "group" 1 = (G : Int)) (hG0 : 0 < G)
    (hF : W.dims[1]? = some (F : Int)) (hF0 : 0 < F)
    (hks : get_node_attr_ai node "kernel_shape" = [(kh : Int), (kw : Int)]
      ∨ ((get_node_attr_ai node "kernel_shape").length ≠ 2
          ∧ (get_node_attr_ai node "kernel_shape").head? = some (kh : Int) ∧ kw = kh))
    (hk : 0 < kh * kw)
    (hf : holds_floats W (G * ni * F * (kh * kw)) = true)
    (hsmall : 4 * (G * ni * F * (kh * kw)) < 2147483648)
    (hmk : kh * kw < 2147483648) (hFG : F * G < 2147483648) :
    ∃ p S bias, params_deconv weights node = .ok p
      ∧ p.bytes = quantize_tag ++ floats_bytes S ++ bias
      ∧ S.length = G * ni * F * (kh * kw)
      ∧ ∀ g k j m, g < G → k < F → j < ni → m < kh * kw →
          S.getD (((g * F + k) * ni + j) * (kh * kw) + m) f32_zero
            = (float_ptr W).getD (((g * ni + j) * F + k) * (kh * kw) + m) f32_zero := by
  have e1 : weight_at weights node 1 = .ok (weights, W) := weight_at_found (k := 1) hin hW
  obtain ⟨-, -, hlen⟩ := holds_floats_facts hf hsmall
  obtain ⟨S, hS, hSlen, hSget⟩ := read_deconv (float_ptr W) G F ni (kh * kw) hlen
  obtain ⟨⟨w2, bias⟩, hbias⟩ := bias_bytes_ok weights node
  have e2 : at_idx "dims" W.dims 1 = .ok (F : Int) := by
    have hlt : 1 < W.dims.length := (List.getElem?_eq_some.mp hF).1
    rw [show (1 : Int) = Int.ofNat 1 from rfl, at_idx_nat "dims" W.dims 1 0 hlt,
      List.getD_eq_getElem?_getD, hF]
    rfl
  have e3 : to_int32 ((F : Int) * (G : Int)) = ((F * G : Nat) : Int) := by
    rw [to_int32_small (by positivity) (by exact_mod_cast hFG)]
    push_cast
    rfl
  refine ⟨{ weights := w2,
             text := " 0=" ++ fmt_d ((F * G : Nat) : Int)
               ++ conv_keys node W (if node.input.length = 3 then 1 else 0),
             bytes := quantize_tag ++ floats_bytes S ++ bias }, S, bias, ?_, rfl, hSlen, hSget⟩
  unfold params_deconv
  simp only [e1, ok_bind, e2, hG, e3]
  rw [deconv_weight_eq hks hf hG0 hF0 hk hsmall hmk, hS, ok_bind, hbias, ok_bind]
  rfl

theorem permute_weight_transposed (B : TensorProto) (h w : Nat)
    (hdims : B.dims = [(h : Int), (w : Int)]) (hh : h < 2147483648) (hw : w < 2147483648)
    (hlen : (float_ptr B).length = h * w) :
    permute_weight B
      = .ok (store_permuted B (h : Int) (w : Int) (transposed h w (float_ptr B))) := by
  unfold permute_weight
  have e0 : at_idx "dims" B.dims 0 = .ok (h : Int) := by rw [hdims]; rfl
  have e1 : at_idx "dims" B.dims 1 = .ok (w : Int) := by rw [hdims]; rfl
  rw [e0, ok_bind, e1, ok_bind, to_int32_small (by omega) (by omega),
    to_int32_small (by omega) (by omega)]
  rw [if_neg (by have : (0 : Int) ≤ (h : Int) * (w : Int) := by positivity
                 omega), read_permuted _ _ h w hlen, ok_bind]
  rfl

theorem store_permuted_holds (B : TensorProto) (h w : Nat)
    (hf : holds_floats B (h * w) = true) :
    holds_floats (store_permuted B (h : Int) (w : Int) (transposed h w (float_ptr B))) (h * w)
        = true
      ∧ (store_permuted B (h : Int) (w : Int) (transposed h w (float_ptr B))).raw_data.isSome
          = B.raw_data.isSome := by
  unfold holds_floats store_permuted at *
  cases hr : B.raw_data with
  | some raw =>
    simp only [floats_bytes_length, transposed_length, beq_self_eq_true, Option.isSome_some,
      and_self]
  | none =>
    rw [hr] at hf
    simp only [Bool.and_eq_true, beq_iff_eq] at hf
    simp only [hr, hf.1, List.length_append, transposed_length, List.length_drop, hf.2,
      Nat.sub_self, Nat.add_zero, beq_self_eq_true, Bool.and_self, Option.isSome_none, and_self]

theorem store_permuted_transposed_dims (B : TensorProto) (h w : Nat) (p : List F32)
    (hdims : B.dims = [(h : Int), (w : Int)]) :
    (store_permuted B (h : Int) (w : Int) p).dims = [(w : Int), (h : Int)] := by
  unfold store_permuted
  split <;> simp [hdims]

theorem map_find_none_iff {α : Type} (m : StrMap α) (k : String) :
    map_find m k = none ↔ k ∉ m.map Prod.fst := by
  induction m with
  | nil => simp [map_find]
  | cons e rest ih =>
    obtain ⟨a, w⟩ := e
    unfold map_find
    by_cases h : a = k
    · simp [h]
    · simp only [h, if_false, ih, List.map_cons, List.mem_cons, not_or]
      exact ⟨fun hr => ⟨fun e => h e.symm, hr⟩, fun hr => hr.2⟩

theorem map_set_keys {α : Type} (m : StrMap α) (k : String) (v : α) :
    (map_set m k v).map Prod.fst
      = if k ∈ m.map Prod.fst then m.map Prod.fst else m.map Prod.fst ++ [k] := by
  induction m with
  | nil => simp [map_set]
  | cons e rest ih =>
    obtain ⟨a, w⟩ := e
    unfold map_set
    by_cases h : a = k
    · simp [h]
    · have hk : ¬ k = a := fun e => h e.symm
      simp only [h, if_false, List.map_cons, ih, List.mem_cons, hk, false_or]
      split <;> simp

theorem map_set_nodup {α : Type} {m : StrMap α} (k : String) (v : α)
    (h : (m.map Prod.fst).Nodup) : ((map_set m k v).map Prod.fst).Nodup := by
  rw [map_set_keys]
  split
  · exact h
  · rename_i hk
    exact List.Nodup.append h (List.nodup_singleton k) (by simpa using hk)

theorem map_index_nodup {α : Type} {m : StrMap α} (k : String) (d : α)
    (h : (m.map Prod.fst).Nodup) : (((map_index m k d).1).map Prod.fst).Nodup := by
  unfold map_index
  split
  · exact h
  · exact map_set_nodup k d h

theorem map_erase_sublist {α : Type} (m : StrMap α) (k : String) :
    List.Sublist (map_erase m k) m := by
  induction m with
  | nil => exact List.Sublist.slnil
  | cons e rest ih =>
    obtain ⟨a, w⟩ := e
    unfold map_erase
    split
    · exact List.sublist_cons_self _ _
    · exact List.Sublist.cons₂ _ ih

theorem map_erase_nodup {α : Type} {m : StrMap α} (k : String)
    (h : (m.map Prod.fst).Nodup) : ((map_erase m k).map Prod.fst).Nodup :=
  List.Nodup.sublist ((map_erase_sublist m k).map Prod.fst) h

theorem map_find_erase_self {α : Type} {m : StrMap α} (k : String)
    (h : (m.map Prod.fst).Nodup) : map_find (map_erase m k) k = none := by
  induction m with
  | nil => rfl
  | cons e rest ih =>
    obtain ⟨a, w⟩ := e
    simp only [List.map_cons, List.nodup_cons] at h
    unfold map_erase
    by_cases hk : a = k
    · simp only [hk, if_true]
      rw [map_find_none_iff]
      rw [← hk]
      exact h.1
    · simp only [hk, if_false]
      unfold map_find
      simp only [hk, if_false]
      exact ih h.2

/-- A count equal to 1 after the read `m[k]` or after an erasure was there before. -/
theorem map_index_one {m : StrMap Int} {k k' : String}
    (h : map_find (map_index m k 0).1 k' = some 1) : map_find m k' = some 1 := by
  unfold map_index at h
  split at h
  · exact h
  · rw [map_find_set] at h
    split at h
    · cases h
    · exact h

theorem map_erase_one {m : StrMap Int} {k k' : String} (hn : (m.map Prod.fst).Nodup)
    (h : map_find (map_erase m k) k' = some 1) : map_find m k' = some 1 := by
  by_cases hk : k = k'
  · subst hk
    rw [map_find_erase_self k hn] at h
    cases h
  · rw [map_find_erase_ne m hk] at h
    exact h

theorem fused_weights_rank {st st2 : State} {l out : List NodeProto} (h : Fused st l st2 out) :
    ∀ k B2, map_find st2.weights k = some B2 →
      ∃ B, map_find st.weights k = some B ∧ B.dims.length = B2.dims.length := by
  induction h with
  | nil st => exact fun k B2 hk => ⟨B2, hk, rfl⟩
  | skip hc _ ih =>
    intro k B2 hk
    obtain ⟨B, hB, hlen⟩ := ih k B2 hk
    rcases fuse_check_skip hc with h1 | ⟨o0, h1⟩ <;> rw [h1] at hB <;> exact ⟨B, hB, hlen⟩
  | reduce hc hr _ ih =>
    intro k B2 hk
    obtain ⟨B1, hB1, hlen⟩ := ih k B2 hk
    obtain ⟨-, -, -, hW, -, -, -, -⟩ := fuse_check_reduce hc
    obtain ⟨-, -, -, Bp, hp, hst⟩ := fuse_reduce_ok hr
    rw [hst] at hB1
    have hB1' : map_find (map_set _ _ Bp) k = some B1 := hB1
    rw [map_find_set] at hB1'
    split at hB1'
    · rename_i hk0
      cases hB1'
      subst hk0
      exact ⟨_, hW, by rw [← hlen, permute_weight_dims hp]⟩
    · exact ⟨B1, hB1', hlen⟩

/-- The rewriter keeps the keys of the fan-out map distinct and never makes a count 1. -/
theorem fused_fanout_one {st st2 : State} {l out : List NodeProto} (h : Fused st l st2 out) :
    (st.node_reference.map Prod.fst).Nodup →
      (st2.node_reference.map Prod.fst).Nodup
        ∧ ∀ k, map_find st2.node_reference k = some 1 → map_find st.node_reference k = some 1 := by
  induction h with
  | nil st => exact fun hn => ⟨hn, fun k hk => hk⟩
  | skip hc _ ih =>
    intro hn
    rcases fuse_check_skip hc with h1 | ⟨o0, h1⟩
    · rw [h1] at ih
      exact ih hn
    · rw [h1] at ih
      obtain ⟨hn2, hone⟩ := ih (map_index_nodup o0 0 hn)
      exact ⟨hn2, fun k hk => map_index_one (hone k hk)⟩
  | reduce hc hr _ ih =>
    intro hn
    obtain ⟨-, -, -, Bp, -, hst⟩ := fuse_reduce_ok hr
    rw [hst] at ih
    obtain ⟨hn2, hone⟩ := ih (map_erase_nodup _ hn)
    exact ⟨hn2, fun k hk => map_erase_one hn (hone k hk)⟩

theorem node_rel_matmul {n n1 : NodeProto} (h : NodeRel n n1) (hop : n1.op_type = "MatMul") :
    n.op_type = "MatMul" := by
  rcases h with h | ⟨_, h⟩ | ⟨hm, _⟩
  · rw [← h]; exact hop
  · rw [h] at hop
    have hop1 : "noop_reducedncnn" = "MatMul" := hop
    exact absurd hop1 (by decide)
  · exact hm

theorem count_inputs_nodup (st : State) (inputs : List String)
    (h : (st.node_reference.map Prod.fst).Nodup) :
    ((count_inputs st inputs).node_reference.map Prod.fst).Nodup := by
  induction inputs generalizing st with
  | nil => exact h
  | cons a rest ih =>
    unfold count_inputs
    split
    · exact ih st h
    · apply ih
      show ((match map_find st.node_reference a with
            | none => map_set st.node_reference a 1
            | some c => map_set st.node_reference a (c + 1)).map Prod.fst).Nodup
      split <;> exact map_set_nodup _ _ h

theorem move_binaryop_weights_fanout (st : State) (inputs : List String) :
    (move_binaryop_weights st inputs).node_reference = st.node_reference := by
  induction inputs generalizing st with
  | nil => rfl
  | cons a rest ih =>
    unfold move_binaryop_weights
    split
    · rw [ih]
    · exact ih st

theorem classify_tail_nodup {st st1 : State} {node : NodeProto}
    (h : classify_tail st node = .ok st1) (hn : (st.node_reference.map Prod.fst).Nodup) :
    (st1.node_reference.map Prod.fst).Nodup := by
  unfold classify_tail at h
  split at h
  · obtain ⟨o, -, h⟩ := bind_ok h
    cases h
    exact count_inputs_nodup st node.input hn
  · cases h
    exact count_inputs_nodup st node.input hn

theorem classify_node_nodup {st st1 : State} {node : NodeProto}
    (h : classify_node st node = .ok st1) (hn : (st.node_reference.map Prod.fst).Nodup) :
    (st1.node_reference.map Prod.fst).Nodup := by
  unfold classify_node at h
  obtain ⟨_, -, h⟩ := bind_ok h
  unfold classify_body at h
  split at h
  · unfold classify_constant at h
    obtain ⟨o, -, h⟩ := bind_ok h
    cases h
    exact hn
  split at h
  · split at h
    · unfold classify_reshape1 at h
      obtain ⟨i0, -, h⟩ := bind_ok h
      split at h
      · obtain ⟨o, -, h⟩ := bind_ok h
        cases h
        exact hn
      · exact classify_tail_nodup h hn
    split at h
    · unfold classify_reshape2 at h
      obtain ⟨i0, -, h⟩ := bind_ok h
      split at h
      · obtain ⟨o, -, h⟩ := bind_ok h
        obtain ⟨i1, -, h⟩ := bind_ok h
        cases h
        exact hn
      · exact classify_tail_nodup h hn
    · exact classify_tail_nodup h hn
  split at h
  · exact classify_tail_nodup h (by rw [move_binaryop_weights_fanout]; exact hn)
  · exact classify_tail_nodup h hn

theorem classify_nodes_nodup {nodes : List NodeProto} {st st1 : State}
    (h : classify_nodes st nodes = .ok st1) (hn : (st.node_reference.map Prod.fst).Nodup) :
    (st1.node_reference.map Prod.fst).Nodup := by
  induction nodes generalizing st with
  | nil =>
    cases h
    exact hn
  | cons n rest ih =>
    unfold classify_nodes at h
    obtain ⟨s, hs, h⟩ := bind_ok h
    exact ih h (classify_node_nodup hs hn)

theorem count_graph_inputs_fanout (st : State) (inputs : List String) :
    (count_graph_inputs st inputs).node_reference = st.node_reference := by
  induction inputs generalizing st with
  | nil => rfl
  | cons a rest ih =>
    unfold count_graph_inputs
    split
    · exact ih st
    · split
      · exact ih st
      · rw [ih]

theorem classify_nodup {graph : GraphProto} {st : State} (h : classify graph = .ok st) :
    (st.node_reference.map Prod.fst).Nodup := by
  unfold classify at h
  obtain ⟨s, hs, h⟩ := bind_ok h
  cases h
  rw [count_graph_inputs_fanout]
  exact classify_nodes_nodup hs List.nodup_nil

/-- After the rewriter no `Transpose` that passes all its tests is left in front of a
`MatMul`. -/
theorem fused_no_collapsible {st st2 : State} {l out : List NodeProto} (h : Fused st l st2 out) :
    (st.node_reference.map Prod.fst).Nodup →
    ∀ (i : Nat) (node next : NodeProto) (W Wt : String) (B : TensorProto),
      out[i]? = some node → out[i + 1]? = some next →
      node.op_type = "Transpose" → next.op_type = "MatMul" →
      node.input.head? = some W → map_find st2.weights W = some B → B.dims.length = 2 →
      node.output.head? = some Wt → get_node_attr_ai node "perm" = [1, 0] →
      map_find st2.node_reference Wt ≠ some 1 := by
  induction h with
  | nil st =>
    intro _ i node next W Wt B hi
    simp at hi
  | @skip st st1 st2 node0 rest out0 hc hf ih =>
    intro hn i node next W Wt B hi hnext hop hmm hin hW hB hout hperm hfan
    have hn1 : (st1.node_reference.map Prod.fst).Nodup := by
      rcases fuse_check_skip hc with h1 | ⟨o0, h1⟩
      · rw [h1]; exact hn
      · rw [h1]; exact map_index_nodup o0 0 hn
    cases i with
    | succ i =>
      exact ih hn1 i node next W Wt B (by simpa using hi) (by simpa using hnext) hop hmm hin hW
        hB hout hperm hfan
    | zero =>
      have hnode : node0 = node := by simpa using hi
      subst hnode
      have hnext0 : out0[0]? = some next := by simpa using hnext
      obtain ⟨n, hn0, hrel⟩ := forall₂_get_right (fused_rel hf) hnext0
      have hhead : rest.head? = some n := by
        cases rest with
        | nil => simp at hn0
        | cons a t => simpa using hn0
      have hnm := node_rel_matmul hrel hmm
      obtain ⟨B1, hB1, hlen1⟩ := fused_weights_rank hf W B hW
      have hfan1 := (fused_fanout_one hf hn1).2 Wt hfan
      have hw : st1.weights = st.weights := by
        rcases fuse_check_skip hc with h1 | ⟨o0, h1⟩ <;> rw [h1]
      have hfan0 : map_find st.node_reference Wt = some 1 := by
        rcases fuse_check_skip hc with h1 | ⟨o0, h1⟩
        · rw [h1] at hfan1; exact hfan1
        · rw [h1] at hfan1; exact map_index_one hfan1
      rw [hw] at hB1
      have hred : fuse_check st node0 (some n) = .ok (.reduce W Wt B1) :=
        fuse_check_reduce_of hop hnm hin hout hperm hB1 (by rw [hlen1, hB]) hfan0
      rw [hhead, hred] at hc
      cases hc
  | @reduce st st1 st2 node0 node2 node1 node2a rest out0 input0 output0 B0 hc hr hf ih =>
    intro hn i node next W Wt B hi hnext hop hmm hin hW hB hout hperm hfan
    obtain ⟨-, h1, h2, Bp, -, hst⟩ := fuse_reduce_ok hr
    obtain ⟨-, -, -, -, -, -, -, n2, hn2, hn2m⟩ := fuse_check_reduce hc
    cases hn2
    have hn1 : (st1.node_reference.map Prod.fst).Nodup := by
      rw [hst]; exact map_erase_nodup _ hn
    match i with
    | 0 =>
      have hnode : node1 = node := by simpa using hi
      rw [← hnode, h1] at hop
      have hop1 : "noop_reducedncnn" = "Transpose" := hop
      exact absurd hop1 (by decide)
    | 1 =>
      have hnode : node2a = node := by simpa using hi
      rw [← hnode, h2] at hop
      have hop1 : node2.op_type = "Transpose" := hop
      rw [hn2m] at hop1
      exact absurd hop1 (by decide)
    | i + 2 =>
      exact ih hn1 i node next W Wt B (by simpa using hi) (by simpa using hnext) hop hmm hin hW
        hB hout hperm hfan

set_option maxRecDepth 100000 in
theorem unary_codes_source :
    ∀ e ∈ unary_codes, plain_kind e.1 = some "UnaryOp" ∧ op_type_code e.1 = some e.2
      ∧ e.1 ≠ "Constant" ∧ e.1 ≠ "Conv" ∧ e.1 ≠ "ConvTranspose" ∧ e.1 ≠ "Gemm"
      ∧ e.1 ≠ "Reshape" ∧ e.1 ≠ "noop_reducedncnn" ∧ e.1 ≠ "Dropout" ∧ e.1 ≠ "MatMul" := by
  decide

set_option maxRecDepth 100000 in
theorem binary_codes_source :
    ∀ e ∈ binary_codes, plain_kind e.1 = some "BinaryOp" ∧ op_type_code e.1 = some e.2
      ∧ e.1 ≠ "Constant" ∧ e.1 ≠ "Conv" ∧ e.1 ≠ "ConvTranspose" ∧ e.1 ≠ "Gemm"
      ∧ e.1 ≠ "Reshape" ∧ e.1 ≠ "noop_reducedncnn" ∧ e.1 ≠ "Dropout" ∧ e.1 ≠ "MatMul" := by
  decide

theorem write_params_code (fe : FloatEnv) (st : State) {node : NodeProto} (name : String)
    {c : Int} (h : op_type_code node.op_type = some c) :
    write_params fe st node name = .ok (text_only st.weights (" 0=" ++ fmt_d c)) := by
  unfold write_params
  simp only [h]
  rfl

/-- The line of a node whose operator has the fixed kind `kind` and the code `c`. -/
theorem emit_node_code (fe : FloatEnv) {graph : GraphProto} {i : Nat} {sa : State}
    {node : NodeProto} {rest : List NodeProto} {kind : String} {c : Int}
    (hat : emitter_state_at fe graph i = .ok (sa, node :: rest))
    (hk : plain_kind node.op_type = some kind) (hc : op_type_code node.op_type = some c)
    (h1 : node.op_type ≠ "Constant") (h2 : node.op_type ≠ "Conv")
    (h3 : node.op_type ≠ "ConvTranspose") (h4 : node.op_type ≠ "Gemm")
    (h5 : node.op_type ≠ "Reshape") (h6 : node.op_type ≠ "noop_reducedncnn")
    (h7 : node.op_type ≠ "Dropout") (h8 : node.op_type ≠ "MatMul") :
    graph.node[i]? = some node
    ∧ ∃ name sb, layer_name node = .ok name
        ∧ emit_node fe sa node = .ok sb
        ∧ emitter_state_at fe graph (i + 1) = .ok (sb, rest)
        ∧ sb.pp = sa.pp
            ++ node_line (fmt_ls 16 kind) name
                 (count_runtime_inputs sa.weights node.input) node.output.length
                 (write_inputs sa.weights sa.node_reference node.input).2 node.output
                 (" 0=" ++ fmt_d c)
            :: split_lines (write_inputs sa.weights sa.node_reference node.input).1
                 sa.internal_split node.output
        ∧ sb.bv = sa.bv := by
  obtain ⟨name, hname⟩ := state_at_name hat
  have hkind := layer_kind_plain sa h1 h2 h3 h4 h5 hk
  obtain ⟨sb, hsb, hnext, hpp, hbv⟩ :=
    emit_node_line fe hat h6 h7 hname hkind (write_params_code fe sa name hc)
  exact ⟨state_at_same hat h6 h8, name, sb, hname, hsb, hnext, hpp,
    by rw [hbv]; exact List.append_nil _⟩

theorem layer_kind_reshape {st : State} {node : NodeProto} {x : String}
    (hop : node.op_type = "Reshape") (hx : node.input.head? = some x)
    (hnw : map_contains st.weights x = false) :
    layer_kind st node = .ok (.kind (fmt_ls 16 "Reshape")) := by
  unfold layer_kind
  simp only [hop]
  rw [if_neg (by decide), if_neg (by decide), if_neg (by decide), if_neg (by decide),
    if_pos trivial, at_idx_zero_of_head "input" hx]
  split
  · simp only [ok_bind, hnw]
    rfl
  · rfl

theorem write_params_reshape (fe : FloatEnv) (st : State) {node : NodeProto} (name : String)
    (hop : node.op_type = "Reshape") :
    write_params fe st node name = params_reshape st.weights node := by
  unfold write_params
  simp only [hop]
  rfl

theorem params_reshape_shape {weights : StrMap TensorProto} {node : NodeProto} {x : String}
    {shape : List Int}
    (hshape : (node.input.length = 1 ∧ shape = get_node_attr_ai node "shape")
      ∨ ∃ s tp, node.input = [x, s] ∧ map_find weights s = some tp
          ∧ shape = tp.int64_data.map to_int32) :
    params_reshape weights node = .ok (text_only weights (reshape_keys shape)) := by
  unfold params_reshape
  rcases hshape with ⟨h1, hs⟩ | ⟨s, tp, hin, hw, hs⟩
  · rw [if_pos h1, hs]
    rfl
  · rw [if_neg (by rw [hin]; simp)]
    have e : weight_at weights node 1 = .ok (weights, tp) :=
      weight_at_found (k := 1) (by rw [hin]; rfl) hw
    rw [e, ok_bind, hs]
    rfl

theorem write_inputs_length (w : StrMap TensorProto) (nr : StrMap Int) (l : List String) :
    (write_inputs w nr l).2.length = (l.filter (fun x => !map_contains w x)).length := by
  induction l generalizing nr with
  | nil => rfl
  | cons a rest ih =>
    unfold write_inputs
    by_cases h : map_contains w a = true
    · simp only [h, if_true, List.filter_cons, Bool.not_true]
      exact ih nr
    · have hf : map_contains w a = false := by simpa using h
      simp only [hf, Bool.false_eq_true, if_false, List.filter_cons, Bool.not_false, if_true,
        List.length_cons]
      split
      · simp only [List.length_cons, ih]
      · simp only [List.length_cons, ih]

theorem count_runtime_inputs_eq (w : StrMap TensorProto) (l : List String) :
    count_runtime_inputs w l = ((l.filter (fun x => !map_contains w x)).length : Int) := by
  unfold count_runtime_inputs
  induction l with
  | nil => rfl
  | cons a rest ih =>
    by_cases h : map_contains w a = true
    · simp only [List.length_cons, List.filter_cons, h, if_true, Bool.not_true,
        Bool.false_eq_true, if_false] at ih ⊢
      push_cast
      omega
    · have hf : map_contains w a = false := by simpa using h
      simp only [List.length_cons, List.filter_cons, hf, Bool.false_eq_true, if_false,
        Bool.not_false, if_true] at ih ⊢
      push_cast
      omega

theorem first_outputs_length {node : NodeProto} {n : Nat} {outs : List String}
    (h : first_outputs node n = .ok outs) : outs = node.output.take n ∧ outs.length = n := by
  unfold first_outputs at h
  split at h
  · rename_i hle
    cases h
    exact ⟨rfl, by rw [List.length_take]; omega⟩
  · cases h

theorem split_lines_mem {nr : StrMap Int} {k : Int} {outs : List String} {l : String}
    (h : l ∈ split_lines nr k outs) :
    ∃ (splitname name : String) (n : Nat), 1 < n ∧ l = split_line splitname name (n : Int) := by
  induction outs generalizing k with
  | nil => simp [split_lines] at h
  | cons a rest ih =>
    unfold split_lines at h
    split at h
    · rename_i c hc
      split at h
      · rename_i hgt
        rcases List.mem_cons.mp h with h | h
        · refine ⟨"splitncnn_" ++ fmt_d k, a, c.toNat, by omega, ?_⟩
          rw [h, Int.toNat_of_nonneg (by omega)]
        · exact ih h
      · exact ih h
    · exact ih h

theorem input_lines_mem {st : State} {j : Nat} {inputs : List String} {l : String}
    (h : l ∈ input_lines st j inputs) :
    (∃ name, l = input_line name)
      ∨ ∃ (splitname name : String) (n : Nat), 1 < n ∧ l = split_line splitname name (n : Int) := by
  induction inputs generalizing j with
  | nil => simp [input_lines] at h
  | cons a rest ih =>
    unfold input_lines at h
    split at h
    · exact ih h
    split at h
    · exact ih h
    split at h
    · rcases List.mem_cons.mp h with h | h
      · exact Or.inl ⟨a, h⟩
      · exact ih h
    · rename_i c hc
      split at h
      · rcases List.mem_cons.mp h with h | h
        · exact Or.inl ⟨a, h⟩
        · exact ih h
      · rename_i hgt
        rcases List.mem_cons.mp h with h | h
        · exact Or.inl ⟨a, h⟩
        rcases List.mem_cons.mp h with h | h
        · refine Or.inr ⟨"splitncnn_input" ++ fmt_d (j : Int), a, c.toNat, by omega, ?_⟩
          rw [h, Int.toNat_of_nonneg (by omega)]
        · exact ih h

theorem weight_at_keeps {weights w1 : StrMap TensorProto} {node : NodeProto} {k : Int}
    {tp : TensorProto} (h : weight_at weights node k = .ok (w1, tp))
    {key : String} {v : TensorProto} (hk : map_find weights key = some v) :
    map_find w1 key = some v := by
  unfold weight_at at h
  obtain ⟨nm, _, h⟩ := bind_ok h
  have h1 : map_index weights nm TensorProto.empty = (w1, tp) := by
    simpa [pure, Except.pure] using h
  have h2 := map_index_find weights nm key TensorProto.empty v hk
  rw [h1] at h2
  exact h2

theorem bias_bytes_keeps {weights w1 : StrMap TensorProto} {node : NodeProto} {b : Int}
    {bytes : List Nat} (h : bias_bytes weights node b = .ok (w1, bytes))
    {key : String} {v : TensorProto} (hk : map_find weights key = some v) :
    map_find w1 key = some v := by
  unfold bias_bytes at h
  split at h
  · obtain ⟨⟨w2, B⟩, h1, h⟩ := bind_ok h
    cases h
    exact weight_at_keeps h1 hk
  · cases h
    exact hk

theorem params_batchnorm_keeps {fe : FloatEnv} {weights : StrMap TensorProto} {node : NodeProto}
    {p : Params} (h : params_batchnorm fe weights node = .ok p)
    {key : String} {v : TensorProto} (hk : map_find weights key = some v) :
    map_find p.weights key = some v := by
  unfold params_batchnorm at h
  obtain ⟨⟨w1, a1⟩, h1, h⟩ := bind_ok h
  obtain ⟨⟨w2, a2⟩, h2, h⟩ := bind_ok h
  obtain ⟨⟨w3, a3⟩, h3, h⟩ := bind_ok h
  obtain ⟨⟨w4, a4⟩, h4, h⟩ := bind_ok h
  obtain ⟨ve, _, h⟩ := bind_ok h
  cases h
  exact weight_at_keeps h4 (weight_at_keeps h3 (weight_at_keeps h2 (weight_at_keeps h1 hk)))

theorem params_conv_keeps {weights : StrMap TensorProto} {node : NodeProto}
    {p : Params} (h : params_conv weights node = .ok p)
    {key : String} {v : TensorProto} (hk : map_find weights key = some v) :
    map_find p.weights key = some v := by
  unfold params_conv at h
  obtain ⟨⟨w1, a1⟩, h1, h⟩ := bind_ok h
  obtain ⟨d, _, h⟩ := bind_ok h
  obtain ⟨⟨w2, a2⟩, h2, h⟩ := bind_ok h
  cases h
  exact bias_bytes_keeps h2 (weight_at_keeps h1 hk)

theorem params_deconv_keeps {weights : StrMap TensorProto} {node : NodeProto}
    {p : Params} (h : params_deconv weights node = .ok p)
    {key : String} {v : TensorProto} (hk : map_find weights key = some v) :
    map_find p.weights key = some v := by
  unfold params_deconv at h
  obtain ⟨⟨w1, a1⟩, h1, h⟩ := bind_ok h
  obtain ⟨d, _, h⟩ := bind_ok h
  obtain ⟨wt, _, h⟩ := bind_ok h
  obtain ⟨⟨w2, a2⟩, h2, h⟩ := bind_ok h
  cases h
  exact bias_bytes_keeps h2 (weight_at_keeps h1 hk)

theorem params_gemm_keeps {weights : StrMap TensorProto} {node : NodeProto}
    {p : Params} (h : params_gemm weights node = .ok p)
    {key : String} {v : TensorProto} (hk : map_find weights key = some v) :
    map_find p.weights key = some v := by
  unfold params_gemm at h
  simp only [] at h
  split at h
  · obtain ⟨⟨w1, a1⟩, h1, h⟩ := bind_ok h
    obtain ⟨⟨w2, a2⟩, h2, h⟩ := bind_ok h
    cases h
    exact weight_at_keeps h2 (weight_at_keeps h1 hk)
  · cases h
    exact hk

theorem params_instancenorm_keeps {fe : FloatEnv} {weights : StrMap TensorProto}
    {node : NodeProto} {p : Params} (h : params_instancenorm fe weights node = .ok p)
    {key : String} {v : TensorProto} (hk : map_find weights key = some v) :
    map_find p.weights key = some v := by
  unfold params_instancenorm at h
  obtain ⟨⟨w1, a1⟩, h1, h⟩ := bind_ok h
  obtain ⟨⟨w2, a2⟩, h2, h⟩ := bind_ok h
  cases h
  exact weight_at_keeps h2 (weight_at_keeps h1 hk)

theorem params_matmul_keeps {weights : StrMap TensorProto} {node : NodeProto}
    {p : Params} (h : params_matmul weights node = .ok p)
    {key : String} {v : TensorProto} (hk : map_find weights key = some v) :
    map_find p.weights key = some v := by
  unfold params_matmul at h
  obtain ⟨⟨w1, a1⟩, h1, h⟩ := bind_ok h
  obtain ⟨d, _, h⟩ := bind_ok h
  simp only [] at h
  split at h
  · cases h
  · obtain ⟨wt, _, h⟩ := bind_ok h
    cases h
    exact weight_at_keeps h1 hk

theorem params_prelu_keeps {weights : StrMap TensorProto} {node : NodeProto}
    {p : Params} (h : params_prelu weights node = .ok p)
    {key : String} {v : TensorProto} (hk : map_find weights key = some v) :
    map_find p.weights key = some v := by
  unfold params_prelu at h
  obtain ⟨⟨w1, a1⟩, h1, h⟩ := bind_ok h
  cases h
  exact weight_at_keeps h1 hk

theorem params_reshape_keeps {weights : StrMap TensorProto} {node : NodeProto}
    {p : Params} (h : params_reshape weights node = .ok p)
    {key : String} {v : TensorProto} (hk : map_find weights key = some v) :
    map_find p.weights key = some v := by
  unfold params_reshape at h
  split at h
  · cases h
    exact hk
  · obtain ⟨⟨w1, a1⟩, h1, h⟩ := bind_ok h
    cases h
    exact weight_at_keeps h1 hk

theorem resize_scales_keeps {weights w1 : StrMap TensorProto} {node : NodeProto}
    {sc : List F32} (h : resize_scales weights node = .ok (w1, sc))
    {key : String} {v : TensorProto} (hk : map_find weights key = some v) :
    map_find w1 key = some v := by
  unfold resize_scales at h
  split at h
  · cases h
    exact hk
  · obtain ⟨⟨w2, a1⟩, h1, h⟩ := bind_ok h
    obtain ⟨n, _, h⟩ := bind_ok h
    obtain ⟨s, _, h⟩ := bind_ok h
    cases h
    exact weight_at_keeps h1 hk

theorem params_resize_keeps {fe : FloatEnv} {weights : StrMap TensorProto} {node : NodeProto}
    {p : Params} (h : params_resize fe weights node = .ok p)
    {key : String} {v : TensorProto} (hk : map_find weights key = some v) :
    map_find p.weights key = some v := by
  unfold params_resize at h
  obtain ⟨⟨w1, a1⟩, h1, h⟩ := bind_ok h
  obtain ⟨rt, _, h⟩ := bind_ok h
  obtain ⟨⟨hs, ws⟩, _, h⟩ := bind_ok h
  cases h
  exact resize_scales_keeps h1 hk

theorem map_text_only_keeps {weights : StrMap TensorProto} {r : Res String} {p : Params}
    (h : r.map (text_only weights) = .ok p) : p.weights = weights := by
  cases r with
  | error e => cases h
  | ok s => cases h; rfl

theorem ite_keeps {c : Prop} [Decidable c] {a b : Res Params} {p : Params} {key : String}
    {v : TensorProto} (h : (if c then a else b) = .ok p)
    (ha : a = .ok p → map_find p.weights key = some v)
    (hb : b = .ok p → map_find p.weights key = some v) :
    map_find p.weights key = some v := by
  split at h
  · exact ha h
  · exact hb h

theorem write_params_keeps {fe : FloatEnv} {st : State} {node : NodeProto} {name : String}
    {p : Params} (h : write_params fe st node name = .ok p)
    {key : String} {v : TensorProto} (hk : map_find st.weights key = some v) :
    map_find p.weights key = some v := by
  have hpure : ∀ t : String,
      (pure (text_only st.weights t) : Res Params) = .ok p → map_find p.weights key = some v := by
    intro t h
    cases h
    exact hk
  have hmap : ∀ r : Res String,
      r.map (text_only st.weights) = .ok p → map_find p.weights key = some v := by
    intro r h
    rw [map_text_only_keeps h]
    exact hk
  unfold write_params at h
  conv at h => lhs; zeta
  revert h
  cases op_type_code node.op_type with
  | some c => exact hpure _
  | none =>
    intro h
    refine ite_keeps h (hpure _) (fun h => ?_)
    refine ite_keeps h (fun h => params_batchnorm_keeps h hk) (fun h => ?_)
    refine ite_keeps h (hpure _) (fun h => ?_)
    refine ite_keeps h (hpure _) (fun h => ?_)
    refine ite_keeps h (fun h => ?_) (fun h => ?_)
    · cases h
      unfold params_constant
      split <;> exact hk
    refine ite_keeps h (fun h => params_conv_keeps h hk) (fun h => ?_)
    refine ite_keeps h (fun h => params_deconv_keeps h hk) (fun h => ?_)
    refine ite_keeps h (hpure _) (fun h => ?_)
    refine ite_keeps h (hpure _) (fun h => ?_)
    refine ite_keeps h (fun h => ?_) (fun h => ?_)
    · exact ite_keeps h (fun h => by cases h) (hpure _)
    refine ite_keeps h (fun h => params_gemm_keeps h hk) (fun h => ?_)
    refine ite_keeps h (hpure _) (fun h => ?_)
    refine ite_keeps h (hpure _) (fun h => ?_)
    refine ite_keeps h (fun h => ?_) (fun h => ?_)
    · cases h
      exact hk
    refine ite_keeps h (fun h => params_instancenorm_keeps h hk) (fun h => ?_)
    refine ite_keeps h (hpure _) (fun h => ?_)
    refine ite_keeps h (hpure _) (fun h => ?_)
    refine ite_keeps h (fun h => params_matmul_keeps h hk) (fun h => ?_)
    refine ite_keeps h (hmap _) (fun h => ?_)
    refine ite_keeps h (fun h => params_prelu_keeps h hk) (fun h => ?_)
    refine ite_keeps h (fun h => params_reshape_keeps h hk) (fun h => ?_)
    refine ite_keeps h (hpure _) (fun h => ?_)
    refine ite_keeps h (hmap _) (fun h => ?_)
    refine ite_keeps h (hpure _) (fun h => ?_)
    refine ite_keeps h (hmap _) (fun h => ?_)
    exact ite_keeps h (fun h => params_resize_keeps h hk) (hpure _)

theorem emit_node_keeps {fe : FloatEnv} {st sb : State} {node : NodeProto}
    (h : emit_node fe st node = .ok sb)
    {key : String} {v : TensorProto} (hk : map_find st.weights key = some v) :
    map_find sb.weights key = some v := by
  unfold emit_node at h
  split at h
  · cases h; exact hk
  · obtain ⟨name, _, h⟩ := bind_ok h
    obtain ⟨k, _, h⟩ := bind_ok h
    cases k with
    | skip => cases h; exact hk
    | kind kind =>
      simp only [] at h
      rw [emit_layer_eq] at h
      obtain ⟨outs, _, h⟩ := bind_ok h
      obtain ⟨p, hp, h⟩ := bind_ok h
      cases h
      exact write_params_keeps hp hk

theorem emit_nodes_keeps {fe : FloatEnv} {nodes : List NodeProto} {st sb : State}
    (h : emit_nodes fe st nodes = .ok sb)
    {key : String} {v : TensorProto} (hk : map_find st.weights key = some v) :
    map_find sb.weights key = some v := by
  induction nodes generalizing st with
  | nil => unfold emit_nodes at h; cases h; exact hk
  | cons n rest ih =>
    unfold emit_nodes at h
    obtain ⟨s1, h1, h⟩ := bind_ok h
    exact ih h (emit_node_keeps h1 hk)

theorem place_memorydata_weights (st : State) (inputs : List String) :
    (place_memorydata st inputs).weights = st.weights := by
  induction inputs generalizing st with
  | nil => rfl
  | cons a rest ih =>
    unfold place_memorydata
    split
    · exact ih st
    · rw [ih]

theorem emit_prelude_weights (graph : GraphProto) (st : State) :
    (emit_prelude graph st).weights = st.weights := by
  unfold emit_prelude
  rw [place_memorydata_weights]
  rfl

theorem fused_weight_frame {st st2 : State} {l out : List NodeProto} (h : Fused st l st2 out)
    (W : String) : (∀ n ∈ l, W ∉ n.input) → map_find st2.weights W = map_find st.weights W := by
  induction h with
  | nil st => exact fun _ => rfl
  | skip hc _ ih =>
    intro hl
    rw [ih (fun n hn => hl n (List.mem_cons_of_mem _ hn))]
    rcases fuse_check_skip hc with h1 | ⟨o0, h1⟩ <;> rw [h1]
  | @reduce st st1 st2 node node2 node1 node2a rest out i0 o0 B hc hr _ ih =>
    intro hl
    rw [ih (fun n hn => hl n (List.mem_cons_of_mem _ (List.mem_cons_of_mem _ hn)))]
    obtain ⟨-, hi0, -, -, -, -, -, -⟩ := fuse_check_reduce hc
    obtain ⟨-, -, -, B1, -, hst⟩ := fuse_reduce_ok hr
    have hmem : i0 ∈ node.input := List.mem_of_mem_head? (at_idx_zero hi0)
    have hne : i0 ≠ W := fun e => hl node (List.mem_cons_self _ _) (e ▸ hmem)
    rw [hst]
    simp only [map_find_set, if_neg hne]

theorem fused_collapsed_weight {st st2 : State} {l out : List NodeProto}
    (h : Fused st l st2 out) :
    ∀ (i : Nat) (t : NodeProto) (W : String) (B : TensorProto),
      l[i]? = some t → t.op_type = "Transpose" → t.input.head? = some W →
      out[i]? = some { t with op_type := "noop_reducedncnn" } →
      map_find st.weights W = some B →
      (∀ j n, l[j]? = some n → j ≠ i → W ∉ n.input) →
      ∃ B1 m, permute_weight B = .ok B1 ∧ map_find st2.weights W = some B1
        ∧ l[i + 1]? = some m ∧ m.op_type = "MatMul" ∧ 2 ≤ m.input.length
        ∧ out[i + 1]? = some { m with input := m.input.set 1 W } := by
  induction h with
  | nil st => intro i t W B hi; simp at hi
  | @skip st st1 st2 node rest out hc _ ih =>
    intro i t W B hi hop hin hout hW hother
    have hw1 : st1.weights = st.weights := by
      rcases fuse_check_skip hc with h1 | ⟨o0, h1⟩ <;> rw [h1]
    cases i with
    | zero =>
      simp only [List.getElem?_cons_zero, Option.some.injEq] at hi hout
      subst hi
      have h1 := congrArg NodeProto.op_type hout
      rw [hop] at h1
      have h2 : "Transpose" = "noop_reducedncnn" := h1
      exact absurd h2 (by decide)
    | succ k =>
      simp only [List.getElem?_cons_succ] at hi hout
      obtain ⟨B1, m, h1, h2, h3, h4, h5, h6⟩ := ih k t W B hi hop hin hout (hw1 ▸ hW)
        (fun j n hj hne => hother (j + 1) n (by simpa using hj) (by omega))
      exact ⟨B1, m, h1, h2, by simpa using h3, h4, h5, by simpa using h6⟩
  | @reduce st st1 st2 node node2 node1 node2a rest out i0 o0 B0 hc hr hf ih =>
    intro i t W B hi hop hin hout hW hother
    obtain ⟨-, hi0, -, hB0, -, -, -, n2, hn2, hm⟩ := fuse_check_reduce hc
    cases hn2
    obtain ⟨hlen, hn1, hn2a, B1, hp, hst⟩ := fuse_reduce_ok hr
    have hi0h := at_idx_zero hi0
    match i, hi, hout, hother with
    | 0, hi, hout, hother =>
      simp only [List.getElem?_cons_zero, Option.some.injEq] at hi
      subst hi
      have hWi : W = i0 := by
        rw [hin] at hi0h
        exact (Option.some.inj hi0h)
      subst hWi
      rw [hW] at hB0
      cases hB0
      refine ⟨B1, node2, hp, ?_, by simp, hm, hlen, ?_⟩
      · rw [fused_weight_frame hf W (fun n hn => ?_), hst]
        · simp only [map_find_set, if_true]
        · obtain ⟨j, hj⟩ := List.getElem?_of_mem hn
          exact hother (j + 2) n (by simpa using hj) (by omega)
      · simp only [List.getElem?_cons_succ, List.getElem?_cons_zero, hn2a]
    | 1, hi, hout, hother =>
      simp only [List.getElem?_cons_succ, List.getElem?_cons_zero, Option.some.injEq] at hi
      subst hi
      rw [hop] at hm
      have h2 : "Transpose" = "MatMul" := hm
      exact absurd h2 (by decide)
    | k + 2, hi, hout, hother =>
      simp only [List.getElem?_cons_succ] at hi hout
      have hne : i0 ≠ W := fun e =>
        hother 0 node rfl (by omega) (e ▸ List.mem_of_mem_head? hi0h)
      have hW1 : map_find st1.weights W = some B := by
        rw [hst]
        simp only [map_find_set, if_neg hne]
        exact hW
      obtain ⟨B2, m, h1, h2, h3, h4, h5, h6⟩ := ih k t W B hi hop hin hout hW1
        (fun j n hj hne => hother (j + 2) n (by simpa using hj) (by omega))
      exact ⟨B2, m, h1, h2, by simpa using h3, h4, h5, by simpa using h6⟩

set_option maxRecDepth 100000 in
theorem elementwise_ops_source :
    ∀ op ∈ elementwise_ops, (plain_kind op).isSome = true
      ∧ ((op_type_code op).isSome = true ∨ op = "Relu" ∨ op = "Sigmoid")
      ∧ op ≠ "Constant" ∧ op ≠ "Conv" ∧ op ≠ "ConvTranspose" ∧ op ≠ "Gemm"
      ∧ op ≠ "Reshape" ∧ op ≠ "noop_reducedncnn" ∧ op ≠ "Dropout" ∧ op ≠ "Transpose" := by
  decide

theorem write_params_relu (fe : FloatEnv) (st : State) {node : NodeProto} (name : String)
    (h : node.op_type = "Relu") :
    write_params fe st node name = .ok (text_only st.weights "") := by
  unfold write_params
  simp only [h]
  rfl

theorem write_params_sigmoid (fe : FloatEnv) (st : State) {node : NodeProto} (name : String)
    (h : node.op_type = "Sigmoid") :
    write_params fe st node name = .ok (text_only st.weights "") := by
  unfold write_params
  simp only [h]
  rfl

theorem write_params_elementwise (fe : FloatEnv) (st : State) {node : NodeProto} (name : String)
    (h : node.op_type ∈ elementwise_ops) :
    ∃ text, write_params fe st node name = .ok (text_only st.weights text) := by
  obtain ⟨-, hc, -⟩ := elementwise_ops_source _ h
  rcases hc with hc | hc | hc
  · obtain ⟨c, hc⟩ := Option.isSome_iff_exists.mp hc
    exact ⟨_, write_params_code fe st name hc⟩
  · exact ⟨_, write_params_relu fe st name hc⟩
  · exact ⟨_, write_params_sigmoid fe st name hc⟩

theorem layer_kind_elementwise (st : State) {node : NodeProto}
    (h : node.op_type ∈ elementwise_ops) :
    ∃ k, layer_kind st node = .ok (.kind (fmt_ls 16 k)) := by
  obtain ⟨hk, -, h1, h2, h3, h4, h5, -⟩ := elementwise_ops_source _ h
  obtain ⟨k, hk⟩ := Option.isSome_iff_exists.mp hk
  exact ⟨k, layer_kind_plain st h1 h2 h3 h4 h5 hk⟩

theorem layer_name_of_output {node : NodeProto} (h : node.output ≠ []) :
    ∃ name, layer_name node = .ok name := by
  unfold layer_name
  split
  · cases ho : node.output with
    | nil => exact absurd ho h
    | cons a rest => exact ⟨a, rfl⟩
  · exact ⟨_, rfl⟩

theorem needs_split_iff (nr : StrMap Int) (x : String) :
    needs_split nr x = true ↔ ∃ c, map_find nr x = some c ∧ 1 < c := by
  unfold needs_split
  cases map_find nr x with
  | none => simp
  | some c => simp

theorem needs_split_none {nr : StrMap Int} {x : String} (h : map_find nr x = none) :
    needs_split nr x = false := by
  unfold needs_split
  rw [h]

theorem needs_split_some {nr : StrMap Int} {x : String} {c : Int} (h : map_find nr x = some c) :
    needs_split nr x = decide (1 < c) := by
  unfold needs_split
  rw [h]

theorem split_lines_length (nr : StrMap Int) (k : Int) (outs : List String) :
    (split_lines nr k outs).length = (outs.filter (needs_split nr)).length := by
  induction outs generalizing k with
  | nil => rfl
  | cons a rest ih =>
    unfold split_lines
    rw [List.filter_cons]
    cases hm : map_find nr a with
    | none =>
      rw [needs_split_none hm]
      simp only [Bool.false_eq_true, if_false]
      exact ih k
    | some c =>
      rw [needs_split_some hm]
      simp only [gt_iff_lt, decide_eq_true_eq]
      by_cases hc : 1 < c
      · simp only [hc, if_true, List.length_cons]
        rw [ih]
      · simp only [hc, if_false]
        exact ih k

theorem input_lines_length (st : State) (j : Nat) (inputs : List String)
    (hw : st.weights = []) (hb : st.binaryop_weights = []) :
    (input_lines st j inputs).length
      = inputs.length + (inputs.filter (needs_split st.node_reference)).length := by
  induction inputs generalizing j with
  | nil => rfl
  | cons a rest ih =>
    unfold input_lines
    rw [List.filter_cons]
    have h1 : map_contains st.weights a = false := by rw [hw]; rfl
    have h2 : map_contains st.binaryop_weights a = false := by rw [hb]; rfl
    simp only [h1, h2, Bool.false_eq_true, if_false]
    cases hm : map_find st.node_reference a with
    | none =>
      rw [needs_split_none hm]
      simp only [Bool.false_eq_true, if_false, List.length_cons, ih]
      omega
    | some c =>
      rw [needs_split_some hm]
      simp only [decide_eq_true_eq]
      by_cases hc : 1 < c
      · have : ¬ c ≤ 1 := by omega
        simp only [hc, this, if_true, if_false, List.length_cons, ih]
        omega
      · have : c ≤ 1 := by omega
        simp only [hc, this, if_true, if_false, List.length_cons, ih]
        omega

theorem write_inputs_frame (w : StrMap TensorProto) (nr : StrMap Int) (l : List String)
    {x : String} (hx : x ∉ l) : map_find (write_inputs w nr l).1 x = map_find nr x := by
  induction l generalizing nr with
  | nil => rfl
  | cons a rest ih =>
    have hxa : a ≠ x := fun e => hx (e ▸ List.mem_cons_self _ _)
    have hxr : x ∉ rest := fun e => hx (List.mem_cons_of_mem _ e)
    unfold write_inputs
    split
    · exact ih nr hxr
    · split
      · simp only []
        rw [ih _ hxr, map_find_set, if_neg hxa]
      · simp only []
        exact ih nr hxr

theorem place_memorydata_plain (st : State) (inputs : List String)
    (hb : st.binaryop_weights = []) : place_memorydata st inputs = st := by
  induction inputs with
  | nil => rfl
  | cons a rest ih =>
    unfold place_memorydata
    have : map_find st.binaryop_weights a = none := by rw [hb]; rfl
    simp only [this]
    exact ih

theorem move_binaryop_weights_plain (st : State) (inputs : List String)
    (hw : st.weights = []) : move_binaryop_weights st inputs = st := by
  induction inputs with
  | nil => rfl
  | cons a rest ih =>
    unfold move_binaryop_weights
    have : map_find st.weights a = none := by rw [hw]; rfl
    simp only [this]
    exact ih

theorem count_inputs_frame (st : State) (inputs : List String) :
    (count_inputs st inputs).weights = st.weights
      ∧ (count_inputs st inputs).pp = st.pp
      ∧ (count_inputs st inputs).input_node_count = st.input_node_count
      ∧ (count_inputs st inputs).reduced_node_count = st.reduced_node_count := by
  induction inputs generalizing st with
  | nil => exact ⟨rfl, rfl, rfl, rfl⟩
  | cons a rest ih =>
    unfold count_inputs
    split
    · exact ih st
    · exact ih _

/-- With no weights every name in `inputs` is counted: the count of `x` grows by the
number of its occurrences. -/
theorem count_inputs_counts (st : State) (inputs : List String) (hw : st.weights = [])
    (x : String) :
    map_find (count_inputs st inputs).node_reference x
      = if inputs.count x = 0 then map_find st.node_reference x
        else some ((map_find st.node_reference x).getD 0 + (inputs.count x : Int)) := by
  induction inputs generalizing st with
  | nil => rfl
  | cons a rest ih =>
    unfold count_inputs
    have h1 : map_contains st.weights a = false := by rw [hw]; rfl
    simp only [h1, Bool.false_eq_true, if_false]
    refine Eq.trans (ih _ ?_) ?_
    · exact hw
    simp only []
    have hset : ∀ y, map_find (match map_find st.node_reference a with
          | none => map_set st.node_reference a 1
          | some c => map_set st.node_reference a (c + 1)) y
        = if a = y then some ((map_find st.node_reference a).getD 0 + 1)
          else map_find st.node_reference y := by
      intro y
      cases hm : map_find st.node_reference a with
      | none => simp only [map_find_set, Option.getD_none, zero_add]
      | some c => simp only [map_find_set, Option.getD_some]
    have hset1 := hset x
    simp only [] at hset1
    rw [List.count_cons]
    refine Eq.trans (congrArg (fun m => if List.count x rest = 0 then m
        else some (m.getD 0 + (List.count x rest : Int))) hset1) ?_
    simp only []
    by_cases hax : a = x
    · subst hax
      simp only [if_true, beq_self_eq_true, Option.getD_some]
      by_cases hc : List.count a rest = 0
      · simp [hc]
      · have : ¬ (List.count a rest + 1 = 0) := by omega
        simp only [hc, this, if_false, Option.some.injEq]
        push_cast
        omega
    · have hb : (a == x) = false := by simpa using hax
      simp only [hax, if_false, hb, Bool.false_eq_true, Nat.add_zero]

theorem classify_node_elementwise (st : State) {node : NodeProto}
    (hop : node.op_type ∈ elementwise_ops) (hout : node.output ≠ []) (hw : st.weights = []) :
    classify_node st node
      = .ok { count_inputs st node.input with
                blob_names := insert_outputs (count_inputs st node.input).blob_names
                                node.output } := by
  obtain ⟨-, -, h1, -, -, -, h5, -, h7, -⟩ := elementwise_ops_source _ hop
  obtain ⟨name, hname⟩ := layer_name_of_output hout
  unfold classify_node
  rw [hname, ok_bind]
  unfold classify_body
  rw [if_neg h1, if_neg h5, move_binaryop_weights_plain st _ hw]
  simp only [ite_self]
  unfold classify_tail
  rw [if_neg h7]
  rfl

theorem classify_nodes_elementwise (nodes : List NodeProto) (st : State)
    (hops : ∀ n ∈ nodes, n.op_type ∈ elementwise_ops) (hout : ∀ n ∈ nodes, n.output ≠ [])
    (hw : st.weights = []) :
    ∃ st1, classify_nodes st nodes = .ok st1
      ∧ st1.weights = [] ∧ st1.binaryop_weights = st.binaryop_weights ∧ st1.pp = st.pp
      ∧ st1.input_node_count = st.input_node_count
      ∧ st1.reduced_node_count = st.reduced_node_count
      ∧ ∀ x, map_find st1.node_reference x
          = if (nodes.flatMap (fun n => n.input)).count x = 0 then map_find st.node_reference x
            else some ((map_find st.node_reference x).getD 0
                        + ((nodes.flatMap (fun n => n.input)).count x : Int)) := by
  induction nodes generalizing st with
  | nil => exact ⟨st, rfl, hw, rfl, rfl, rfl, rfl, fun x => rfl⟩
  | cons n rest ih =>
    have hn := classify_node_elementwise st (hops n (List.mem_cons_self _ _))
      (hout n (List.mem_cons_self _ _)) hw
    obtain ⟨f1, f2, f3, f4⟩ := count_inputs_frame st n.input
    obtain ⟨st1, h1, h2, h3, h4, h5, h6, h7⟩ := ih
      { count_inputs st n.input with
          blob_names := insert_outputs (count_inputs st n.input).blob_names n.output }
      (fun m hm => hops m (List.mem_cons_of_mem _ hm))
      (fun m hm => hout m (List.mem_cons_of_mem _ hm)) (by rw [← hw]; exact f1)
    refine ⟨st1, ?_, h2, ?_, ?_, ?_, ?_, ?_⟩
    · unfold classify_nodes
      rw [hn, ok_bind]
      exact h1
    · rw [h3]; exact count_inputs_bw _ _
    · rw [h4]; exact f2
    · rw [h5]; exact f3
    · rw [h6]; exact f4
    · intro x
      rw [h7 x]
      simp only [List.flatMap_cons, List.count_append]
      rw [count_inputs_counts st n.input hw x]
      by_cases c1 : List.count x n.input = 0
      · by_cases c2 : (rest.flatMap (fun n => n.input)).count x = 0
        · simp [c1, c2]
        · simp [c1, c2]
      · by_cases c2 : (rest.flatMap (fun n => n.input)).count x = 0
        · simp [c1, c2]
        · have : ¬ (List.count x n.input + (rest.flatMap (fun n => n.input)).count x = 0) := by
            omega
          simp only [c1, c2, this, if_false, Option.getD_some, Option.some.injEq]
          push_cast
          omega

theorem count_graph_inputs_plain (st : State) (inputs : List String)
    (hw : st.weights = []) (hb : st.binaryop_weights = []) :
    (count_graph_inputs st inputs).weights = []
      ∧ (count_graph_inputs st inputs).pp = st.pp
      ∧ (count_graph_inputs st inputs).reduced_node_count = st.reduced_node_count
      ∧ (count_graph_inputs st inputs).input_node_count
          = st.input_node_count + (inputs.length : Int) := by
  induction inputs generalizing st with
  | nil => exact ⟨hw, rfl, rfl, by simp [count_graph_inputs]⟩
  | cons a rest ih =>
    unfold count_graph_inputs
    have h1 : map_contains st.weights a = false := by rw [hw]; rfl
    have h2 : map_contains st.binaryop_weights a = false := by rw [hb]; rfl
    simp only [h1, h2, Bool.false_eq_true, if_false]
    obtain ⟨i1, i2, i3, i4⟩ := ih
      { st with blob_names := set_insert st.blob_names a,
                input_node_count := st.input_node_count + 1 } hw hb
    refine ⟨i1, i2, i3, ?_⟩
    rw [i4]
    simp only [List.length_cons]
    push_cast
    omega

theorem fuse_check_plain (st : State) {node : NodeProto} (next : Option NodeProto)
    (h : node.op_type ≠ "Transpose") : fuse_check st node next = .ok (.skip st) := by
  unfold fuse_check
  rw [if_neg h]
  rfl

theorem fuse_nodes_plain (st : State) (nodes : List NodeProto)
    (h : ∀ n ∈ nodes, n.op_type ≠ "Transpose") : fuse_nodes st nodes = .ok (st, nodes) := by
  induction nodes with
  | nil => rfl
  | cons n rest ih =>
    have hn := h n (List.mem_cons_self _ _)
    have ih1 := ih (fun m hm => h m (List.mem_cons_of_mem _ hm))
    cases rest with
    | nil =>
      unfold fuse_nodes
      rw [fuse_check_plain st none hn]
      rfl
    | cons n2 rest2 =>
      unfold fuse_nodes
      rw [fuse_check_plain st (some n2) hn]
      simp only [ih1]
      rfl

theorem map_find_mem {α : Type} {m : StrMap α} {k : String} {v : α}
    (h : map_find m k = some v) : (k, v) ∈ m := by
  induction m with
  | nil => cases h
  | cons e rest ih =>
    obtain ⟨a, w⟩ := e
    unfold map_find at h
    split at h
    · rename_i hak
      cases h
      rw [hak]
      exact List.mem_cons_self _ _
    · exact List.mem_cons_of_mem _ (ih h)

theorem map_find_of_mem {α : Type} {m : StrMap α} {k : String} {v : α}
    (hn : (m.map Prod.fst).Nodup) (h : (k, v) ∈ m) : map_find m k = some v := by
  induction m with
  | nil => cases h
  | cons e rest ih =>
    obtain ⟨a, w⟩ := e
    simp only [List.map_cons, List.nodup_cons] at hn
    unfold map_find
    rcases List.mem_cons.mp h with h | h
    · cases h
      simp
    · have hne : a ≠ k := by
        intro e
        apply hn.1
        rw [e]
        exact List.mem_map_of_mem Prod.fst h
      rw [if_neg hne]
      exact ih hn.2 h

theorem prune_find {nr : StrMap Int} (hn : (nr.map Prod.fst).Nodup) (k : String) (c : Int) :
    map_find (prune_node_reference nr) k = some c ↔ (map_find nr k = some c ∧ c ≠ 1) := by
  have hsub : ((prune_node_reference nr).map Prod.fst).Nodup :=
    List.Nodup.sublist (List.Sublist.map _ (List.filter_sublist _)) hn
  constructor
  · intro h
    have hm := map_find_mem h
    unfold prune_node_reference at hm
    rw [List.mem_filter] at hm
    exact ⟨map_find_of_mem hn hm.1, by simpa using hm.2⟩
  · intro h
    apply map_find_of_mem hsub
    unfold prune_node_reference
    rw [List.mem_filter]
    exact ⟨map_find_mem h.1, by simpa using h.2⟩

theorem prune_nodup {nr : StrMap Int} (hn : (nr.map Prod.fst).Nodup) :
    ((prune_node_reference nr).map Prod.fst).Nodup :=
  List.Nodup.sublist (List.Sublist.map _ (List.filter_sublist _)) hn

theorem mem_keys_iff {α : Type} (m : StrMap α) (k : String) :
    k ∈ m.map Prod.fst ↔ ∃ v, map_find m k = some v := by
  constructor
  · intro h
    by_contra hc
    have : map_find m k = none := by
      cases hm : map_find m k with
      | none => rfl
      | some v => exact absurd ⟨v, hm⟩ hc
    exact (map_find_none_iff m k).mp this h
  · rintro ⟨v, hv⟩
    by_contra hc
    have := (map_find_none_iff m k).mpr hc
    rw [hv] at this
    cases this

/-- A map whose counts all exceed 1 and whose keys are among the distinct names `names`
has as many entries as `names` has names that get a `Split`. -/
theorem split_names_count {P : StrMap Int} {names : List String}
    (hP : (P.map Prod.fst).Nodup) (hU : names.Nodup)
    (hval : ∀ k c, map_find P k = some c → 1 < c)
    (hkeys : ∀ k c, map_find P k = some c → k ∈ names) :
    P.length = (names.filter (needs_split P)).length := by
  have hperm : (P.map Prod.fst).Perm (names.filter (needs_split P)) := by
    rw [List.perm_ext_iff_of_nodup hP (hU.filter _)]
    intro a
    rw [List.mem_filter, needs_split_iff, mem_keys_iff]
    constructor
    · rintro ⟨c, hc⟩
      exact ⟨hkeys a c hc, c, hc, hval a c hc⟩
    · rintro ⟨-, c, hc, -⟩
      exact ⟨c, hc⟩
  rw [← hperm.length_eq, List.length_map]

theorem emit_node_elementwise (fe : FloatEnv) (st : State) {node : NodeProto}
    (hop : node.op_type ∈ elementwise_ops) (hout : node.output ≠ []) :
    ∃ name kind text,
      emit_node fe st node
        = .ok (layer_state st node name kind node.output (text_only st.weights text)) := by
  obtain ⟨-, -, -, -, -, -, -, h6, h7, -⟩ := elementwise_ops_source _ hop
  obtain ⟨name, hname⟩ := layer_name_of_output hout
  obtain ⟨k, hk⟩ := layer_kind_elementwise st hop
  obtain ⟨text, hp⟩ := write_params_elementwise fe st name hop
  exact ⟨name, _, text, emit_node_params fe h6 h7 hname hk hp⟩

/-- The node loop on element-wise nodes none of which reads an output of itself or of
a later node: it completes, and writes one line for each node and one `Split` line for
each output whose count in `P`, the counts when the loop started, exceeds 1. -/
theorem emit_nodes_elementwise (fe : FloatEnv) (P : StrMap Int) (nodes : List NodeProto) :
    ∀ (st : State),
      (∀ n ∈ nodes, n.op_type ∈ elementwise_ops) → (∀ n ∈ nodes, n.output ≠ []) →
      (∀ o ∈ nodes.flatMap (fun n => n.output),
          map_find st.node_reference o = map_find P o) →
      (∀ i n, nodes[i]? = some n → ∀ x ∈ n.input,
          x ∉ (nodes.drop i).flatMap (fun m => m.output)) →
      ∃ sb lines, emit_nodes fe st nodes = .ok sb ∧ sb.pp = st.pp ++ lines
        ∧ lines.length
            = nodes.length + ((nodes.flatMap (fun n => n.output)).filter (needs_split P)).length := by
  induction nodes with
  | nil =>
    intro st _ _ _ _
    exact ⟨st, [], rfl, by simp, rfl⟩
  | cons n rest ih =>
    intro st hops hout hP hord
    obtain ⟨name, kind, text, hn⟩ := emit_node_elementwise fe st
      (hops n (List.mem_cons_self _ _)) (hout n (List.mem_cons_self _ _))
    have hfr : ∀ o ∈ (n :: rest).flatMap (fun m => m.output),
        map_find (write_inputs st.weights st.node_reference n.input).1 o = map_find P o := by
      intro o ho
      rw [write_inputs_frame _ _ _ (fun hx => hord 0 n (by simp) o hx (by simpa using ho))]
      exact hP o ho
    obtain ⟨sb, lines, h1, h2, h3⟩ := ih
      (layer_state st n name kind n.output (text_only st.weights text))
      (fun m hm => hops m (List.mem_cons_of_mem _ hm))
      (fun m hm => hout m (List.mem_cons_of_mem _ hm))
      (fun o ho => hfr o (by
        simp only [List.flatMap_cons, List.mem_append]
        exact Or.inr ho))
      (fun i m hi x hx => by
        have := hord (i + 1) m (by simpa using hi) x hx
        simpa using this)
    refine ⟨sb,
      node_line kind name (count_runtime_inputs st.weights n.input) (output_size n)
          (write_inputs st.weights st.node_reference n.input).2 n.output
          (text_only st.weights text).text
        :: (split_lines (write_inputs st.weights st.node_reference n.input).1
              st.internal_split n.output ++ lines), ?_, ?_, ?_⟩
    · unfold emit_nodes
      rw [hn, ok_bind]
      exact h1
    · rw [h2]
      simp only [layer_state, List.append_assoc, List.cons_append]
    · simp only [List.length_cons, List.length_append, h3, split_lines_length,
        List.flatMap_cons, List.filter_append]
      have : n.output.filter (needs_split (write_inputs st.weights st.node_reference n.input).1)
          = n.output.filter (needs_split P) := by
        apply List.filter_congr
        intro o ho
        have := hfr o (by
          simp only [List.flatMap_cons, List.mem_append]
          exact Or.inl ho)
        unfold needs_split
        rw [this]
      rw [this]
      omega

/-- The layer of the `MatMul` behind a collapsed `Transpose` of the weight `W`, when `W`
is an input of no other node: the weight the emitter finds under `W` is the transposition
the rewriter stored, and the `MatMul` branch streams it back in the original order. -/
theorem collapsed_matmul_emitted (fe : FloatEnv) (graph : GraphProto)
    (i : Nat) (st1 sa : State) (t n0 : NodeProto) (rest0 : List NodeProto) (W : String)
    (B : TensorProto) (h w : Nat)
    (hc : classify graph = .ok st1)
    (ht : graph.node[i]? = some t) (hop : t.op_type = "Transpose")
    (hin : t.input.head? = some W)
    (hW : map_find st1.weights W = some B)
    (hdims : B.dims = [(h : Int), (w : Int)]) (hfl : holds_floats B (h * w) = true)
    (hh : 0 < h) (hw : 0 < w) (hsmall : 4 * (h * w) < 2147483648)
    (hother : ∀ j n, graph.node[j]? = some n → j ≠ i → W ∉ n.input)
    (hat : emitter_state_at fe graph i = .ok (sa, n0 :: rest0))
    (hn0 : n0.op_type = "noop_reducedncnn") :
    ∃ m rest name sb,
      graph.node[i + 1]? = some m ∧ m.op_type = "MatMul"
      ∧ rest0 = { m with input := m.input.set 1 W } :: rest
      ∧ emitter_state_at fe graph (i + 1)
          = .ok (sa, { m with input := m.input.set 1 W } :: rest)
      ∧ layer_name m = .ok name
      ∧ emit_node fe sa { m with input := m.input.set 1 W } = .ok sb
      ∧ emitter_state_at fe graph (i + 2) = .ok (sb, rest)
      ∧ sb.pp = sa.pp
          ++ node_line (fmt_ls 16 "InnerProduct") name
               (count_runtime_inputs sa.weights (m.input.set 1 W)) m.output.length
               (write_inputs sa.weights sa.node_reference (m.input.set 1 W)).2 m.output
               (" 0=" ++ fmt_d (h : Int) ++ " 1=0" ++ " 2=" ++ fmt_d ((h * w : Nat) : Int))
          :: split_lines (write_inputs sa.weights sa.node_reference (m.input.set 1 W)).1
               sa.internal_split m.output
      ∧ sb.bv = sa.bv ++ (quantize_tag ++ floats_bytes (float_ptr B)) := by
  obtain ⟨st1a, st2, nodes, h1, h2, h3, h4⟩ := state_at_ok hat
  rw [hc] at h1
  cases h1
  have hF := fuse_nodes_fused h2
  have hi0 : nodes[i]? = some n0 := by
    have : (nodes.drop i)[0]? = some n0 := by rw [← h4]; simp
    simpa using this
  have hn0eq : n0 = { t with op_type := "noop_reducedncnn" } := by
    obtain ⟨n, hn, hrel⟩ := state_at_rel hat
    rw [ht] at hn
    cases hn
    rcases hrel with e | ⟨_, e⟩ | ⟨hm, _⟩
    · rw [e, hop] at hn0
      exact absurd hn0 (by decide)
    · exact e
    · rw [hop] at hm
      exact absurd hm (by decide)
  rw [hn0eq] at hi0
  obtain ⟨B1, m, hperm, hW2, hm, hmop, hmlen, hout⟩ :=
    fused_collapsed_weight hF i t W B ht hop hin hi0 hW hother
  obtain ⟨hsize, -, hlen⟩ := holds_floats_facts hfl hsmall
  rw [permute_weight_ok B h w hdims hsmall hh hw hlen] at hperm
  cases hperm
  have hsaW : map_find sa.weights W
      = some (store_permuted B (h : Int) (w : Int) (transposed h w (float_ptr B))) :=
    emit_nodes_keeps h3 (by rw [emit_prelude_weights]; exact hW2)
  -- the list the emitter still has to run
  have hlt : i + 1 < nodes.length := (List.getElem?_eq_some.mp hout).1
  have hrest0 : rest0 = { m with input := m.input.set 1 W } :: nodes.drop (i + 2) := by
    have hd : nodes.drop i = nodes[i] :: nodes.drop (i + 1) :=
      List.drop_eq_getElem_cons (by omega)
    have hd1 : nodes.drop (i + 1) = nodes[i + 1] :: nodes.drop (i + 2) :=
      List.drop_eq_getElem_cons hlt
    rw [hd, hd1] at h4
    have hget : nodes[i + 1] = { m with input := m.input.set 1 W } :=
      (List.getElem?_eq_some.mp hout).2
    rw [hget] at h4
    injection h4 with _ h5
  have hnoop : emit_node fe sa n0 = .ok sa := by
    unfold emit_node
    rw [if_pos hn0]
    rfl
  have hat1 : emitter_state_at fe graph (i + 1)
      = .ok (sa, { m with input := m.input.set 1 W } :: nodes.drop (i + 2)) := by
    rw [← hrest0]
    exact state_at_succ hat hnoop
  have hopm : ({ m with input := m.input.set 1 W } : NodeProto).op_type = "MatMul" := hmop
  have hnn : ({ m with input := m.input.set 1 W } : NodeProto).op_type ≠ "noop_reducedncnn" := by
    rw [hopm]; decide
  have hd : ({ m with input := m.input.set 1 W } : NodeProto).op_type ≠ "Dropout" := by
    rw [hopm]; decide
  obtain ⟨name, hname⟩ := state_at_name hat1
  have hkind : layer_kind sa { m with input := m.input.set 1 W }
      = .ok (.kind (fmt_ls 16 "InnerProduct")) :=
    layer_kind_plain sa (by rw [hopm]; decide) (by rw [hopm]; decide) (by rw [hopm]; decide)
      (by rw [hopm]; decide) (by rw [hopm]; decide) (by rw [hopm]; rfl)
  have hin1 : ({ m with input := m.input.set 1 W } : NodeProto).input[1]? = some W := by
    have : 1 < m.input.length := by omega
    simp [List.getElem?_set, this]
  have hp := (write_params_matmul fe sa name hopm).trans
    (params_matmul_permuted sa.weights _ W B h w hdims hsmall hh hw hsize hlen hin1 hsaW)
  obtain ⟨sb, hsb, hnext, hpp, hbv⟩ := emit_node_line fe hat1 hnn hd hname hkind hp
  exact ⟨m, nodes.drop (i + 2), name, sb, hm, hmop, hrest0, hat1, hname, hsb, hnext, hpp, hbv⟩

set_option maxRecDepth 100000 in
/-- In `double_fusion_graph` both `Transpose` nodes are collapsed and each transposes `W`
in place; the second undoes the first, and both `InnerProduct` layers carry `0=4` and
stream the (4,3) transposition of `W`. -/
theorem double_fusion_convert (fe : FloatEnv) :
    convert fe double_fusion_graph
      = .ok ("7767517\n4 4\n"
              ++ "Input            x                        0 1 x\n"
              ++ "Input            z                        0 1 z\n"
              ++ "InnerProduct     y                        1 1 x y 0=4 1=0 2=12\n"
              ++ "InnerProduct     y2                       1 1 z y2 0=4 1=0 2=12\n",
             quantize_tag ++ floats_bytes fusion_permuted
               ++ (quantize_tag ++ floats_bytes fusion_permuted)) := by
  rfl

/-! ## C1 - C5: header counts, splits and MemoryData layers -/

set_option maxRecDepth 100000 in
/-- C1 (fails on the code): for the graph with input `x`, initializer `k` and the nodes
`Add(x,k) -> y`, `Add(y,k) -> z` the conversion succeeds, the header declares 5
layers, and 4 layer lines follow it: the `Split` counted for `k` is never written. -/
theorem C1_header_layer_count_exceeds_layer_lines :
    (∀ fe, convert fe shared_weight_graph = .ok (shared_weight_param, [7, 0, 0, 0]))
    ∧ (header_counts shared_weight_param).map (fun c => c.1) = some 5
    ∧ (layer_lines shared_weight_param).length = 4 :=
  ⟨shared_weight_convert, by decide, by decide⟩

set_option maxRecDepth 100000 in
/-- C2 (fails on the code): on the same graph the header declares 6 blobs while the
names written as an output of a layer are the 4 names `x`, `k`, `y`, `z`. -/
theorem C2_header_blob_count_exceeds_output_names :
    (∀ fe, convert fe shared_weight_graph = .ok (shared_weight_param, [7, 0, 0, 0]))
    ∧ (header_counts shared_weight_param).map (fun c => c.2) = some 6
    ∧ output_names shared_weight_param = ["x", "k", "y", "z"] :=
  ⟨shared_weight_convert, by decide, by decide⟩

set_option maxRecDepth 100000 in
/-- C3 (fails on the code): on the same graph the classifier counts 2 runtime uses of
`k`, the two `Add` lines read `k_splitncnn_1` and `k_splitncnn_0`, and the param
buffer holds no `Split` layer whose input is `k`. -/
theorem C3_no_split_for_shared_binaryop_weight :
    (∀ fe, convert fe shared_weight_graph = .ok (shared_weight_param, [7, 0, 0, 0]))
    ∧ (classify shared_weight_graph).map (fun st => map_find st.node_reference "k")
        = .ok (some 2)
    ∧ splits_of shared_weight_param "k" = []
    ∧ (layers shared_weight_param).filterMap
        (fun l => match l with | some x => some (x.kind, x.inputs) | none => none)
        = [("Input", []), ("MemoryData", []), ("BinaryOp", ["x", "k_splitncnn_1"]),
           ("BinaryOp", ["y", "k_splitncnn_0"])] :=
  ⟨shared_weight_convert, shared_weight_fanout, by decide, by decide⟩

set_option maxRecDepth 100000 in
/-- C4 (fails on the code): for input `x`, initializer `k` and the nodes `Sub(x,k) -> y`,
`Add(y,k) -> z`, `Add(z,k) -> w` the classifier counts 2 uses of `k` (it skips the
use by `Sub`, where `k` is still a weight), and the emitter writes three uses of it,
the third one as `k_splitncnn_-1`.  On the graph `Relu(x) -> r`, `Abs(r) -> a`,
`Ceil(r) -> c` the `Split` of `r` follows the `ReLU` line, `Abs` reads `r_splitncnn_1`
and `Ceil` reads `r_splitncnn_0`. -/
theorem C4_third_use_gets_negative_split_index :
    (∀ fe, convert fe late_weight_graph = .ok (late_weight_param, [7, 0, 0, 0]))
    ∧ (classify late_weight_graph).map (fun st => map_find st.node_reference "k")
        = .ok (some 2)
    ∧ (layers late_weight_param).filterMap
        (fun l => match l with
          | some x => if x.kind = "BinaryOp" then some (x.name, x.inputs) else none
          | none => none)
        = [("y", ["x", "k_splitncnn_1"]), ("z", ["y", "k_splitncnn_0"]),
           ("w", ["z", "k_splitncnn_-1"])]
    ∧ (∀ fe, convert fe fanout_graph = .ok (fanout_param, []))
    ∧ (layers fanout_param).map (fun l => l.map (fun x => (x.kind, x.inputs, x.outputs)))
        = [some ("Input", [], ["x"]), some ("ReLU", ["x"], ["r"]),
           some ("Split", ["r"], ["r_splitncnn_0", "r_splitncnn_1"]),
           some ("UnaryOp", ["r_splitncnn_1"], ["a"]),
           some ("UnaryOp", ["r_splitncnn_0"], ["c"])] :=
  ⟨fun _ => rfl, by decide, by decide, fun _ => rfl, by decide⟩

set_option maxRecDepth 100000 in
/-- C5 (fails on the code): for input `x`, the node `Constant -> k` named `c0` and the
node `Add(x,k) -> y`, the classifier places `k` with its 4-byte payload in
`binaryop_weights`, the conversion succeeds, the `MemoryData` line of `k` carries no
shape key, and the blob buffer stays empty.  On the graph with initializer `k` of
shape (4) and the node `Add(x,k) -> y` the line `MemoryData k 0 1 k 0=4` precedes the
`BinaryOp` line `2 1 x k y 0=0` and the blob buffer holds the 16 bytes of `k`. -/
theorem C5_named_constant_payload_not_written :
    (∀ fe, convert fe named_constant_graph = .ok (named_constant_param, []))
    ∧ (classify named_constant_graph).map
        (fun st => (map_find st.binaryop_weights "k").map tensor_proto_bytes)
        = .ok (some [7, 0, 0, 0])
    ∧ layers named_constant_param
        = [some ⟨"Input", "x", [], ["x"], []⟩, some ⟨"MemoryData", "c0", [], ["k"], []⟩,
           some ⟨"BinaryOp", "y", ["x", "k"], ["y"], ["0=0"]⟩]
    ∧ (∀ fe, convert fe add_weight_graph
        = .ok (add_weight_param, [1, 0, 0, 0, 2, 0, 0, 0, 3, 0, 0, 0, 4, 0, 0, 0]))
    ∧ layers add_weight_param
        = [some ⟨"Input", "x", [], ["x"], []⟩, some ⟨"MemoryData", "k", [], ["k"], ["0=4"]⟩,
           some ⟨"BinaryOp", "y", ["x", "k"], ["y"], ["0=0"]⟩] :=
  ⟨fun _ => rfl, by decide, by decide, fun _ => rfl, by decide⟩

/-! ## C6: Constant nodes -/

/-- C6: on a run of `onnx2ncnn` that returns a pair, the emitter reaches every
`Constant` node of the graph; when it writes a line or blob bytes for it, the graph has
an `Add` or `Mul` node with that node's first output among its inputs, and when no
`Add` or `Mul` consumes the first output both buffers stay as they were. -/
theorem C6_constant_layer_only_for_add_or_mul (fe : FloatEnv) (graph : GraphProto)
    (r : String × List Nat) (i : Nat) (node : NodeProto)
    (hok : onnx2ncnn fe (some graph) = .ok r)
    (hi : graph.node[i]? = some node) (hop : node.op_type = "Constant") :
    ∃ sa sb rest,
      emitter_state_at fe graph i = .ok (sa, node :: rest) ∧ emit_node fe sa node = .ok sb
      ∧ ((sb.pp ≠ sa.pp ∨ sb.bv ≠ sa.bv) →
          ∃ o, node.output.head? = some o ∧
            ∃ n ∈ graph.node, (n.op_type = "Add" ∨ n.op_type = "Mul") ∧ o ∈ n.input)
      ∧ ((∀ o, node.output.head? = some o →
            ∀ n ∈ graph.node, (n.op_type = "Add" ∨ n.op_type = "Mul") → o ∉ n.input) →
          sb.pp = sa.pp ∧ sb.bv = sa.bv) := by
  obtain ⟨node1, sa, sb, rest, hrel, hat, hb⟩ := convert_reaches hok hi
  have hsame := node_rel_of_constant hrel hop
  subst hsame
  obtain ⟨o, ho, hskip⟩ := emit_constant hop hb
  have hkeys := state_at_bw hat
  refine ⟨sa, sb, rest, hat, hb, fun hch => ?_, fun hno => ?_⟩
  · refine ⟨o, ho, ?_⟩
    cases hc : map_contains sa.binaryop_weights o with
    | true => exact hkeys o hc
    | false =>
      rw [hskip hc] at hch
      simp at hch
  · cases hc : map_contains sa.binaryop_weights o with
    | true =>
      obtain ⟨m, hm, hop2, hin⟩ := hkeys o hc
      exact absurd hin (hno o ho m hm hop2)
    | false => rw [hskip hc]; exact ⟨rfl, rfl⟩

set_option maxRecDepth 100000 in
/-- C6 at the graph `Constant (c0) -> k`, `Add(x,k) -> y`: the conversion returns a
pair, the `Constant` is at index 0, and the statement holds there. -/
theorem C6_constant_layer_witness :
    onnx2ncnn example_floats (some named_constant_graph) = .ok (named_constant_param, [])
    ∧ named_constant_graph.node[0]? = named_constant_graph.node.head?
    ∧ ∃ sa sb rest,
      emitter_state_at example_floats named_constant_graph 0
        = .ok (sa, named_constant_graph.node.headD { op_type := "" } :: rest)
      ∧ emit_node example_floats sa (named_constant_graph.node.headD { op_type := "" }) = .ok sb
      ∧ ((sb.pp ≠ sa.pp ∨ sb.bv ≠ sa.bv) →
          ∃ o, ["k"].head? = some o ∧
            ∃ n ∈ named_constant_graph.node, (n.op_type = "Add" ∨ n.op_type = "Mul") ∧ o ∈ n.input)
      ∧ ((∀ o, ["k"].head? = some o →
            ∀ n ∈ named_constant_graph.node, (n.op_type = "Add" ∨ n.op_type = "Mul") → o ∉ n.input) →
          sb.pp = sa.pp ∧ sb.bv = sa.bv) :=
  ⟨by decide, by decide,
   C6_constant_layer_only_for_add_or_mul example_floats named_constant_graph
     (named_constant_param, []) 0 (named_constant_graph.node.headD { op_type := "" })
     (by decide) (by decide) (by decide)⟩

/-! ## C7 - C8: the Transpose - MatMul fusion -/

/-- C7 (as amended): a `Transpose` whose input is a 2-D weight, whose first output has
fan-out 1 and is the first output of no earlier node, whose `perm` is [1,0] and whose
next node is a `MatMul` is turned into the marker `noop_reducedncnn` by the rewriter,
and the emitter leaves its state, both buffers included, unchanged on that node. -/
theorem C7_collapsed_transpose_yields_no_layer (graph : GraphProto) (st1 st2 : State)
    (nodes pre post : List NodeProto) (t m : NodeProto) (W Wt : String) (B : TensorProto)
    (hc : classify graph = .ok st1) (hf : fuse_nodes st1 graph.node = .ok (st2, nodes))
    (hg : graph.node = pre ++ t :: m :: post)
    (ht : t.op_type = "Transpose") (hm : m.op_type = "MatMul")
    (hin : t.input.head? = some W) (hout : t.output.head? = some Wt)
    (hperm : get_node_attr_ai t "perm" = [1, 0])
    (hW : map_find st1.weights W = some B) (hB : B.dims.length = 2)
    (hfan : map_find st1.node_reference Wt = some 1)
    (hpre : ∀ n ∈ pre, n.output.head? ≠ some Wt) :
    nodes[pre.length]? = some { t with op_type := "noop_reducedncnn" }
    ∧ ∀ fe st, emit_node fe st { t with op_type := "noop_reducedncnn" } = .ok st := by
  have _ := hc
  rw [hg] at hf
  refine ⟨fused_collapses (fuse_nodes_fused hf) pre post t m W Wt rfl ht hm hin hout hperm
    ⟨B, hW, hB⟩ hfan hpre, fun fe st => ?_⟩
  unfold emit_node
  rfl

set_option maxRecDepth 100000 in
/-- C7 at the graph `Transpose(W, perm=[1,0]) -> Wt`, `MatMul(x, Wt) -> y` with `W` of
shape (3,4): the `Transpose` becomes the marker and the param buffer has the two lines
`Input` and `InnerProduct`. -/
theorem C7_collapsed_transpose_witness :
    classify fusion_graph = .ok fusion_classified
    ∧ fuse_nodes fusion_classified fusion_graph.node
        = .ok (fusion_fused,
            [{ transpose_node with op_type := "noop_reducedncnn" },
             { op_type := "MatMul", input := ["x", "W"], output := ["y"] }])
    ∧ ([{ transpose_node with op_type := "noop_reducedncnn" },
        ({ op_type := "MatMul", input := ["x", "W"], output := ["y"] } : NodeProto)][0]?
          = some { transpose_node with op_type := "noop_reducedncnn" }
      ∧ ∀ fe st, emit_node fe st { transpose_node with op_type := "noop_reducedncnn" } = .ok st)
    ∧ (layers fusion_param).map (fun l => l.map (fun x => x.kind))
        = [some "Input", some "InnerProduct"] :=
  ⟨by decide, by decide,
   C7_collapsed_transpose_yields_no_layer fusion_graph fusion_classified fusion_fused _ [] []
     transpose_node { op_type := "MatMul", input := ["x", "Wt"], output := ["y"] } "W" "Wt"
     fusion_weight (by decide) (by decide) (by decide) (by decide) (by decide) (by decide)
     (by decide) (by decide) (by decide) (by decide) (by decide) (by simp),
   by decide⟩

set_option maxRecDepth 100000 in
/-- C7 (fails on the code as stated): in the graph `Transpose(W, perm=[1,0]) -> Wt`,
`MatMul(x, K) -> y` the `Transpose` has a weight as input, `perm` [1,0] and a `MatMul`
right after it; `Wt` has no consumer, the rewriter leaves the node alone, the
conversion succeeds and the node is written as the `Permute` layer `Wt`.  In
`duplicate_output_graph` the second `Transpose` has a 2-D weight as input, the
classifier counts one use of its output `Wt`, a `MatMul` follows it, and it is written
as a `Permute` layer too, the first `Transpose` having taken `Wt` out of the counts. -/
theorem C7_transpose_without_consumer_is_emitted :
    (∀ fe, convert fe unused_transpose_graph
        = .ok (unused_transpose_param, [0, 0, 0, 0, 3, 0, 0, 0, 4, 0, 0, 0]))
    ∧ (classify unused_transpose_graph).map
        (fun st => ((map_find st.weights "W").map (fun B => B.dims),
                    map_find st.node_reference "Wt")) = .ok (some [1, 2], none)
    ∧ unused_transpose_graph.node.map (fun n => (n.op_type, get_node_attr_ai n "perm"))
        = [("Transpose", [1, 0]), ("MatMul", [])]
    ∧ (layers unused_transpose_param).map (fun l => l.map (fun x => (x.kind, x.name)))
        = [some ("Input", "x"), some ("Permute", "Wt"), some ("InnerProduct", "y")]
    ∧ (∀ fe, (convert fe duplicate_output_graph).map (fun r => r.1)
        = .ok duplicate_output_param)
    ∧ (classify duplicate_output_graph).map
        (fun st => ((map_find st.weights "W2").map (fun B => B.dims),
                    map_find st.node_reference "Wt")) = .ok (some [1, 2], some 1)
    ∧ (layers duplicate_output_param).map (fun l => l.map (fun x => (x.kind, x.name)))
        = [some ("Input", "x"), some ("Input", "z"), some ("InnerProduct", "y"),
           some ("Permute", "Wt"), some ("InnerProduct", "y2")] :=
  ⟨fun _ => rfl, by decide, by decide, by decide, fun _ => rfl, by decide, by decide⟩

/-- C8 (as amended): let a `Transpose` with `perm = [1,0]` of the weight `W`, of dims
`(h, w)` and holding `h * w` floats (`h, w > 0`, payload below 2 GiB), whose first output
`Wt` has fan-out 1 and is the first output of no earlier node, be followed at once by the
`MatMul` that reads `Wt` as its second input, let `W` be an input of no other node, and let
the emitter reach the `Transpose`. Then the rewriter collapses the pair and stores `W`
transposed to dims `(w, h)`, and the emitter writes for the `MatMul` an `InnerProduct`
line with `0=h 1=0 2=h*w` and streams, after the 4-byte tag, the floats of `W` in their
original order. -/
theorem C8_fused_matmul_payload_is_original_weight (fe : FloatEnv) (graph : GraphProto)
    (st1 st2 sa : State) (nodes pre post rest0 : List NodeProto) (t m n0 : NodeProto)
    (W Wt : String) (B : TensorProto) (h w : Nat)
    (hc : classify graph = .ok st1) (hf : fuse_nodes st1 graph.node = .ok (st2, nodes))
    (hg : graph.node = pre ++ t :: m :: post)
    (ht : t.op_type = "Transpose") (hm : m.op_type = "MatMul")
    (hin : t.input.head? = some W) (hout : t.output.head? = some Wt)
    (hperm : get_node_attr_ai t "perm" = [1, 0])
    (hW : map_find st1.weights W = some B)
    (hdims : B.dims = [(h : Int), (w : Int)]) (hfl : holds_floats B (h * w) = true)
    (hh : 0 < h) (hw : 0 < w) (hsmall : 4 * (h * w) < 2147483648)
    (hfan : map_find st1.node_reference Wt = some 1)
    (hpre : ∀ n ∈ pre, n.output.head? ≠ some Wt)
    (hcons : m.input[1]? = some Wt)
    (hother : ∀ j n, graph.node[j]? = some n → j ≠ pre.length → W ∉ n.input)
    (hat : emitter_state_at fe graph pre.length = .ok (sa, n0 :: rest0)) :
    nodes[pre.length]? = some { t with op_type := "noop_reducedncnn" }
    ∧ (map_find st2.weights W).map (fun B1 => (B1.dims, float_ptr B1))
        = some ([(w : Int), (h : Int)], transposed h w (float_ptr B))
    ∧ ∃ rest name sb,
        emitter_state_at fe graph (pre.length + 1)
          = .ok (sa, { m with input := m.input.set 1 W } :: rest)
        ∧ layer_name m = .ok name
        ∧ emit_node fe sa { m with input := m.input.set 1 W } = .ok sb
        ∧ emitter_state_at fe graph (pre.length + 2) = .ok (sb, rest)
        ∧ sb.pp = sa.pp
            ++ node_line (fmt_ls 16 "InnerProduct") name
                 (count_runtime_inputs sa.weights (m.input.set 1 W)) m.output.length
                 (write_inputs sa.weights sa.node_reference (m.input.set 1 W)).2 m.output
                 (" 0=" ++ fmt_d (h : Int) ++ " 1=0" ++ " 2=" ++ fmt_d ((h * w : Nat) : Int))
            :: split_lines (write_inputs sa.weights sa.node_reference (m.input.set 1 W)).1
                 sa.internal_split m.output
        ∧ sb.bv = sa.bv ++ (quantize_tag ++ floats_bytes (float_ptr B)) := by
  have _ := hcons
  have hB : B.dims.length = 2 := by rw [hdims]; rfl
  have hF := fuse_nodes_fused hf
  have hti : graph.node[pre.length]? = some t := by
    rw [hg, List.getElem?_append_right (Nat.le_refl _), Nat.sub_self]
    simp
  have hmi : graph.node[pre.length + 1]? = some m := by
    rw [hg, List.getElem?_append_right (by omega), Nat.add_sub_cancel_left]
    simp
  -- the rewriter collapses the pair
  have hcol : nodes[pre.length]? = some { t with op_type := "noop_reducedncnn" } := by
    have hF1 := hF
    rw [hg] at hF1
    exact fused_collapses hF1 pre post t m W Wt rfl ht hm hin hout hperm ⟨B, hW, hB⟩ hfan hpre
  obtain ⟨B1, m2, hp, hW2, hm2, -, -, -⟩ :=
    fused_collapsed_weight hF pre.length t W B hti ht hin hcol hW hother
  obtain ⟨-, -, hlen⟩ := holds_floats_facts hfl hsmall
  rw [permute_weight_ok B h w hdims hsmall hh hw hlen] at hp
  cases hp
  -- the marker is what the emitter finds at the index of the `Transpose`
  have hn0 : n0.op_type = "noop_reducedncnn" := by
    obtain ⟨st1a, st2a, nodesa, h1, h2, -, h4⟩ := state_at_ok hat
    rw [hc] at h1
    cases h1
    rw [hf] at h2
    cases h2
    have : (nodes.drop pre.length)[0]? = some n0 := by rw [← h4]; simp
    have hi0 : nodes[pre.length]? = some n0 := by simpa using this
    rw [hcol] at hi0
    cases hi0
    rfl
  obtain ⟨m3, rest, name, sb, hm3, -, -, hat1, hname, hsb, hnext, hpp, hbv⟩ :=
    collapsed_matmul_emitted fe graph pre.length st1 sa t n0 rest0 W B h w hc hti ht hin hW
      hdims hfl hh hw hsmall hother hat hn0
  rw [hmi] at hm3
  cases hm3
  refine ⟨hcol, ?_, rest, name, sb, hat1, hname, hsb, hnext, hpp, hbv⟩
  rw [hW2]
  simp only [Option.map_some', Option.some.injEq, Prod.mk.injEq]
  exact ⟨store_permuted_transposed_dims B h w _ hdims, store_permuted_ptr B h w hlen⟩

set_option maxRecDepth 100000 in
/-- C8 at `fusion_graph`, `Transpose(W, perm=[1,0]) -> Wt`, `MatMul(x, Wt) -> y` with `W`
of shape (3,4) holding 0..11: the rewriter stores the (4,3) transposition, and the blob
buffer after the `InnerProduct` layer is the tag followed by 0..11 again. -/
theorem C8_fused_matmul_payload_witness :
    classify fusion_graph = .ok fusion_classified
    ∧ holds_floats fusion_weight (3 * 4) = true
    ∧ (∃ nodes sa n0 rest0,
        fuse_nodes fusion_classified fusion_graph.node = .ok (fusion_fused, nodes)
        ∧ emitter_state_at example_floats fusion_graph 0 = .ok (sa, n0 :: rest0)
        ∧ nodes[0]? = some { transpose_node with op_type := "noop_reducedncnn" }
        ∧ (map_find fusion_fused.weights "W").map (fun B1 => (B1.dims, float_ptr B1))
            = some ([((4 : Nat) : Int), ((3 : Nat) : Int)],
                    transposed 3 4 (float_ptr fusion_weight))
        ∧ ∃ sb, emit_node example_floats sa
                  { op_type := "MatMul", input := ["x", "W"], output := ["y"] } = .ok sb
            ∧ sb.bv = sa.bv
                ++ (quantize_tag ++ floats_bytes ((List.range 12).map f32_of_byte)))
    ∧ transposed 3 4 (float_ptr fusion_weight) = fusion_permuted := by
  have hat : ∃ sa n0 rest0,
      emitter_state_at example_floats fusion_graph 0 = .ok (sa, n0 :: rest0) :=
    ⟨_, _, _, rfl⟩
  obtain ⟨sa, n0, rest0, hat⟩ := hat
  have hother : ∀ j n, fusion_graph.node[j]? = some n → j ≠ 0 → "W" ∉ n.input := by
    intro j n hj hne
    match j, hj, hne with
    | 0, _, hne => exact absurd rfl hne
    | 1, hj, _ =>
      have e : n = { op_type := "MatMul", input := ["x", "Wt"], output := ["y"] } :=
        (Option.some.inj hj).symm
      rw [e]
      decide
    | k + 2, hj, _ => simp [fusion_graph] at hj
  have hf : fuse_nodes fusion_classified fusion_graph.node
      = .ok (fusion_fused,
          [{ transpose_node with op_type := "noop_reducedncnn" },
           { op_type := "MatMul", input := ["x", "W"], output := ["y"] }]) := by decide
  have h := C8_fused_matmul_payload_is_original_weight example_floats fusion_graph
    fusion_classified fusion_fused sa _ [] [] rest0 transpose_node
    { op_type := "MatMul", input := ["x", "Wt"], output := ["y"] } n0 "W" "Wt" fusion_weight
    3 4 (by decide) hf rfl rfl rfl rfl rfl rfl rfl rfl (by decide) (by decide) (by decide)
    (by decide) (by decide) (by simp) rfl hother hat
  obtain ⟨hcol, hst, rest, name, sb, -, -, hsb, -, -, hbv⟩ := h
  exact ⟨by decide, by decide, ⟨_, sa, n0, rest0, hf, hat, hcol, hst, sb, hsb, hbv⟩, by decide⟩

set_option maxRecDepth 100000 in
/-- C8 (fails on the code as stated): for `W` of shape (3,4) holding 0..11 the bytes
after the 4-byte tag of the `InnerProduct` layer are those of 0, 1, 2, ..., 11, the
floats of `W` in their original order, and not those of the transposition
0, 4, 8, 1, 5, 9, ... of shape (4,3). -/
theorem C8_fused_matmul_payload_is_not_transposed :
    (∀ fe, convert fe fusion_graph
        = .ok (fusion_param, quantize_tag ++ floats_bytes fusion_weight.float_data))
    ∧ transposed 3 4 fusion_weight.float_data = fusion_permuted
    ∧ floats_bytes fusion_weight.float_data ≠ floats_bytes (transposed 3 4 fusion_weight.float_data)
    ∧ (layers fusion_param).map (fun l => l.map (fun x => (x.kind, x.params)))
        = [some ("Input", []), some ("InnerProduct", ["0=3", "1=0", "2=12"])] :=
  ⟨fun _ => rfl, by decide, by decide, by decide⟩

/-! ## C9 - C10: unsupported operators -/

/-- C9 (as amended): a graph with a node whose operator is neither in the table of
supported operators nor the marker `noop_reducedncnn` never yields a `(param, blob)`
pair: the run ends in a failure or at an out-of-range access. -/
theorem C9_unsupported_operator_yields_no_pair (fe : FloatEnv) (graph : GraphProto)
    (node : NodeProto) (hn : node ∈ graph.node) (hop : node.op_type ∉ supported_ops)
    (hs : node.op_type ≠ "noop_reducedncnn") (r : String × List Nat) :
    onnx2ncnn fe (some graph) ≠ .ok r := by
  intro h
  obtain ⟨st1, st2, nodes, st, _, h2, h3⟩ := convert_ok h
  obtain ⟨node1, hmem, hrel⟩ := forall₂_mem (fused_rel (fuse_nodes_fused h2)) hn
  rw [node_rel_unsupported hrel hop] at hmem
  obtain ⟨s, s1, hs1⟩ := emit_nodes_mem h3 hmem
  exact emit_node_unsupported_not_ok fe s s1 hop hs hs1

set_option maxRecDepth 100000 in
/-- C9 at the graph with the single node `Einsum(x) -> y`: no pair is returned. -/
theorem C9_unsupported_operator_witness :
    ({ op_type := "Einsum", input := ["x"], output := ["y"] } : NodeProto) ∈ einsum_graph.node
    ∧ "Einsum" ∉ supported_ops ∧ "Einsum" ≠ "noop_reducedncnn"
    ∧ onnx2ncnn example_floats (some einsum_graph)
        ≠ .ok ("7767517\n2 2\nInput            x                        0 1 x\n", []) :=
  ⟨by decide, by decide, by decide,
   C9_unsupported_operator_yields_no_pair example_floats einsum_graph
     { op_type := "Einsum", input := ["x"], output := ["y"] } (by decide) (by decide) (by decide) _⟩

set_option maxRecDepth 100000 in
/-- C9 (fails on the code as stated): the operator `noop_reducedncnn` is not in the
table of supported operators, and the graph whose only node has it is converted to a
pair, the node being skipped. -/
theorem C9_marker_operator_is_skipped :
    "noop_reducedncnn" ∉ supported_ops
    ∧ ∀ fe, onnx2ncnn fe (some marker_graph)
        = .ok ("7767517\n2 2\nInput            x                        0 1 x\n", []) :=
  ⟨by decide, fun _ => rfl⟩

/-- C10 (as amended): when the classifier and the rewriter complete, every node before
index `i` is translated without error, and the node the emitter finds at index `i` has
an operator `op` that is neither in the table of supported operators nor the marker
`noop_reducedncnn`, then `onnx2ncnn` fails with exactly the message
`op not supported yet!`. -/
theorem C10_first_unsupported_operator_message (fe : FloatEnv) (graph : GraphProto) (i : Nat)
    (sa : State) (node : NodeProto) (rest : List NodeProto)
    (hat : emitter_state_at fe graph i = .ok (sa, node :: rest))
    (hop : node.op_type ∉ supported_ops) (hs : node.op_type ≠ "noop_reducedncnn") :
    graph.node[i]? = some node
    ∧ onnx2ncnn fe (some graph) = .error (.unexpected (node.op_type ++ " not supported yet!")) := by
  obtain ⟨n, hn, hrel⟩ := state_at_rel hat
  have hnode := node_rel_unsupported_right hrel hop hs
  subst hnode
  obtain ⟨st1, _, _, h1, _, _, _⟩ := state_at_ok hat
  obtain ⟨name, hname⟩ := classify_names h1 (List.getElem?_mem hn)
  refine ⟨hn, ?_⟩
  show convert fe graph = _
  unfold convert
  rw [run_from_state_at fe graph i, hat, ok_bind]
  show (emit_nodes fe sa (node :: rest) >>= _) = _
  unfold emit_nodes
  rw [emit_node_unsupported fe sa hop hs hname]
  rfl

set_option maxRecDepth 100000 in
/-- C10 at the graph with input `x` and the single node `Einsum(x) -> y`: the
conversion fails with the message `Einsum not supported yet!`. -/
theorem C10_einsum_message_witness :
    emitter_state_at example_floats einsum_graph 0 = .ok (einsum_state, einsum_graph.node)
    ∧ "Einsum" ∉ supported_ops ∧ "Einsum" ≠ "noop_reducedncnn"
    ∧ onnx2ncnn example_floats (some einsum_graph)
        = .error (.unexpected "Einsum not supported yet!") :=
  ⟨by decide, by decide, by decide,
   (C10_first_unsupported_operator_message example_floats einsum_graph 0 einsum_state
     { op_type := "Einsum", input := ["x"], output := ["y"] } [] (by decide) (by decide)
     (by decide)).2⟩

set_option maxRecDepth 100000 in
/-- C10 (fails on the code as stated): the only node of `nameless_einsum_graph` has the
unsupported operator `Einsum`, an empty name and no output, and the run ends at the
read of `node.output(0)` instead of returning the message; the only node of
`marker_graph` has the operator `noop_reducedncnn`, outside the vocabulary, and the
conversion returns a pair. -/
theorem C10_unsupported_operator_without_message :
    "Einsum" ∉ supported_ops
    ∧ (∀ fe, onnx2ncnn fe (some nameless_einsum_graph) = .error (.bad_access "output"))
    ∧ "noop_reducedncnn" ∉ supported_ops
    ∧ (∀ fe, ∃ r, onnx2ncnn fe (some marker_graph) = .ok r) :=
  ⟨by decide, fun _ => rfl, by decide, fun _ => ⟨_, rfl⟩⟩

/-! ## C11 - C15: Slice, Flatten, Upsample/Resize, Transpose, Concat and Softmax -/

set_option maxRecDepth 100000 in
/-- C11 (fails on the code): the node `Slice(x) -> y` with `steps = [1,2]` has a step
different from 1 and is the first node of its graph, and `onnx2ncnn` returns a pair
with a `Crop` line instead of a failure: the failure value of lines 1446-1452 is built
and dropped without a `return`. -/
theorem C11_slice_step_is_not_rejected :
    get_node_attr_ai slice_step_node "steps" = [1, 2]
    ∧ (single_node_graph slice_step_node).node[0]? = some slice_step_node
    ∧ ∀ fe, onnx2ncnn fe (some (single_node_graph slice_step_node))
        = .ok ("7767517\n2 2\nInput            x                        0 1 x\n"
                ++ "Crop             y                        1 1 x y 0=0 1=0 2=0 3=8 4=-233 5=-233\n",
               []) :=
  ⟨by decide, rfl, fun _ => rfl⟩

/-- C12: for a `Flatten` node the emitter reaches, with `axis` the value
`get_node_attr_i` reads (1 when the attribute is absent), the translation of the node
fails if and only if `axis ≠ 1`; the failure is the result of `onnx2ncnn` and carries
the message `Unsupported Flatten axis <axis>!`; with `axis = 1` the node is translated,
the line written is the kind `Flatten` in a field of 16, the layer name, the counts and
the blob names with no parameter after them, the blob buffer is unchanged, and the
emitter moves on to the next node. -/
theorem C12_flatten_fails_iff_axis_is_not_one (fe : FloatEnv) (graph : GraphProto) (i : Nat)
    (sa : State) (node : NodeProto) (rest : List NodeProto)
    (hat : emitter_state_at fe graph i = .ok (sa, node :: rest))
    (hop : node.op_type = "Flatten") :
    graph.node[i]? = some node
    ∧ ((∃ e, emit_node fe sa node = .error e) ↔ get_node_attr_i node "axis" 1 ≠ 1)
    ∧ (get_node_attr_i node "axis" 1 ≠ 1 →
        onnx2ncnn fe (some graph) = .error (.unexpected
          ("Unsupported Flatten axis " ++ fmt_d (get_node_attr_i node "axis" 1) ++ "!")))
    ∧ (get_node_attr_i node "axis" 1 = 1 →
        ∃ name sb, layer_name node = .ok name
          ∧ emit_node fe sa node = .ok sb
          ∧ emitter_state_at fe graph (i + 1) = .ok (sb, rest)
          ∧ sb.pp = sa.pp
              ++ node_line (fmt_ls 16 "Flatten") name
                   (count_runtime_inputs sa.weights node.input) node.output.length
                   (write_inputs sa.weights sa.node_reference node.input).2 node.output ""
              :: split_lines (write_inputs sa.weights sa.node_reference node.input).1
                   sa.internal_split node.output
          ∧ sb.bv = sa.bv) := by
  have hnoop : node.op_type ≠ "noop_reducedncnn" := by rw [hop]; decide
  have hd : node.op_type ≠ "Dropout" := by rw [hop]; decide
  have hsame := state_at_same hat hnoop (by rw [hop]; decide)
  obtain ⟨name, hname⟩ := state_at_name hat
  have hkind : layer_kind sa node = .ok (.kind (fmt_ls 16 "Flatten")) :=
    layer_kind_plain sa (by rw [hop]; decide) (by rw [hop]; decide) (by rw [hop]; decide)
      (by rw [hop]; decide) (by rw [hop]; decide) (by rw [hop]; rfl)
  have hp := write_params_flatten fe sa name hop
  by_cases hax : get_node_attr_i node "axis" 1 = 1
  · rw [if_neg (not_not.mpr hax)] at hp
    have hb := emit_node_params fe hnoop hd hname hkind hp
    refine ⟨hsame, ⟨fun ⟨e, he⟩ => ?_, fun h => absurd hax h⟩, fun h => absurd hax h,
      fun _ => ⟨name, _, hname, hb, state_at_succ hat hb, ?_, ?_⟩⟩
    · rw [hb] at he; cases he
    · show sa.pp ++ _ = _
      rw [output_size_eq hd]
      rfl
    · show sa.bv ++ [] = sa.bv
      exact List.append_nil _
  · rw [if_pos hax] at hp
    have hb := emit_node_params_error fe hnoop hd hname hkind hp
    exact ⟨hsame, ⟨fun _ => hax, fun _ => ⟨_, hb⟩⟩, fun _ => state_at_error hat hb,
      fun h => absurd h hax⟩

set_option maxRecDepth 100000 in
/-- C12 at the graph with input `x` and the single node `Flatten(x) -> y` without an
`axis` attribute: the node is translated and the param buffer ends with the line
`Flatten          y                        1 1 x y`. -/
theorem C12_flatten_default_axis_witness :
    emitter_state_at example_floats (single_node_graph flatten_node) 0
      = .ok (single_node_state, [flatten_node])
    ∧ flatten_node.op_type = "Flatten"
    ∧ get_node_attr_i flatten_node "axis" 1 = 1
    ∧ ∃ sb, emit_node example_floats single_node_state flatten_node = .ok sb
        ∧ sb.pp = single_node_state.pp
            ++ ["Flatten          y                        1 1 x y\n"]
        ∧ sb.bv = [] := by
  have h := C12_flatten_fails_iff_axis_is_not_one example_floats (single_node_graph flatten_node)
    0 single_node_state flatten_node [] (by decide) rfl
  obtain ⟨name, sb, hname, hb, -, hpp, hbv⟩ := h.2.2.2 (by decide)
  cases hname
  exact ⟨by decide, rfl, by decide, sb, hb, by rw [hpp]; decide, hbv⟩

/-- C13 (as amended): for an `Upsample` or `Resize` node the emitter reaches, whose
scale list `scales` is read without an out-of-range access, the translation fails if
and only if the mode is `trilinear`, or `scales` has 4 entries and its second
component `scales[1]` is not 1, or `scales` has a number of entries other than 2, 3
and 4; a failure is the result of `onnx2ncnn`; otherwise the node is translated to an
`Interp` line whose key 0 is 2 for `bilinear` and `linear` and 1 for `nearest` (and
any other mode), and nothing is added to the blob buffer. -/
theorem C13_resize_fails_iff_unsupported (fe : FloatEnv) (graph : GraphProto) (i : Nat)
    (sa : State) (node : NodeProto) (rest : List NodeProto) (w1 : StrMap TensorProto)
    (scales : List F32)
    (hat : emitter_state_at fe graph i = .ok (sa, node :: rest))
    (hop : node.op_type = "Upsample" ∨ node.op_type = "Resize")
    (hrs : resize_scales sa.weights node = .ok (w1, scales)) :
    graph.node[i]? = some node
    ∧ ((∃ e, emit_node fe sa node = .error e)
        ↔ (get_node_attr_s node "mode" "" = "trilinear"
            ∨ (scales.length = 4 ∧ scales[1]? ≠ some f32_one)
            ∨ (scales.length ≠ 2 ∧ scales.length ≠ 3 ∧ scales.length ≠ 4)))
    ∧ (∀ e, emit_node fe sa node = .error e →
        (e = .unexpected "Unsupported Upsample/Resize mode !"
          ∨ e = .unexpected "Unsupported Upsample/Resize scales !")
        ∧ onnx2ncnn fe (some graph) = .error e)
    ∧ (∀ sb, emit_node fe sa node = .ok sb →
        ∃ name h_scale w_scale, layer_name node = .ok name
          ∧ emitter_state_at fe graph (i + 1) = .ok (sb, rest)
          ∧ sb.pp = sa.pp
              ++ node_line (fmt_ls 16 "Interp") name
                   (count_runtime_inputs sa.weights node.input) node.output.length
                   (write_inputs sa.weights sa.node_reference node.input).2 node.output
                   (" 0=" ++ fmt_d (if get_node_attr_s node "mode" "" = "bilinear"
                                       ∨ get_node_attr_s node "mode" "" = "linear" then 2 else 1)
                     ++ " 1=" ++ fe.fmt_f h_scale ++ " 2=" ++ fe.fmt_f w_scale)
              :: split_lines (write_inputs sa.weights sa.node_reference node.input).1
                   sa.internal_split node.output
          ∧ sb.bv = sa.bv) := by
  have hnoop : node.op_type ≠ "noop_reducedncnn" := by
    rcases hop with hop | hop <;> rw [hop] <;> decide
  have hd : node.op_type ≠ "Dropout" := by
    rcases hop with hop | hop <;> rw [hop] <;> decide
  have hmm : node.op_type ≠ "MatMul" := by
    rcases hop with hop | hop <;> rw [hop] <;> decide
  have hsame := state_at_same hat hnoop hmm
  obtain ⟨name, hname⟩ := state_at_name hat
  have hkind := layer_kind_resize sa hop
  have hp : write_params fe sa node name = _ :=
    (write_params_resize fe sa name hop).trans (params_resize_eq fe hrs)
  rw [resize_type_eq] at hp
  by_cases hm : get_node_attr_s node "mode" "" = "trilinear"
  · rw [if_pos hm] at hp
    have hb := emit_node_params_error fe hnoop hd hname hkind hp
    refine ⟨hsame, ⟨fun _ => Or.inl hm, fun _ => ⟨_, hb⟩⟩, fun e he => ?_, fun sb hsb => ?_⟩
    · rw [hb] at he
      cases he
      exact ⟨Or.inl rfl, state_at_error hat hb⟩
    · rw [hb] at hsb
      cases hsb
  · rw [if_neg hm, ok_bind] at hp
    cases hhw : resize_hw scales with
    | error e0 =>
      rw [hhw] at hp
      have hb := emit_node_params_error fe hnoop hd hname hkind hp
      refine ⟨hsame, ⟨fun _ => Or.inr ((resize_hw_error_iff scales).mp ⟨_, hhw⟩),
        fun _ => ⟨_, hb⟩⟩, fun e he => ?_, fun sb hsb => ?_⟩
      · rw [hb] at he
        cases he
        exact ⟨Or.inr (resize_hw_error hhw), state_at_error hat hb⟩
      · rw [hb] at hsb
        cases hsb
    | ok hw =>
      rw [hhw, ok_bind] at hp
      obtain ⟨sb, hb, hnext, hpp, hbv⟩ := emit_node_line fe hat hnoop hd hname hkind hp
      refine ⟨hsame, ⟨fun ⟨e, he⟩ => ?_, fun h => ?_⟩, fun e he => ?_, fun sb1 hsb => ?_⟩
      · rw [hb] at he
        cases he
      · rcases h with h | h
        · exact absurd h hm
        · obtain ⟨e, he⟩ := (resize_hw_error_iff scales).mpr h
          rw [hhw] at he
          cases he
      · rw [hb] at he
        cases he
      · rw [hb] at hsb
        cases hsb
        exact ⟨name, hw.1, hw.2, hname, hnext, hpp, by rw [hbv]; exact List.append_nil _⟩

set_option maxRecDepth 100000 in
/-- C13 at the node `Upsample(x) -> y` with mode `bilinear` and scales (1, 1, 2, 2): the
node is translated with `0=2`. -/
theorem C13_bilinear_upsample_witness :
    emitter_state_at example_floats
        (single_node_graph (upsample_node "bilinear" [f32_one, f32_one, f32_two, f32_two])) 0
      = .ok (single_node_state, [upsample_node "bilinear" [f32_one, f32_one, f32_two, f32_two]])
    ∧ resize_scales single_node_state.weights
          (upsample_node "bilinear" [f32_one, f32_one, f32_two, f32_two])
        = .ok ([], [f32_one, f32_one, f32_two, f32_two])
    ∧ ¬ (∃ e, emit_node example_floats single_node_state
              (upsample_node "bilinear" [f32_one, f32_one, f32_two, f32_two]) = .error e)
    ∧ onnx2ncnn example_floats
          (some (single_node_graph (upsample_node "bilinear" [f32_one, f32_one, f32_two, f32_two])))
        = .ok ("7767517\n2 2\nInput            x                        0 1 x\n"
                ++ "Interp           y                        1 1 x y 0=2 1=0.000000 2=0.000000\n",
               []) :=
  ⟨by decide, by decide,
   fun h => absurd
     ((C13_resize_fails_iff_unsupported example_floats
        (single_node_graph (upsample_node "bilinear" [f32_one, f32_one, f32_two, f32_two])) 0
        single_node_state (upsample_node "bilinear" [f32_one, f32_one, f32_two, f32_two]) []
        [] [f32_one, f32_one, f32_two, f32_two] (by decide) (Or.inl rfl) (by decide)).2.1.mp h)
     (by decide),
   by decide⟩

set_option maxRecDepth 100000 in
/-- C13 (fails on the code as stated): with mode `nearest`, the 4 scales (2, 1, 2, 2),
whose first component is not 1, are translated to an `Interp` line, and the 4 scales
(1, 2, 1, 1), whose first component is 1, are rejected: the test of line 1606 reads
`scales[1]`. -/
theorem C13_first_scale_is_not_tested :
    (∀ fe, ∃ r, onnx2ncnn fe
        (some (single_node_graph (upsample_node "nearest" [f32_two, f32_one, f32_two, f32_two])))
          = .ok r)
    ∧ (∀ fe, onnx2ncnn fe
        (some (single_node_graph (upsample_node "nearest" [f32_one, f32_two, f32_one, f32_one])))
          = .error (.unexpected "Unsupported Upsample/Resize scales !")) :=
  ⟨fun _ => ⟨_, rfl⟩, fun _ => rfl⟩

/-- C14: for a `Transpose` node the emitter reaches whose `perm`, as `get_node_attr_ai`
reads it, has the 5 entries `p0 .. p4`, the translation fails if and only if
`(p1, p2, p3, p4)` is not one of (1,2,3,4), (1,3,4,2), (2,1,3,4), (2,3,4,1), (3,4,1,2),
(3,4,2,1); the failure is the result of `onnx2ncnn` with the message
`Unsupported transpose type !`; for the pattern at index `k` of that list the node is
translated to a `Permute` line whose only parameter is `0=k`. -/
theorem C14_rank5_transpose_fails_iff_not_enumerated (fe : FloatEnv) (graph : GraphProto)
    (i : Nat) (sa : State) (node : NodeProto) (rest : List NodeProto) (p0 p1 p2 p3 p4 : Int)
    (hat : emitter_state_at fe graph i = .ok (sa, node :: rest))
    (hop : node.op_type = "Transpose")
    (hperm : get_node_attr_ai node "perm" = [p0, p1, p2, p3, p4]) :
    graph.node[i]? = some node
    ∧ ((∃ e, emit_node fe sa node = .error e) ↔ (p1, p2, p3, p4) ∉ rank5_patterns)
    ∧ ((p1, p2, p3, p4) ∉ rank5_patterns →
        onnx2ncnn fe (some graph) = .error (.unexpected "Unsupported transpose type !"))
    ∧ (∀ k : Nat, rank5_patterns[k]? = some (p1, p2, p3, p4) →
        ∃ name sb, layer_name node = .ok name
          ∧ emit_node fe sa node = .ok sb
          ∧ emitter_state_at fe graph (i + 1) = .ok (sb, rest)
          ∧ sb.pp = sa.pp
              ++ node_line (fmt_ls 16 "Permute") name
                   (count_runtime_inputs sa.weights node.input) node.output.length
                   (write_inputs sa.weights sa.node_reference node.input).2 node.output
                   (" 0=" ++ fmt_d (Int.ofNat k))
              :: split_lines (write_inputs sa.weights sa.node_reference node.input).1
                   sa.internal_split node.output
          ∧ sb.bv = sa.bv) := by
  have hnoop : node.op_type ≠ "noop_reducedncnn" := by rw [hop]; decide
  have hd : node.op_type ≠ "Dropout" := by rw [hop]; decide
  have hsame := state_at_same hat hnoop (by rw [hop]; decide)
  obtain ⟨name, hname⟩ := state_at_name hat
  have hkind : layer_kind sa node = .ok (.kind (fmt_ls 16 "Permute")) :=
    layer_kind_plain sa (by rw [hop]; decide) (by rw [hop]; decide) (by rw [hop]; decide)
      (by rw [hop]; decide) (by rw [hop]; decide) (by rw [hop]; rfl)
  have hp := write_params_transpose fe sa name hop
  obtain ⟨hbad, hgood⟩ := params_transpose_rank5 hperm
  have hfail : (p1, p2, p3, p4) ∉ rank5_patterns →
      emit_node fe sa node = .error (.unexpected "Unsupported transpose type !") := by
    intro hnot
    rw [hbad hnot] at hp
    exact emit_node_params_error fe hnoop hd hname hkind hp
  have hline : ∀ k : Nat, rank5_patterns[k]? = some (p1, p2, p3, p4) →
      ∃ sb, emit_node fe sa node = .ok sb
        ∧ emitter_state_at fe graph (i + 1) = .ok (sb, rest)
        ∧ sb.pp = sa.pp
            ++ node_line (fmt_ls 16 "Permute") name
                 (count_runtime_inputs sa.weights node.input) node.output.length
                 (write_inputs sa.weights sa.node_reference node.input).2 node.output
                 (" 0=" ++ fmt_d (Int.ofNat k))
            :: split_lines (write_inputs sa.weights sa.node_reference node.input).1
                 sa.internal_split node.output
        ∧ sb.bv = sa.bv := by
    intro k hk
    rw [hgood k hk] at hp
    obtain ⟨sb, hb, hnext, hpp, hbv⟩ := emit_node_line fe hat hnoop hd hname hkind hp
    exact ⟨sb, hb, hnext, hpp, by rw [hbv]; exact List.append_nil _⟩
  refine ⟨hsame, ⟨fun ⟨e, he⟩ hmem => ?_, fun hnot => ⟨_, hfail hnot⟩⟩,
    fun hnot => state_at_error hat (hfail hnot),
    fun k hk => ?_⟩
  · obtain ⟨k, hk⟩ := List.getElem?_of_mem hmem
    obtain ⟨sb, hb, -⟩ := hline k hk
    rw [hb] at he
    cases he
  · obtain ⟨sb, hb, hnext, hpp, hbv⟩ := hline k hk
    exact ⟨name, sb, hname, hb, hnext, hpp, hbv⟩

set_option maxRecDepth 100000 in
/-- C14 at the node `Transpose(x) -> y` with `perm = [0,2,3,4,1]`: the pattern
(2,3,4,1) has index 3 and the line written ends with `0=3`. -/
theorem C14_rank5_transpose_witness :
    emitter_state_at example_floats (single_node_graph (permute_node [0, 2, 3, 4, 1])) 0
      = .ok (single_node_state, [permute_node [0, 2, 3, 4, 1]])
    ∧ get_node_attr_ai (permute_node [0, 2, 3, 4, 1]) "perm" = [0, 2, 3, 4, 1]
    ∧ rank5_patterns[3]? = some (2, 3, 4, 1)
    ∧ ∃ sb, emit_node example_floats single_node_state (permute_node [0, 2, 3, 4, 1]) = .ok sb
        ∧ sb.pp = single_node_state.pp
            ++ ["Permute          y                        1 1 x y 0=3\n"] := by
  have h := C14_rank5_transpose_fails_iff_not_enumerated example_floats
    (single_node_graph (permute_node [0, 2, 3, 4, 1])) 0 single_node_state
    (permute_node [0, 2, 3, 4, 1]) [] 0 2 3 4 1 (by decide) rfl (by decide)
  obtain ⟨name, sb, hname, hb, -, hpp, -⟩ := h.2.2.2 3 (by decide)
  cases hname
  exact ⟨by decide, by decide, by decide, sb, hb, by rw [hpp]; decide⟩

/-- C15: for a `Concat` or `Softmax` node the emitter reaches, with `axis` the value
`get_node_attr_i` reads (1 when the attribute is absent), the node is translated to a
line of its own kind whose parameters are `0=v` for `Concat` and `0=v 1=1` for
`Softmax`, where `v` is `axis - 1` in the `int` arithmetic of the source: `v = axis - 1`
unless `axis` is the least `int`, and `v = 0` when the attribute is absent. Nothing is
added to the blob buffer. -/
theorem C15_concat_softmax_axis_minus_one (fe : FloatEnv) (graph : GraphProto) (i : Nat)
    (sa : State) (node : NodeProto) (rest : List NodeProto)
    (hat : emitter_state_at fe graph i = .ok (sa, node :: rest))
    (hop : node.op_type = "Concat" ∨ node.op_type = "Softmax") :
    graph.node[i]? = some node
    ∧ (∃ name sb v, layer_name node = .ok name
        ∧ emit_node fe sa node = .ok sb
        ∧ emitter_state_at fe graph (i + 1) = .ok (sb, rest)
        ∧ sb.pp = sa.pp
            ++ node_line (fmt_ls 16 node.op_type) name
                 (count_runtime_inputs sa.weights node.input) node.output.length
                 (write_inputs sa.weights sa.node_reference node.input).2 node.output
                 (" 0=" ++ fmt_d v ++ (if node.op_type = "Softmax" then " 1=1" else ""))
            :: split_lines (write_inputs sa.weights sa.node_reference node.input).1
                 sa.internal_split node.output
        ∧ sb.bv = sa.bv
        ∧ v = to_int32 (get_node_attr_i node "axis" 1 - 1)
        ∧ (get_node_attr_i node "axis" 1 ≠ -2147483648 → v = get_node_attr_i node "axis" 1 - 1)
        ∧ (find_attr node "axis" = none → v = 0)) := by
  have hnoop : node.op_type ≠ "noop_reducedncnn" := by
    rcases hop with hop | hop <;> rw [hop] <;> decide
  have hd : node.op_type ≠ "Dropout" := by
    rcases hop with hop | hop <;> rw [hop] <;> decide
  have hmm : node.op_type ≠ "MatMul" := by
    rcases hop with hop | hop <;> rw [hop] <;> decide
  have hsame := state_at_same hat hnoop hmm
  obtain ⟨name, hname⟩ := state_at_name hat
  have hkind : layer_kind sa node = .ok (.kind (fmt_ls 16 node.op_type)) := by
    rcases hop with hop | hop <;> rw [hop] <;>
    exact layer_kind_plain sa (by rw [hop]; decide) (by rw [hop]; decide) (by rw [hop]; decide)
      (by rw [hop]; decide) (by rw [hop]; decide) (by rw [hop]; rfl)
  have hp := write_params_axis fe sa name hop
  obtain ⟨sb, hb, hnext, hpp, hbv⟩ := emit_node_line fe hat hnoop hd hname hkind hp
  refine ⟨hsame, name, sb, _, hname, hb, hnext, hpp, by rw [hbv]; exact List.append_nil _, rfl,
    fun hmin => ?_, fun hnone => ?_⟩
  · have hr := get_node_attr_i_range node "axis" (show (-2147483648 : Int) ≤ 1 by decide)
      (show (1 : Int) < 2147483648 by decide)
    exact to_int32_id (by omega) (by omega)
  · have : get_node_attr_i node "axis" 1 = 1 := by
      unfold get_node_attr_i
      rw [hnone]
    rw [this]
    rfl

set_option maxRecDepth 100000 in
/-- C15 at the nodes `Concat(x) -> y` with `axis = 2` and `Softmax(x) -> y` without an
`axis`: the lines written end with `0=1` and with `0=0 1=1`. -/
theorem C15_concat_softmax_witness :
    emitter_state_at example_floats (single_node_graph concat_node) 0
      = .ok (single_node_state, [concat_node])
    ∧ get_node_attr_i concat_node "axis" 1 = 2
    ∧ (∃ sb, emit_node example_floats single_node_state concat_node = .ok sb
        ∧ sb.pp = single_node_state.pp
            ++ ["Concat           y                        1 1 x y 0=1\n"])
    ∧ onnx2ncnn example_floats (some (single_node_graph softmax_node))
        = .ok ("7767517\n2 2\nInput            x                        0 1 x\n"
                ++ "Softmax          y                        1 1 x y 0=0 1=1\n", []) := by
  have h := C15_concat_softmax_axis_minus_one example_floats (single_node_graph concat_node) 0
    single_node_state concat_node [] (by decide) (Or.inl rfl)
  obtain ⟨-, name, sb, v, hname, hb, -, hpp, -, hv, -, -⟩ := h
  cases hname
  subst hv
  exact ⟨by decide, by decide, ⟨sb, hb, by rw [hpp]; decide⟩, by decide⟩

/-! ## C16: the format of a node line -/

/-- C17 (as amended): for a `BatchNormalization` node the emitter reaches whose inputs
are `x, s, b, m, v`, with `x` not a weight and `s, b, m, v` weights (scale, bias, mean,
variance) that hold `channels` floats each, below 2 GiB, the node is translated to a
`BatchNorm` line with input count 1, output count the number of outputs of the node
(1 for a node with one output) and the parameter `0=channels`; the blob buffer grows
by exactly `16 * channels` bytes: the scale payload, the mean payload, the `channels`
variances each with `epsilon` added, and the bias payload. -/
theorem C17_batchnorm_line_and_payload (fe : FloatEnv) (graph : GraphProto) (i : Nat)
    (sa : State) (node : NodeProto) (rest : List NodeProto) (x s b m v : String)
    (scale B mean var : TensorProto) (channels : Nat)
    (hat : emitter_state_at fe graph i = .ok (sa, node :: rest))
    (hop : node.op_type = "BatchNormalization")
    (hin : node.input = [x, s, b, m, v])
    (hx : map_contains sa.weights x = false)
    (hs : map_find sa.weights s = some scale) (hb : map_find sa.weights b = some B)
    (hm : map_find sa.weights m = some mean) (hv : map_find sa.weights v = some var)
    (hfs : holds_floats scale channels = true) (hfb : holds_floats B channels = true)
    (hfm : holds_floats mean channels = true) (hfv : holds_floats var channels = true)
    (hsmall : 4 * channels < 2147483648) :
    graph.node[i]? = some node
    ∧ ∃ name sb, layer_name node = .ok name
        ∧ emit_node fe sa node = .ok sb
        ∧ emitter_state_at fe graph (i + 1) = .ok (sb, rest)
        ∧ sb.pp = sa.pp
            ++ node_line (fmt_ls 16 "BatchNorm") name 1 node.output.length
                 (write_inputs sa.weights sa.node_reference node.input).2 node.output
                 (" 0=" ++ fmt_d (channels : Int))
            :: split_lines (write_inputs sa.weights sa.node_reference node.input).1
                 sa.internal_split node.output
        ∧ sb.bv = sa.bv
            ++ (tensor_proto_bytes scale ++ tensor_proto_bytes mean
                 ++ floats_bytes ((float_ptr var).map
                      (fun t => fe.add t (get_node_attr_f node "epsilon" f32_1em5)))
                 ++ tensor_proto_bytes B)
        ∧ (tensor_proto_bytes scale).length = 4 * channels
        ∧ (tensor_proto_bytes mean).length = 4 * channels
        ∧ (float_ptr var).length = channels
        ∧ (tensor_proto_bytes B).length = 4 * channels
        ∧ sb.bv.length = sa.bv.length + 16 * channels := by
  have hnoop : node.op_type ≠ "noop_reducedncnn" := by rw [hop]; decide
  have hd : node.op_type ≠ "Dropout" := by rw [hop]; decide
  have hsame := state_at_same hat hnoop (by rw [hop]; decide)
  obtain ⟨name, hname⟩ := state_at_name hat
  have hkind : layer_kind sa node = .ok (.kind (fmt_ls 16 "BatchNorm")) :=
    layer_kind_plain sa (by rw [hop]; decide) (by rw [hop]; decide) (by rw [hop]; decide)
      (by rw [hop]; decide) (by rw [hop]; decide) (by rw [hop]; rfl)
  have hp := (write_params_batchnorm fe sa name hop).trans
    (params_batchnorm_found fe hin hs hb hm hv hfs hfv hsmall)
  obtain ⟨sb, hsb, hnext, hpp, hbv⟩ := emit_node_line fe hat hnoop hd hname hkind hp
  have hcount : count_runtime_inputs sa.weights node.input = 1 := by
    unfold count_runtime_inputs
    rw [hin]
    simp [List.filter, hx, map_contains_found hs, map_contains_found hb,
      map_contains_found hm, map_contains_found hv]
  rw [hcount] at hpp
  have ls := (holds_floats_facts hfs hsmall).2.1
  have lm := (holds_floats_facts hfm hsmall).2.1
  have lv := (holds_floats_facts hfv hsmall).2.2
  have lb := (holds_floats_facts hfb hsmall).2.1
  refine ⟨hsame, name, sb, hname, hsb, hnext, hpp, hbv, ls, lm, lv, lb, ?_⟩
  rw [hbv]
  simp only [List.length_append, floats_bytes_length, List.length_map, ls, lm, lv, lb]
  omega

set_option maxRecDepth 100000 in
/-- C17 at `channels = 2`: the node `BatchNormalization(x, scale, b, mean, var) -> y`
yields the line `BatchNorm y 1 1 x y 0=2` and a blob of 32 bytes. -/
theorem C17_batchnorm_two_channels_witness :
    emitter_state_at example_floats (batchnorm_graph ["y"]) 0
      = .ok (batchnorm_state, [batchnorm_node ["y"]])
    ∧ 4 * 2 < 2147483648
    ∧ ∃ sb, emit_node example_floats batchnorm_state (batchnorm_node ["y"]) = .ok sb
        ∧ sb.pp = batchnorm_state.pp
            ++ ["BatchNorm        y                        1 1 x y 0=2\n"]
        ∧ sb.bv.length = 32 := by
  have h := C17_batchnorm_line_and_payload example_floats (batchnorm_graph ["y"]) 0
    batchnorm_state (batchnorm_node ["y"]) [] "x" "scale" "b" "mean" "var"
    { name := "scale", dims := [2], data_type := 1, float_data := [f32_of_byte 1, f32_of_byte 2] }
    { name := "b", dims := [2], data_type := 1, float_data := [f32_of_byte 3, f32_of_byte 4] }
    { name := "mean", dims := [2], data_type := 1, float_data := [f32_of_byte 5, f32_of_byte 6] }
    { name := "var", dims := [2], data_type := 1, raw_data := some [7, 0, 0, 0, 8, 0, 0, 0] }
    2 (by decide) rfl rfl (by decide) (by decide) (by decide) (by decide) (by decide)
    (by decide) (by decide) (by decide) (by decide) (by decide)
  obtain ⟨-, name, sb, hname, hsb, -, hpp, -, -, -, -, -, hlen⟩ := h
  cases hname
  exact ⟨by decide, by decide, sb, hsb, by rw [hpp]; decide, hlen⟩

set_option maxRecDepth 100000 in
/-- C17 (fails on the code as stated): the same node with the two outputs `y` and `m`
is translated with output count 2, the line being `BatchNorm y 1 2 x y m 0=2`. -/
theorem C17_batchnorm_with_two_outputs :
    (batchnorm_node ["y", "m"]).op_type = "BatchNormalization"
    ∧ (∀ t ∈ batchnorm_weights, holds_floats t 2 = true)
    ∧ ∀ fe, (onnx2ncnn fe (some (batchnorm_graph ["y", "m"]))).map (fun r => r.1)
        = .ok ("7767517\n2 3\nInput            x                        0 1 x\n"
                ++ "BatchNorm        y                        1 2 x y m 0=2\n") :=
  ⟨rfl, by decide, fun _ => rfl⟩

/-- C19 (as amended): for a `ConvTranspose` node the emitter reaches with group
`G ≥ 1` and a weight `W` with `W.dims(1) = F ≥ 1` that holds `G * ni * F * maxk`
floats, where `maxk = kh * kw ≥ 1` is `kernel_shape[0] * kernel_shape[1]` for a
`kernel_shape` of two entries and the square of `kernel_shape[0]` for a `kernel_shape`
of any other length, all sizes in the range of `int` (payload below 2 GiB), the node
is translated, and the floats `S` streamed after the 4-byte zero tag are as many as
those of `W` and are `W` re-ordered per group from `(ni, F, maxk)` to `(F, ni, maxk)`:
`S[((g*F + k)*ni + j)*maxk + m] = W[((g*ni + j)*F + k)*maxk + m]`. -/
theorem C19_deconv_weight_reordered_per_group (fe : FloatEnv) (graph : GraphProto) (i : Nat)
    (sa : State) (node : NodeProto) (rest : List NodeProto) (Wn : String) (W : TensorProto)
    (G F ni kh kw : Nat)
    (hat : emitter_state_at fe graph i = .ok (sa, node :: rest))
    (hop : node.op_type = "ConvTranspose")
    (hin : node.input[1]? = some Wn) (hW : map_find sa.weights Wn = some W)
    (hG : get_node_attr_i node "group" 1 = (G : Int)) (hG0 : 0 < G)
    (hF : W.dims[1]? = some (F : Int)) (hF0 : 0 < F)
    (hks : get_node_attr_ai node "kernel_shape" = [(kh : Int), (kw : Int)]
      ∨ ((get_node_attr_ai node "kernel_shape").length ≠ 2
          ∧ (get_node_attr_ai node "kernel_shape").head? = some (kh : Int) ∧ kw = kh))
    (hk : 0 < kh * kw)
    (hf : holds_floats W (G * ni * F * (kh * kw)) = true)
    (hsmall : 4 * (G * ni * F * (kh * kw)) < 2147483648)
    (hmk : kh * kw < 2147483648) (hFG : F * G < 2147483648) :
    graph.node[i]? = some node
    ∧ ∃ sb S bias, emit_node fe sa node = .ok sb
        ∧ emitter_state_at fe graph (i + 1) = .ok (sb, rest)
        ∧ sb.bv = sa.bv ++ ([0, 0, 0, 0] ++ floats_bytes S ++ bias)
        ∧ S.length = G * ni * F * (kh * kw)
        ∧ (float_ptr W).length = G * ni * F * (kh * kw)
        ∧ ∀ g k j m, g < G → k < F → j < ni → m < kh * kw →
            S.getD (((g * F + k) * ni + j) * (kh * kw) + m) f32_zero
              = (float_ptr W).getD (((g * ni + j) * F + k) * (kh * kw) + m) f32_zero := by
  have hnoop : node.op_type ≠ "noop_reducedncnn" := by rw [hop]; decide
  have hd : node.op_type ≠ "Dropout" := by rw [hop]; decide
  have hsame := state_at_same hat hnoop (by rw [hop]; decide)
  obtain ⟨name, hname⟩ := state_at_name hat
  obtain ⟨kind, hkind⟩ := layer_kind_deconv sa hop
  obtain ⟨p, S, bias, hp, hbytes, hlen, hget⟩ :=
    params_deconv_found hin hW hG hG0 hF hF0 hks hk hf hsmall hmk hFG
  have hp1 := (write_params_deconv fe sa name hop).trans hp
  obtain ⟨sb, hsb, hnext, -, hbv⟩ := emit_node_line fe hat hnoop hd hname hkind hp1
  rw [hbytes] at hbv
  exact ⟨hsame, sb, S, bias, hsb, hnext, hbv, hlen, (holds_floats_facts hf hsmall).2.2, hget⟩

set_option maxRecDepth 100000 in
/-- C19 at the node `ConvTranspose(x, W) -> y` with `kernel_shape = [1, 2]` and `W` of
dims (2, 3, 1, 2) holding the floats 0..11 (one group, `ni = 2`, `F = 3`, `maxk = 2`):
the blob is the 4 zero bytes followed by the floats 0, 1, 6, 7, 2, 3, 8, 9, 4, 5, 10,
11. -/
theorem C19_deconv_witness :
    emitter_state_at example_floats (deconv_graph deconv_weight_2d [1, 2]) 0
      = .ok ({ single_node_state with weights := [("W", deconv_weight_2d)] },
             [deconv_node [1, 2]])
    ∧ holds_floats deconv_weight_2d (1 * 2 * 3 * (1 * 2)) = true
    ∧ (∃ sb S bias, emit_node example_floats
            { single_node_state with weights := [("W", deconv_weight_2d)] }
            (deconv_node [1, 2]) = .ok sb
        ∧ sb.bv = [0, 0, 0, 0] ++ floats_bytes S ++ bias
        ∧ S.length = 12
        ∧ S.getD (((0 * 3 + 2) * 2 + 1) * (1 * 2) + 0) f32_zero
            = f32_of_byte (((0 * 2 + 1) * 3 + 2) * (1 * 2) + 0))
    ∧ onnx2ncnn example_floats (some (deconv_graph deconv_weight_2d [1, 2]))
        = .ok ("7767517\n2 2\nInput            x                        0 1 x\n"
                ++ "Deconvolution    y                        1 1 x y 0=3 1=2 11=1 5=0 6=12\n",
               [0, 0, 0, 0]
                 ++ floats_bytes ([0, 1, 6, 7, 2, 3, 8, 9, 4, 5, 10, 11].map f32_of_byte)) := by
  have h := C19_deconv_weight_reordered_per_group example_floats
    (deconv_graph deconv_weight_2d [1, 2]) 0
    { single_node_state with weights := [("W", deconv_weight_2d)] } (deconv_node [1, 2]) []
    "W" deconv_weight_2d 1 3 2 1 2 (by decide) rfl rfl rfl rfl (by decide) rfl (by decide)
    (Or.inl rfl) (by decide) (by decide) (by decide) (by decide) (by decide)
  obtain ⟨-, sb, S, bias, hsb, -, hbv, hlen, -, hS⟩ := h
  refine ⟨by decide, by decide, ⟨sb, S, bias, hsb, hbv, hlen, ?_⟩, by decide⟩
  rw [hS 0 2 1 0 (by decide) (by decide) (by decide) (by decide)]
  decide

set_option maxRecDepth 100000 in
/-- C19 (fails on the code as stated): for `kernel_shape = [3]`, group 1 and `W` of
dims (1, 1, 3) holding 3 floats (`F = 1`, one input channel, the product of the
`kernel_shape` entries being 3), the conversion succeeds and no float of `W` is
streamed after the zero tag: the blob is the 4 tag bytes, because `maxk` is taken as
`3 * 3`. -/
theorem C19_one_entry_kernel_shape_streams_nothing :
    holds_floats deconv_weight_1d (1 * 1 * 1 * 3) = true
    ∧ get_node_attr_ai (deconv_node [3]) "kernel_shape" = [3]
    ∧ ∀ fe, onnx2ncnn fe (some (deconv_graph deconv_weight_1d [3]))
        = .ok ("7767517\n2 2\nInput            x                        0 1 x\n"
                ++ "Deconvolution    y                        1 1 x y 0=1 1=3 5=0 6=3\n",
               [0, 0, 0, 0]) :=
  ⟨by decide, by decide, fun _ => rfl⟩

/-! ## C20: Gemm outside the handled form -/

set_option maxRecDepth 100000 in
/-- C21 (fails on the code): in `unused_transpose_graph` the `Transpose` of the 2-D
weight `W` writes `Wt`, which no node reads. After the rewriter the fan-out map holds
`x` with count 1 and `Wt` with count 0, so no name has a count greater than 1 and the
formula of the specification gives 3 layers and 3 blobs; the header written is `4 3`:
the test of line 365 inserted the entry of `Wt`, and line 445 counts every entry left
after the entries equal to 1 are removed. Three layer lines follow the header. -/
theorem C21_header_counts_zero_fanout_entry :
    (classify unused_transpose_graph >>= fun st1 =>
        fuse_nodes st1 unused_transpose_graph.node).map
        (fun r => (r.1.node_reference, spec_layer_count 2 2 r.1, spec_blob_count r.1))
      = .ok ([("x", 1), ("Wt", 0)], 3, 3)
    ∧ (∀ fe, (convert fe unused_transpose_graph).map (fun r => (text_lines r.1).take 2)
        = .ok ["7767517", "4 3"])
    ∧ (∀ fe, (convert fe unused_transpose_graph).map (fun r => (layer_lines r.1).length)
        = .ok 3) :=
  ⟨by decide, fun _ => rfl, fun _ => rfl⟩

/-! ## C22: Dropout -/

/-- C22: for a `Dropout` node the emitter reaches whose outputs are `out0 :: more`,
the line written has the kind `Dropout`, output count 1 and the single output name
`out0`, without parameters; the `Split` lines that follow are those of `out0` alone,
and nothing goes to the blob buffer. In the classifier the iteration of the node
completes in every state and adds to the blob names, besides the counted inputs, the
name `out0` only. -/
theorem C22_dropout_writes_first_output_only (fe : FloatEnv) (graph : GraphProto) (i : Nat)
    (sa : State) (node : NodeProto) (rest : List NodeProto) (out0 : String)
    (more : List String)
    (hat : emitter_state_at fe graph i = .ok (sa, node :: rest))
    (hop : node.op_type = "Dropout") (hout : node.output = out0 :: more) :
    graph.node[i]? = some node
    ∧ (∃ name sb, layer_name node = .ok name
        ∧ emit_node fe sa node = .ok sb
        ∧ emitter_state_at fe graph (i + 1) = .ok (sb, rest)
        ∧ sb.pp = sa.pp
            ++ node_line (fmt_ls 16 "Dropout") name
                 (count_runtime_inputs sa.weights node.input) 1
                 (write_inputs sa.weights sa.node_reference node.input).2 [out0] ""
            :: split_lines (write_inputs sa.weights sa.node_reference node.input).1
                 sa.internal_split [out0]
        ∧ sb.bv = sa.bv)
    ∧ ∀ st : State, classify_node st node
        = .ok { count_inputs st node.input with
                  blob_names := set_insert (count_inputs st node.input).blob_names out0 } := by
  have hnoop : node.op_type ≠ "noop_reducedncnn" := by rw [hop]; decide
  have hsame := state_at_same hat hnoop (by rw [hop]; decide)
  obtain ⟨name, hname⟩ := state_at_name hat
  have hkind : layer_kind sa node = .ok (.kind (fmt_ls 16 "Dropout")) :=
    layer_kind_plain sa (by rw [hop]; decide) (by rw [hop]; decide) (by rw [hop]; decide)
      (by rw [hop]; decide) (by rw [hop]; decide) (by rw [hop]; rfl)
  have hsize : output_size node = 1 := by
    unfold output_size
    rw [if_pos hop]
  have hfirst : first_outputs node (output_size node) = .ok [out0] := by
    rw [hsize]
    unfold first_outputs
    rw [hout, if_pos (by simp)]
    rfl
  have hp : write_params fe sa node name = .ok (text_only sa.weights "") := by
    unfold write_params
    simp only [hop]
    rfl
  have hb : emit_node fe sa node
      = .ok (layer_state sa node name (fmt_ls 16 "Dropout") [out0] (text_only sa.weights "")) := by
    rw [emit_node_kind fe hnoop hname hkind, emit_layer_eq, hfirst, ok_bind, hp, ok_bind]
    rfl
  have hout0 : at_idx "output" node.output 0 = .ok out0 := by
    rw [hout]
    rfl
  refine ⟨hsame, ⟨name, _, hname, hb, state_at_succ hat hb, ?_, ?_⟩, fun st => ?_⟩
  · show sa.pp ++ _ = _
    rw [hsize]
    rfl
  · show sa.bv ++ [] = sa.bv
    exact List.append_nil _
  · unfold classify_node
    rw [hname, ok_bind]
    unfold classify_body
    rw [if_neg (by rw [hop]; decide), if_neg (by rw [hop]; decide),
      if_neg (by rw [hop]; decide)]
    unfold classify_tail
    rw [if_pos hop, hout0, ok_bind]
    rfl

set_option maxRecDepth 100000 in
/-- C22 at the graph with input `x` and the node `Dropout(x) -> y, mask`: the line lists
`y` alone with output count 1, the header counts the 2 blobs `x` and `y`, and the
classifier step of the node, started with no blob names, leaves `x` and `y`. -/
theorem C22_dropout_witness :
    emitter_state_at example_floats (single_node_graph dropout_node) 0
      = .ok (single_node_state, [dropout_node])
    ∧ (∃ sb, emit_node example_floats single_node_state dropout_node = .ok sb
        ∧ sb.pp = single_node_state.pp
            ++ ["Dropout          y                        1 1 x y\n"]
        ∧ sb.bv = [])
    ∧ (classify_node {} dropout_node).map (fun st => st.blob_names) = .ok ["x", "y"]
    ∧ onnx2ncnn example_floats (some (single_node_graph dropout_node))
        = .ok ("7767517\n2 2\nInput            x                        0 1 x\n"
                ++ "Dropout          y                        1 1 x y\n", []) := by
  have h := C22_dropout_writes_first_output_only example_floats (single_node_graph dropout_node)
    0 single_node_state dropout_node [] "y" ["mask"] (by decide) rfl rfl
  obtain ⟨-, ⟨name, sb, hname, hsb, -, hpp, hbv⟩, hcl⟩ := h
  cases hname
  refine ⟨by decide, ⟨sb, hsb, by rw [hpp]; decide, hbv⟩, ?_, by decide⟩
  rw [hcl]
  decide

/-! ## C23 - C25: the rewriter -/

/-- C23: when the tests of the rewriter pass for a `Transpose` of the weight `B` stored
under `input0`, `B` has dims `(h, w)` (in the range of `int`) and holds `h * w` floats,
raw or unpacked, and the next node has the second input the rewriter overwrites, the
collapse completes, and the weight `B1` stored under `input0` afterwards has dims
`(w, h)`, the same encoding and the same number of floats, and
`B1[j*h + k] = B[k*w + j]` for all `j < w`, `k < h`. -/
theorem C23_collapsed_weight_is_transposed (st : State) (node node2 : NodeProto)
    (input0 output0 : String) (B : TensorProto) (h w : Nat)
    (hc : fuse_check st node (some node2) = .ok (.reduce input0 output0 B))
    (hn2 : 2 ≤ node2.input.length)
    (hdims : B.dims = [(h : Int), (w : Int)]) (hh : h < 2147483648) (hw : w < 2147483648)
    (hf : holds_floats B (h * w) = true) (hsmall : 4 * (h * w) < 2147483648) :
    map_find st.weights input0 = some B
    ∧ ∃ st1 n1 n2 B1, fuse_reduce st node node2 input0 output0 B = .ok (st1, n1, n2)
        ∧ map_find st1.weights input0 = some B1
        ∧ B1.dims = [(w : Int), (h : Int)]
        ∧ holds_floats B1 (h * w) = true
        ∧ B1.raw_data.isSome = B.raw_data.isSome
        ∧ (float_ptr B).length = h * w ∧ (float_ptr B1).length = h * w
        ∧ ∀ j k, j < w → k < h →
            (float_ptr B1).getD (j * h + k) f32_zero = (float_ptr B).getD (k * w + j) f32_zero := by
  obtain ⟨-, -, -, hW, -, -, -, -⟩ := fuse_check_reduce hc
  obtain ⟨-, -, hlen⟩ := holds_floats_facts hf hsmall
  have hp := permute_weight_transposed B h w hdims hh hw hlen
  obtain ⟨hholds, henc⟩ := store_permuted_holds B h w hf
  have hr : fuse_reduce st node node2 input0 output0 B
      = .ok ({ st with node_reference := map_erase st.node_reference output0,
                       blob_names := set_erase st.blob_names output0,
                       weights := map_set st.weights input0
                         (store_permuted B (h : Int) (w : Int) (transposed h w (float_ptr B))),
                       reduced_node_count := st.reduced_node_count + 1 },
             { node with op_type := "noop_reducedncnn" },
             { node2 with input := node2.input.set 1 input0 }) := by
    unfold fuse_reduce
    rw [if_neg (by omega), hp, ok_bind]
    rfl
  refine ⟨hW, _, _, _, _, hr, ?_, store_permuted_transposed_dims B h w _ hdims, hholds, henc,
    hlen, ?_, ?_⟩
  · show map_find (map_set st.weights input0 _) input0 = _
    rw [map_find_set, if_pos rfl]
  · rw [store_permuted_ptr B h w hlen, transposed_length]
  · intro j k hj hk
    rw [store_permuted_ptr B h w hlen]
    exact transposed_getD h w _ j k hj hk

set_option maxRecDepth 100000 in
/-- C23 at `fusion_graph`: the weight `W` of dims (3, 4) with the floats 0..11 is stored
with dims (4, 3) and the floats 0, 4, 8, 1, 5, 9, 2, 6, 10, 3, 7, 11. -/
theorem C23_collapsed_weight_witness :
    fuse_check fusion_classified transpose_node
        (some { op_type := "MatMul", input := ["x", "Wt"], output := ["y"] })
      = .ok (.reduce "W" "Wt" fusion_weight)
    ∧ holds_floats fusion_weight (3 * 4) = true
    ∧ ∃ st1 n1 n2 B1,
        fuse_reduce fusion_classified transpose_node
            { op_type := "MatMul", input := ["x", "Wt"], output := ["y"] } "W" "Wt" fusion_weight
          = .ok (st1, n1, n2)
        ∧ map_find st1.weights "W" = some B1 ∧ B1.dims = [4, 3]
        ∧ (float_ptr B1).getD (1 * 3 + 2) f32_zero = f32_of_byte (2 * 4 + 1) := by
  have h := C23_collapsed_weight_is_transposed fusion_classified transpose_node
    { op_type := "MatMul", input := ["x", "Wt"], output := ["y"] } "W" "Wt" fusion_weight 3 4
    (by decide) (by decide) rfl (by decide) (by decide) (by decide) (by decide)
  obtain ⟨-, st1, n1, n2, B1, hr, hW, hd, -, -, -, -, hget⟩ := h
  refine ⟨by decide, by decide, st1, n1, n2, B1, hr, hW, hd, ?_⟩
  rw [hget 1 2 (by decide) (by decide)]
  decide

/-- C24 (as amended): on every graph for which the classifier and the rewriter
complete, the node list the rewriter leaves has no node with operator `Transpose`
whose first input is a 2-D weight, whose `perm` is `[1, 0]`, whose first output has the
fan-out count 1, and which stands right in front of a `MatMul` node. -/
theorem C24_no_transpose_left_in_front_of_matmul (graph : GraphProto) (st1 st2 : State)
    (nodes : List NodeProto) (i : Nat) (node next : NodeProto) (W Wt : String) (B : TensorProto)
    (h1 : classify graph = .ok st1) (h2 : fuse_nodes st1 graph.node = .ok (st2, nodes))
    (hi : nodes[i]? = some node) (hnext : nodes[i + 1]? = some next)
    (hop : node.op_type = "Transpose")
    (hin : node.input.head? = some W) (hW : map_find st2.weights W = some B)
    (hB : B.dims.length = 2)
    (hperm : get_node_attr_ai node "perm" = [1, 0])
    (hout : node.output.head? = some Wt)
    (hfan : map_find st2.node_reference Wt = some 1) :
    next.op_type ≠ "MatMul" :=
  fun hmm =>
    fused_no_collapsible (fuse_nodes_fused h2) (classify_nodup h1) i node next W Wt B hi hnext
      hop hmm hin hW hB hout hperm hfan

set_option maxRecDepth 100000 in
/-- C24 at `separated_matmul_graph`: the `Transpose` of the 2-D weight `W` with perm
`[1, 0]` and fan-out 1 is left in the list, and the node after it is a `Relu`. -/
theorem C24_separated_matmul_witness :
    classify separated_matmul_graph = .ok separated_matmul_classified
    ∧ fuse_nodes separated_matmul_classified separated_matmul_graph.node
        = .ok (separated_matmul_classified, separated_matmul_graph.node)
    ∧ map_find separated_matmul_classified.weights "W" = some fusion_weight
    ∧ map_find separated_matmul_classified.node_reference "Wt" = some 1
    ∧ ({ op_type := "Relu", input := ["x"], output := ["r"] } : NodeProto).op_type ≠ "MatMul" :=
  ⟨by decide, by decide, by decide, by decide,
   C24_no_transpose_left_in_front_of_matmul separated_matmul_graph separated_matmul_classified
     separated_matmul_classified separated_matmul_graph.node 0 transpose_node
     { op_type := "Relu", input := ["x"], output := ["r"] } "W" "Wt" fusion_weight
     (by decide) (by decide) rfl rfl rfl rfl (by decide) rfl (by decide) rfl (by decide)⟩

set_option maxRecDepth 100000 in
/-- C24 (fails on the code as stated): in `separated_matmul_graph` the output `Wt` of the
`Transpose` of the 2-D weight `W` with perm `[1, 0]` is read by exactly one node, the
`MatMul` at index 2, and the rewriter leaves the `Transpose` in the node list: it
collapses only a `Transpose` whose next node is a `MatMul`. -/
theorem C24_transpose_with_single_matmul_reader_is_kept :
    (classify separated_matmul_graph >>= fun st1 =>
        fuse_nodes st1 separated_matmul_graph.node).map (fun r => r.2)
      = .ok separated_matmul_graph.node
    ∧ separated_matmul_graph.node[0]? = some transpose_node
    ∧ transpose_node.op_type = "Transpose"
    ∧ get_node_attr_ai transpose_node "perm" = [1, 0]
    ∧ (fusion_weight.dims.length = 2 ∧ fusion_weight ∈ separated_matmul_graph.initializer
        ∧ transpose_node.input = [fusion_weight.name])
    ∧ separated_matmul_graph.node.filter (fun n => "Wt" ∈ n.input)
        = [{ op_type := "MatMul", input := ["r", "Wt"], output := ["y"] }] :=
  ⟨by decide, rfl, rfl, by decide, ⟨rfl, by decide, rfl⟩, by decide⟩

set_option maxRecDepth 100000 in
/-- C25 (fails on the code): in the state the classifier leaves for
`unused_transpose_graph`, the output `Wt` of the `Transpose` of the 2-D weight `W` has
no fan-out entry, so the precondition on the fan-out fails and the node is not
rewritten; yet the step adds the entry `Wt` with count 0 to the fan-out map, through
the read `node_reference[node->output(0)]` of line 365. -/
theorem C25_skipped_transpose_adds_fanout_entry :
    classify unused_transpose_graph = .ok unused_transpose_classified
    ∧ map_find unused_transpose_classified.node_reference "Wt" = none
    ∧ fuse_check unused_transpose_classified transpose_node
          (some { op_type := "MatMul", input := ["x", "K"], output := ["y"] })
        = .ok (.skip { unused_transpose_classified with
                         node_reference := [("x", 1), ("Wt", 0)] })
    ∧ unused_transpose_classified.node_reference = [("x", 1)] :=
  ⟨by decide, by decide, by decide, rfl⟩

/-! ## C26: unary and binary operators -/

set_option maxRecDepth 100000 in
/-- C26: for a node the emitter reaches whose operator stands in the table of unary
operators with the code `c`, the line written has the kind `UnaryOp` and the single
parameter `0=c`; for an operator of the table of binary operators the kind is
`BinaryOp` and the parameter is `0=c`; nothing goes to the blob buffer. Within each
table two operators that get the same code are the same operator. -/
theorem C26_unary_and_binary_codes (fe : FloatEnv) (graph : GraphProto) (i : Nat)
    (sa : State) (node : NodeProto) (rest : List NodeProto) (kind : String) (c : Int)
    (hat : emitter_state_at fe graph i = .ok (sa, node :: rest))
    (hmem : ((node.op_type, c) ∈ unary_codes ∧ kind = "UnaryOp")
      ∨ ((node.op_type, c) ∈ binary_codes ∧ kind = "BinaryOp")) :
    (graph.node[i]? = some node
      ∧ ∃ name sb, layer_name node = .ok name
          ∧ emit_node fe sa node = .ok sb
          ∧ emitter_state_at fe graph (i + 1) = .ok (sb, rest)
          ∧ sb.pp = sa.pp
              ++ node_line (fmt_ls 16 kind) name
                   (count_runtime_inputs sa.weights node.input) node.output.length
                   (write_inputs sa.weights sa.node_reference node.input).2 node.output
                   (" 0=" ++ fmt_d c)
              :: split_lines (write_inputs sa.weights sa.node_reference node.input).1
                   sa.internal_split node.output
          ∧ sb.bv = sa.bv)
    ∧ (∀ e1 ∈ unary_codes, ∀ e2 ∈ unary_codes,
        op_type_code e1.1 = op_type_code e2.1 → e1.1 = e2.1)
    ∧ (∀ e1 ∈ binary_codes, ∀ e2 ∈ binary_codes,
        op_type_code e1.1 = op_type_code e2.1 → e1.1 = e2.1) := by
  refine ⟨?_, by decide, by decide⟩
  rcases hmem with ⟨hm, hk⟩ | ⟨hm, hk⟩
  · obtain ⟨a1, a2, a3, a4, a5, a6, a7, a8, a9, a10⟩ := unary_codes_source _ hm
    subst hk
    exact emit_node_code fe hat a1 a2 a3 a4 a5 a6 a7 a8 a9 a10
  · obtain ⟨a1, a2, a3, a4, a5, a6, a7, a8, a9, a10⟩ := binary_codes_source _ hm
    subst hk
    exact emit_node_code fe hat a1 a2 a3 a4 a5 a6 a7 a8 a9 a10

set_option maxRecDepth 100000 in
/-- C26 at the nodes `Sqrt(x) -> y` and `Pow(x) -> y`: the lines written are
`UnaryOp y 1 1 x y 0=5` and `BinaryOp y 1 1 x y 0=6`. -/
theorem C26_sqrt_and_pow_witness :
    emitter_state_at example_floats
        (single_node_graph { op_type := "Sqrt", input := ["x"], output := ["y"] }) 0
      = .ok (single_node_state, [{ op_type := "Sqrt", input := ["x"], output := ["y"] }])
    ∧ (("Sqrt", 5) : String × Int) ∈ unary_codes
    ∧ (∃ sb, emit_node example_floats single_node_state
                { op_type := "Sqrt", input := ["x"], output := ["y"] } = .ok sb
        ∧ sb.pp = single_node_state.pp
            ++ ["UnaryOp          y                        1 1 x y 0=5\n"])
    ∧ onnx2ncnn example_floats
          (some (single_node_graph { op_type := "Pow", input := ["x"], output := ["y"] }))
        = .ok ("7767517\n2 2\nInput            x                        0 1 x\n"
                ++ "BinaryOp         y                        1 1 x y 0=6\n", []) := by
  have h := (C26_unary_and_binary_codes example_floats
    (single_node_graph { op_type := "Sqrt", input := ["x"], output := ["y"] }) 0
    single_node_state { op_type := "Sqrt", input := ["x"], output := ["y"] } [] "UnaryOp" 5
    (by decide) (Or.inl ⟨by decide, rfl⟩)).1
  obtain ⟨-, name, sb, hname, hsb, -, hpp, -⟩ := h
  cases hname
  exact ⟨by decide, by decide, ⟨sb, hsb, by rw [hpp]; decide⟩, by decide⟩

/-! ## C27 - C28: shape keys -/

/-- C27 (as amended): for a `Reshape` node the emitter reaches whose data input is not
a weight and whose target shape `shape` is the `shape` attribute (one input) or the
64-bit integers of the weight given as second input, narrowed to `int`, the line
written has the kind `Reshape` and, for a shape of rank 1 to 4, the parameters
`0=shape[0]` (rank 1), `0=shape[1]` (rank 2), `0=shape[2] 1=shape[1]` (rank 3),
`0=shape[3] 1=shape[2] 2=shape[1]` (rank 4): from rank 2 on the first axis is not
written. Nothing goes to the blob buffer. -/
theorem C27_reshape_keys_skip_first_axis (fe : FloatEnv) (graph : GraphProto) (i : Nat)
    (sa : State) (node : NodeProto) (rest : List NodeProto) (x : String) (shape : List Int)
    (hat : emitter_state_at fe graph i = .ok (sa, node :: rest))
    (hop : node.op_type = "Reshape")
    (hx : node.input.head? = some x) (hnw : map_contains sa.weights x = false)
    (hshape : (node.input.length = 1 ∧ shape = get_node_attr_ai node "shape")
      ∨ ∃ s tp, node.input = [x, s] ∧ map_find sa.weights s = some tp
          ∧ shape = tp.int64_data.map to_int32) :
    graph.node[i]? = some node
    ∧ ∃ name sb text, layer_name node = .ok name
        ∧ emit_node fe sa node = .ok sb
        ∧ emitter_state_at fe graph (i + 1) = .ok (sb, rest)
        ∧ sb.pp = sa.pp
            ++ node_line (fmt_ls 16 "Reshape") name
                 (count_runtime_inputs sa.weights node.input) node.output.length
                 (write_inputs sa.weights sa.node_reference node.input).2 node.output text
            :: split_lines (write_inputs sa.weights sa.node_reference node.input).1
                 sa.internal_split node.output
        ∧ sb.bv = sa.bv
        ∧ (∀ s0, shape = [s0] → text = " 0=" ++ fmt_d s0)
        ∧ (∀ s0 s1, shape = [s0, s1] → text = " 0=" ++ fmt_d s1)
        ∧ (∀ s0 s1 s2, shape = [s0, s1, s2] → text = " 0=" ++ fmt_d s2 ++ " 1=" ++ fmt_d s1)
        ∧ (∀ s0 s1 s2 s3, shape = [s0, s1, s2, s3] →
            text = " 0=" ++ fmt_d s3 ++ " 1=" ++ fmt_d s2 ++ " 2=" ++ fmt_d s1) := by
  have hnoop : node.op_type ≠ "noop_reducedncnn" := by rw [hop]; decide
  have hd : node.op_type ≠ "Dropout" := by rw [hop]; decide
  have hsame := state_at_same hat hnoop (by rw [hop]; decide)
  obtain ⟨name, hname⟩ := state_at_name hat
  have hkind := layer_kind_reshape hop hx hnw
  have hp := (write_params_reshape fe sa name hop).trans (params_reshape_shape hshape)
  obtain ⟨sb, hsb, hnext, hpp, hbv⟩ := emit_node_line fe hat hnoop hd hname hkind hp
  refine ⟨hsame, name, sb, reshape_keys shape, hname, hsb, hnext, hpp,
    by rw [hbv]; exact List.append_nil _, ?_, ?_, ?_, ?_⟩
  · intro s0 h; rw [h]; rfl
  · intro s0 s1 h; rw [h]; rfl
  · intro s0 s1 s2 h; rw [h]; rfl
  · intro s0 s1 s2 s3 h; rw [h]; rfl

set_option maxRecDepth 100000 in
/-- C27 at the node `Reshape(x) -> y` with `shape = [1, 2, 3, 4]`: the line carries
`0=4 1=3 2=2`. -/
theorem C27_reshape_rank4_witness :
    emitter_state_at example_floats (single_node_graph (reshape_node [1, 2, 3, 4])) 0
      = .ok (single_node_state, [reshape_node [1, 2, 3, 4]])
    ∧ get_node_attr_ai (reshape_node [1, 2, 3, 4]) "shape" = [1, 2, 3, 4]
    ∧ ∃ sb, emit_node example_floats single_node_state (reshape_node [1, 2, 3, 4]) = .ok sb
        ∧ sb.pp = single_node_state.pp
            ++ ["Reshape          y                        1 1 x y 0=4 1=3 2=2\n"] := by
  have h := C27_reshape_keys_skip_first_axis example_floats
    (single_node_graph (reshape_node [1, 2, 3, 4])) 0 single_node_state
    (reshape_node [1, 2, 3, 4]) [] "x" [1, 2, 3, 4] (by decide) rfl rfl (by decide)
    (Or.inl ⟨rfl, by decide⟩)
  obtain ⟨-, name, sb, text, hname, hsb, -, hpp, -, -, -, -, h4⟩ := h
  cases hname
  rw [h4 1 2 3 4 rfl] at hpp
  exact ⟨by decide, by decide, sb, hsb, by rw [hpp]; decide⟩

set_option maxRecDepth 100000 in
/-- C27 (fails on the code as stated): for `shape = [2, 3]`, of rank 2, the line carries
`0=3` and no key 1; for `shape = [2, 3, 4]`, of rank 3, it carries `0=4 1=3` and no
key 2. -/
theorem C27_reshape_rank2_writes_one_key :
    (∀ fe, onnx2ncnn fe (some (single_node_graph (reshape_node [2, 3])))
        = .ok ("7767517\n2 2\nInput            x                        0 1 x\n"
                ++ "Reshape          y                        1 1 x y 0=3\n", []))
    ∧ (∀ fe, onnx2ncnn fe (some (single_node_graph (reshape_node [2, 3, 4])))
        = .ok ("7767517\n2 2\nInput            x                        0 1 x\n"
                ++ "Reshape          y                        1 1 x y 0=4 1=3\n", [])) :=
  ⟨fun _ => rfl, fun _ => rfl⟩

set_option maxRecDepth 100000 in
/-- C28 (fails on the code): the weight `k` of dims (2, 3) read by an `Add` gets the
`MemoryData` line `0=3 1=2` when it is an initializer listed among the graph inputs
(lines 494-511) and the line `0=3`, without the key 1, when it comes from a `Constant`
node (lines 947-969); the payload is the same 6 floats in both. -/
theorem C28_constant_path_drops_first_axis :
    (∀ fe, onnx2ncnn fe (some input_weight_graph)
        = .ok ("7767517\n3 3\nInput            x                        0 1 x\n"
                ++ "MemoryData       k                        0 1 k 0=3 1=2\n"
                ++ "BinaryOp         y                        2 1 x k y 0=0\n",
               floats_bytes ((List.range 6).map f32_of_byte)))
    ∧ (∀ fe, onnx2ncnn fe (some constant_weight_graph)
        = .ok ("7767517\n3 3\nInput            x                        0 1 x\n"
                ++ "MemoryData       k                        0 1 k 0=3\n"
                ++ "BinaryOp         y                        2 1 x k y 0=0\n",
               floats_bytes ((List.range 6).map f32_of_byte)))
    ∧ memorydata_shape matrix_weight = " 0=3 1=2"
    ∧ constant_shape matrix_weight = " 0=3" :=
  ⟨fun _ => rfl, fun _ => rfl, by decide, by decide⟩

/-! ## C29: Conv -/

set_option maxRecDepth 100000 in
/-- C30 (fails on the code): for the graph with input `x` and the node `Relu(x)` that has
an empty name and no output, the classifier stops at the read `node.output(0)` of line
220, outside the empty output list, and `onnx2ncnn` returns no pair. The two other
cases of the claim do complete: on `odd_weights_graph`, with a `Constant` without
`value` and a `Reshape` whose shape input is not a weight, the classifier returns its
maps, the weights being `k`, `c`, `r` and the entry `s` made by the read
`weights[node.input(1)]`. -/
theorem C30_classifier_reads_missing_output :
    no_output_graph.node.map (fun n => (n.name, n.output)) = [("", [])]
    ∧ classify no_output_graph = .error (.bad_access "output")
    ∧ (∀ fe, onnx2ncnn fe (some no_output_graph) = .error (.bad_access "output"))
    ∧ (classify odd_weights_graph).map
        (fun st => (st.weights.map Prod.fst, st.binaryop_weights.map Prod.fst,
                    st.node_reference, st.blob_names, st.input_node_count))
        = .ok (["k", "c", "r", "s"], [], [], ["x"], 1) :=
  ⟨rfl, by decide, fun _ => rfl, rfl⟩

/-! ## C31: counts and names on a line -/

/-- C31: whenever the loop body succeeds on a node it either writes nothing or appends one
node line followed by Split lines only. The input count printed on the node line is the
length of the list of input names written on it, that list has one entry for each input
that is not a key of the weight table, and the output count printed is the length of the
list of output names written, the first `output_size` outputs. Every Split line written
after a node or after an Input line prints the input count 1, one input name, and an
output count `n` followed by the `n` names `name_splitncnn_0` to `name_splitncnn_(n-1)`. -/
theorem C31_counts_match_names_written :
    (∀ (fe : FloatEnv) (sa sb : State) (node : NodeProto), emit_node fe sa node = .ok sb →
        sb = sa ∨
        ∃ (kind name params : String) (ins outs : List String),
          sb.pp = sa.pp ++ node_line kind name (ins.length : Int) outs.length ins outs params
                    :: split_lines sb.node_reference sa.internal_split outs
          ∧ ins = (write_inputs sa.weights sa.node_reference node.input).2
          ∧ ins.length = (node.input.filter (fun x => !map_contains sa.weights x)).length
          ∧ outs = node.output.take (output_size node)
          ∧ outs.length = output_size node)
    ∧ (∀ (nr : StrMap Int) (k : Int) (outs : List String) (l : String),
        l ∈ split_lines nr k outs →
        ∃ (splitname name : String) (n : Nat), 1 < n ∧
          l = split_line splitname name (n : Int) ∧
          split_line splitname name (n : Int)
            = fmt_ls 16 "Split" ++ " " ++ fmt_ls 24 splitname ++ " " ++ fmt_d 1 ++ " "
                ++ fmt_d (n : Int) ++ " " ++ name
                ++ String.join ((List.range n).map
                    (fun k => " " ++ name ++ "_splitncnn_" ++ fmt_d (Int.ofNat k)))
                ++ "\n")
    ∧ (∀ (st : State) (j : Nat) (inputs : List String) (l : String),
        l ∈ input_lines st j inputs →
        (∃ name, l = input_line name) ∨
        ∃ (splitname name : String) (n : Nat), 1 < n ∧
          l = split_line splitname name (n : Int) ∧
          split_line splitname name (n : Int)
            = fmt_ls 16 "Split" ++ " " ++ fmt_ls 24 splitname ++ " " ++ fmt_d 1 ++ " "
                ++ fmt_d (n : Int) ++ " " ++ name
                ++ String.join ((List.range n).map
                    (fun k => " " ++ name ++ "_splitncnn_" ++ fmt_d (Int.ofNat k)))
                ++ "\n") := by
  refine ⟨?_, ?_, ?_⟩
  · intro fe sa sb node h
    unfold emit_node at h
    split at h
    · cases h
      exact Or.inl rfl
    · obtain ⟨name, _, h⟩ := bind_ok h
      obtain ⟨k, _, h⟩ := bind_ok h
      cases k with
      | skip =>
        cases h
        exact Or.inl rfl
      | kind kind =>
        simp only [] at h
        rw [emit_layer_eq] at h
        obtain ⟨outs, houts, h⟩ := bind_ok h
        obtain ⟨p, _, h⟩ := bind_ok h
        cases h
        obtain ⟨ho, hl⟩ := first_outputs_length houts
        refine Or.inr ⟨kind, name, p.text, _, outs, ?_, rfl, write_inputs_length _ _ _, ho, hl⟩
        simp only [layer_state, write_inputs_length, count_runtime_inputs_eq, hl]
  · intro nr k outs l h
    obtain ⟨s, a, n, hn, hl⟩ := split_lines_mem h
    exact ⟨s, a, n, hn, hl, rfl⟩
  · intro st j inputs l h
    rcases input_lines_mem h with h | ⟨s, a, n, hn, hl⟩
    · exact Or.inl h
    · exact Or.inr ⟨s, a, n, hn, hl, rfl⟩

set_option maxRecDepth 100000 in
/-- C31 on `fanout_graph`: the second node `Abs(r) -> a` runs in the state reached after
the `Relu` node and its Split line; the loop body appends the line `UnaryOp a 1 1
r_splitncnn_1 a 0=0`, with one input name and one output name, and the Split line
written before it lists two output names after the count 2. -/
theorem C31_fanout_witness :
    ∃ sa sb node rest,
      emitter_state_at example_floats fanout_graph 1 = .ok (sa, node :: rest)
      ∧ emit_node example_floats sa node = .ok sb
      ∧ (sb = sa ∨
          ∃ (kind name params : String) (ins outs : List String),
            sb.pp = sa.pp ++ node_line kind name (ins.length : Int) outs.length ins outs params
                      :: split_lines sb.node_reference sa.internal_split outs
            ∧ ins = (write_inputs sa.weights sa.node_reference node.input).2
            ∧ ins.length = (node.input.filter (fun x => !map_contains sa.weights x)).length
            ∧ outs = node.output.take (output_size node)
            ∧ outs.length = output_size node)
      ∧ (layers (String.join sb.pp)).drop 2
          = [some { kind := "Split", name := "splitncnn_0", inputs := ["r"],
                    outputs := ["r_splitncnn_0", "r_splitncnn_1"], params := [] },
             some { kind := "UnaryOp", name := "a", inputs := ["r_splitncnn_1"],
                    outputs := ["a"], params := ["0=0"] }] := by
  refine ⟨_, _, _, _, rfl, rfl, ?_, by decide⟩
  exact C31_counts_match_names_written.1 example_floats _ _ _ rfl

/-! ## C32: the payload of a collapsed MatMul -/

/-- C32: let the node at index `i` be a `Transpose` whose first input is `W`, a weight of
the classifier with dims `(h, w)` that holds `h * w` floats (`h, w > 0`, payload below
2 GiB), let `W` be an input of no other node, and let the emitter reach index `i` and find
there the marker `noop_reducedncnn` the rewriter leaves for a collapsed `Transpose`. Then
the node at index `i + 1` is a `MatMul`, the rewriter has replaced its second input by
`W`, the emitter reaches it in the same state and writes for it an `InnerProduct` line
with `0=h 1=0 2=h*w`, and the blob buffer grows by the 4-byte tag followed by the floats
of `W` as the classifier stored them, in their original order. -/
theorem C32_collapsed_matmul_streams_original_weight (fe : FloatEnv) (graph : GraphProto)
    (i : Nat) (st1 sa : State) (t n0 : NodeProto) (rest0 : List NodeProto) (W : String)
    (B : TensorProto) (h w : Nat)
    (hc : classify graph = .ok st1)
    (ht : graph.node[i]? = some t) (hop : t.op_type = "Transpose")
    (hin : t.input.head? = some W)
    (hW : map_find st1.weights W = some B)
    (hdims : B.dims = [(h : Int), (w : Int)]) (hfl : holds_floats B (h * w) = true)
    (hh : 0 < h) (hw : 0 < w) (hsmall : 4 * (h * w) < 2147483648)
    (hother : ∀ j n, graph.node[j]? = some n → j ≠ i → W ∉ n.input)
    (hat : emitter_state_at fe graph i = .ok (sa, n0 :: rest0))
    (hn0 : n0.op_type = "noop_reducedncnn") :
    ∃ m rest name sb,
      graph.node[i + 1]? = some m ∧ m.op_type = "MatMul"
      ∧ rest0 = { m with input := m.input.set 1 W } :: rest
      ∧ emitter_state_at fe graph (i + 1)
          = .ok (sa, { m with input := m.input.set 1 W } :: rest)
      ∧ layer_name m = .ok name
      ∧ emit_node fe sa { m with input := m.input.set 1 W } = .ok sb
      ∧ emitter_state_at fe graph (i + 2) = .ok (sb, rest)
      ∧ sb.pp = sa.pp
          ++ node_line (fmt_ls 16 "InnerProduct") name
               (count_runtime_inputs sa.weights (m.input.set 1 W)) m.output.length
               (write_inputs sa.weights sa.node_reference (m.input.set 1 W)).2 m.output
               (" 0=" ++ fmt_d (h : Int) ++ " 1=0" ++ " 2=" ++ fmt_d ((h * w : Nat) : Int))
          :: split_lines (write_inputs sa.weights sa.node_reference (m.input.set 1 W)).1
               sa.internal_split m.output
      ∧ sb.bv = sa.bv ++ (quantize_tag ++ floats_bytes (float_ptr B)) := by
  obtain ⟨st1a, st2, nodes, h1, h2, h3, h4⟩ := state_at_ok hat
  rw [hc] at h1
  cases h1
  have hF := fuse_nodes_fused h2
  have hi0 : nodes[i]? = some n0 := by
    have : (nodes.drop i)[0]? = some n0 := by rw [← h4]; simp
    simpa using this
  have hn0eq : n0 = { t with op_type := "noop_reducedncnn" } := by
    obtain ⟨n, hn, hrel⟩ := state_at_rel hat
    rw [ht] at hn
    cases hn
    rcases hrel with e | ⟨_, e⟩ | ⟨hm, _⟩
    · rw [e, hop] at hn0
      exact absurd hn0 (by decide)
    · exact e
    · rw [hop] at hm
      exact absurd hm (by decide)
  rw [hn0eq] at hi0
  obtain ⟨B1, m, hperm, hW2, hm, hmop, hmlen, hout⟩ :=
    fused_collapsed_weight hF i t W B ht hop hin hi0 hW hother
  obtain ⟨hsize, -, hlen⟩ := holds_floats_facts hfl hsmall
  rw [permute_weight_ok B h w hdims hsmall hh hw hlen] at hperm
  cases hperm
  have hsaW : map_find sa.weights W
      = some (store_permuted B (h : Int) (w : Int) (transposed h w (float_ptr B))) :=
    emit_nodes_keeps h3 (by rw [emit_prelude_weights]; exact hW2)
  -- the list the emitter still has to run
  have hlt : i + 1 < nodes.length := (List.getElem?_eq_some.mp hout).1
  have hrest0 : rest0 = { m with input := m.input.set 1 W } :: nodes.drop (i + 2) := by
    have hd : nodes.drop i = nodes[i] :: nodes.drop (i + 1) :=
      List.drop_eq_getElem_cons (by omega)
    have hd1 : nodes.drop (i + 1) = nodes[i + 1] :: nodes.drop (i + 2) :=
      List.drop_eq_getElem_cons hlt
    rw [hd, hd1] at h4
    have hget : nodes[i + 1] = { m with input := m.input.set 1 W } :=
      (List.getElem?_eq_some.mp hout).2
    rw [hget] at h4
    injection h4 with _ h5
  have hnoop : emit_node fe sa n0 = .ok sa := by
    unfold emit_node
    rw [if_pos hn0]
    rfl
  have hat1 : emitter_state_at fe graph (i + 1)
      = .ok (sa, { m with input := m.input.set 1 W } :: nodes.drop (i + 2)) := by
    rw [← hrest0]
    exact state_at_succ hat hnoop
  have hopm : ({ m with input := m.input.set 1 W } : NodeProto).op_type = "MatMul" := hmop
  have hnn : ({ m with input := m.input.set 1 W } : NodeProto).op_type ≠ "noop_reducedncnn" := by
    rw [hopm]; decide
  have hd : ({ m with input := m.input.set 1 W } : NodeProto).op_type ≠ "Dropout" := by
    rw [hopm]; decide
  obtain ⟨name, hname⟩ := state_at_name hat1
  have hkind : layer_kind sa { m with input := m.input.set 1 W }
      = .ok (.kind (fmt_ls 16 "InnerProduct")) :=
    layer_kind_plain sa (by rw [hopm]; decide) (by rw [hopm]; decide) (by rw [hopm]; decide)
      (by rw [hopm]; decide) (by rw [hopm]; decide) (by rw [hopm]; rfl)
  have hin1 : ({ m with input := m.input.set 1 W } : NodeProto).input[1]? = some W := by
    have : 1 < m.input.length := by omega
    simp [List.getElem?_set, this]
  have hp := (write_params_matmul fe sa name hopm).trans
    (params_matmul_permuted sa.weights _ W B h w hdims hsmall hh hw hsize hlen hin1 hsaW)
  obtain ⟨sb, hsb, hnext, hpp, hbv⟩ := emit_node_line fe hat1 hnn hd hname hkind hp
  exact ⟨m, nodes.drop (i + 2), name, sb, hm, hmop, hrest0, hat1, hname, hsb, hnext, hpp, hbv⟩

set_option maxRecDepth 100000 in
/-- C32 at `fusion_graph`, `Transpose(W, perm=[1,0]) -> Wt`, `MatMul(x, Wt) -> y` with `W`
of shape (3,4) holding 0..11: the blob buffer after the `MatMul` is the tag followed by
0..11 and the conversion writes the line `InnerProduct y 1 1 x y 0=3 1=0 2=12`. -/
theorem C32_fusion_witness :
    holds_floats fusion_weight (3 * 4) = true
    ∧ (∃ sa n0 rest0 m rest sb,
        emitter_state_at example_floats fusion_graph 0 = .ok (sa, n0 :: rest0)
        ∧ n0.op_type = "noop_reducedncnn"
        ∧ fusion_graph.node[1]? = some m
        ∧ rest0 = { m with input := m.input.set 1 "W" } :: rest
        ∧ emit_node example_floats sa { m with input := m.input.set 1 "W" } = .ok sb
        ∧ sb.bv = sa.bv ++ (quantize_tag ++ floats_bytes ((List.range 12).map f32_of_byte)))
    ∧ onnx2ncnn example_floats (some fusion_graph)
        = .ok ("7767517\n2 2\nInput            x                        0 1 x\n"
                ++ "InnerProduct     y                        1 1 x y 0=3 1=0 2=12\n",
               quantize_tag ++ floats_bytes ((List.range 12).map f32_of_byte)) := by
  have hat : ∃ sa n0 rest0,
      emitter_state_at example_floats fusion_graph 0 = .ok (sa, n0 :: rest0)
      ∧ n0.op_type = "noop_reducedncnn" := ⟨_, _, _, rfl, rfl⟩
  obtain ⟨sa, n0, rest0, hat, hn0⟩ := hat
  have hother : ∀ j n, fusion_graph.node[j]? = some n → j ≠ 0 → "W" ∉ n.input := by
    intro j n hj hne
    match j, hj, hne with
    | 0, _, hne => exact absurd rfl hne
    | 1, hj, _ =>
      have e : n = { op_type := "MatMul", input := ["x", "Wt"], output := ["y"] } :=
        (Option.some.inj hj).symm
      rw [e]
      decide
    | k + 2, hj, _ => simp [fusion_graph] at hj
  have h := C32_collapsed_matmul_streams_original_weight example_floats fusion_graph 0
    fusion_classified sa transpose_node n0 rest0 "W" fusion_weight 3 4 (by decide) rfl rfl rfl
    rfl rfl (by decide) (by decide) (by decide) (by decide) hother hat hn0
  obtain ⟨m, rest, name, sb, hm, -, hrest0, -, -, hsb, -, -, hbv⟩ := h
  exact ⟨by decide, ⟨sa, n0, rest0, m, rest, sb, hat, hn0, hm, hrest0, hsb, hbv⟩, by decide⟩

/-! ## C33: the input the rewriter overwrites -/

set_option maxRecDepth 100000 in
/-- C33 fails on `misdirected_matmul_graph`: the `Transpose` of `W` at index 0 has the
single reader `Relu` at index 2, and the node at index 1 is a `MatMul` of `x` and the
weight `K` that does not read `Wt`. The rewriter collapses all the same (lines 383-388
test the operator of node 1 only) and replaces the second input `K` of the `MatMul` by
`W`; the conversion then streams the floats of `W` for the `InnerProduct` layer `y`
and leaves the `Relu` reading the blob `Wt` that no layer writes. -/
theorem C33_matmul_input_overwritten_without_reading_transpose :
    misdirected_matmul_graph.node[1]?
        = some { op_type := "MatMul", input := ["x", "K"], output := ["y"] }
    ∧ "Wt" ∉ ["x", "K"]
    ∧ (classify misdirected_matmul_graph >>= fun st =>
        fuse_nodes st misdirected_matmul_graph.node).map (fun r => r.2)
        = .ok [{ transpose_node with op_type := "noop_reducedncnn" },
               { op_type := "MatMul", input := ["x", "W"], output := ["y"] },
               { op_type := "Relu", input := ["Wt"], output := ["r"] }]
    ∧ ∀ fe, onnx2ncnn fe (some misdirected_matmul_graph)
        = .ok ("7767517\n3 3\n"
                ++ "Input            x                        0 1 x\n"
                ++ "InnerProduct     y                        1 1 x y 0=3 1=0 2=12\n"
                ++ "ReLU             r                        1 1 Wt r\n",
               quantize_tag ++ floats_bytes fusion_weight.float_data) := by
  refine ⟨rfl, by decide, rfl, fun fe => rfl⟩

/-! ## C34: the layer count of an element-wise graph -/

/-- C34: for a graph without initializers whose nodes all have an element-wise operator
(a unary operator, `Relu`, `Sigmoid`, `Add`, `Sub`, `Mul`, `Div`, `Max`, `Min`, `Pow`,
`Sum`) and at least one output, whose graph-input names and node-output names are all
pairwise distinct, and whose node inputs are graph inputs or outputs of earlier nodes,
the conversion succeeds; the param buffer is the magic line, the header line and the
layer lines `rest`, the integer printed as the layer count is the number of these lines,
and that number is one `Input` line for each graph input, one line for each node, and one
`Split` line for each graph input or node output read more than once. -/
theorem C34_layer_count_matches_layers_written (fe : FloatEnv) (graph : GraphProto)
    (hinit : graph.initializer = [])
    (hops : ∀ n ∈ graph.node, n.op_type ∈ elementwise_ops)
    (hout : ∀ n ∈ graph.node, n.output ≠ [])
    (hnames : (graph.input ++ graph.node.flatMap (fun n => n.output)).Nodup)
    (hord : ∀ (i : Nat) (n : NodeProto), graph.node[i]? = some n → ∀ x ∈ n.input,
        x ∈ graph.input
          ∨ ∃ (j : Nat) (p : NodeProto), j < i ∧ graph.node[j]? = some p ∧ x ∈ p.output) :
    ∃ st1 st rest,
      classify graph = .ok st1
      ∧ run fe graph = .ok st
      ∧ onnx2ncnn fe (some graph) = .ok (String.join st.pp, st.bv)
      ∧ st.pp = "7767517\n"
                  :: header_line graph.node.length graph.initializer.length st1 :: rest
      ∧ layer_count graph.node.length graph.initializer.length st1 = (rest.length : Int)
      ∧ rest.length
          = graph.input.length + graph.node.length
            + ((graph.input ++ graph.node.flatMap (fun n => n.output)).filter
                (needs_split (prune_node_reference st1.node_reference))).length := by
  -- the classifier
  obtain ⟨s1, hs1, hw1, hb1, hpp1, hin1, hred1, hcnt⟩ := classify_nodes_elementwise graph.node
    { pp := ["7767517\n"], weights := load_initializers [] graph.initializer } hops hout
    (by rw [hinit]; rfl)
  have hclass : classify graph = .ok (count_graph_inputs s1 graph.input) := by
    show (classify_nodes _ graph.node >>= fun st1 =>
            pure (count_graph_inputs st1 graph.input)) = _
    rw [hs1]
    rfl
  have hb1a : s1.binaryop_weights = [] := hb1
  obtain ⟨hw, hpp, hred, hinc⟩ := count_graph_inputs_plain s1 graph.input hw1 hb1a
  have hbw : (count_graph_inputs s1 graph.input).binaryop_weights = [] := by
    rw [count_graph_inputs_bw]; exact hb1a
  have hnr : (count_graph_inputs s1 graph.input).node_reference = s1.node_reference :=
    count_graph_inputs_fanout _ _
  have hnd := classify_nodup hclass
  generalize count_graph_inputs s1 graph.input = st1 at hclass hw hpp hred hinc hbw hnr hnd
  have hcnt1 : ∀ x c, map_find st1.node_reference x = some c →
      (graph.node.flatMap (fun n => n.input)).count x ≠ 0
        ∧ c = ((graph.node.flatMap (fun n => n.input)).count x : Int) := by
    intro x c hx
    rw [hnr, hcnt x] at hx
    split at hx
    · cases hx
    · rename_i hne
      refine ⟨hne, ?_⟩
      dsimp only at hx
      simp only [map_find, Option.getD_none, zero_add, Option.some.injEq] at hx
      exact hx.symm
  -- the rewriter
  have hfuse : fuse_nodes st1 graph.node = .ok (st1, graph.node) :=
    fuse_nodes_plain st1 graph.node (fun n hn => (elementwise_ops_source _ (hops n hn)).2.2.2.2.2.2.2.2.2)
  -- no node reads an output of itself or of a later node
  have hord1 : ∀ i n, graph.node[i]? = some n → ∀ x ∈ n.input,
      x ∉ (graph.node.drop i).flatMap (fun m => m.output) := by
    intro i n hi x hx hmem
    have hsplit : graph.node.flatMap (fun n => n.output)
        = (graph.node.take i).flatMap (fun n => n.output)
          ++ (graph.node.drop i).flatMap (fun n => n.output) := by
      rw [← List.flatMap_append, List.take_append_drop]
    rw [hsplit] at hnames
    rcases hord i n hi x hx with h | ⟨j, p, hj, hp, hxp⟩
    · have hdis := (List.nodup_append.mp hnames).2.2
      exact hdis h (List.mem_append_right _ hmem)
    · have hA : x ∈ (graph.node.take i).flatMap (fun n => n.output) := by
        rw [List.mem_flatMap]
        refine ⟨p, ?_, hxp⟩
        have : (graph.node.take i)[j]? = some p := by
          rw [List.getElem?_take_of_lt hj]
          exact hp
        exact List.getElem?_mem this
      have hdis := (List.nodup_append.mp (List.nodup_append.mp hnames).2.1).2.2
      exact hdis hA hmem
  -- the state when the node loop starts
  have hprel : emit_prelude graph st1
      = place_inputs (write_header graph.node.length graph.initializer.length st1) graph.input := by
    unfold emit_prelude
    exact place_memorydata_plain _ _ hbw
  obtain ⟨sb, lines, hsb, hsbpp, hlen⟩ := emit_nodes_elementwise fe
    (prune_node_reference st1.node_reference) graph.node
    (place_inputs (write_header graph.node.length graph.initializer.length st1) graph.input)
    hops hout (fun o _ => rfl) hord1
  have hrun : run fe graph = .ok sb := by
    unfold run
    rw [hclass, ok_bind, hfuse, ok_bind, hprel]
    exact hsb
  have hil := input_lines_length
    (write_header graph.node.length graph.initializer.length st1) 0 graph.input hw hbw
  -- the entries of the pruned map
  have hval : ∀ k c, map_find (prune_node_reference st1.node_reference) k = some c → 1 < c := by
    intro k c hk
    obtain ⟨h1, h2⟩ := (prune_find hnd k c).mp hk
    obtain ⟨h3, h4⟩ := hcnt1 k c h1
    omega
  have hkeys : ∀ k c, map_find (prune_node_reference st1.node_reference) k = some c →
      k ∈ graph.input ++ graph.node.flatMap (fun n => n.output) := by
    intro k c hk
    obtain ⟨h1, -⟩ := (prune_find hnd k c).mp hk
    obtain ⟨h3, -⟩ := hcnt1 k c h1
    have hmem : k ∈ graph.node.flatMap (fun n => n.input) := List.count_pos_iff.mp (by omega)
    obtain ⟨n, hn, hkn⟩ := List.mem_flatMap.mp hmem
    obtain ⟨i, hi⟩ := List.getElem?_of_mem hn
    rcases hord i n hi k hkn with h | ⟨j, p, -, hp, hkp⟩
    · exact List.mem_append_left _ h
    · exact List.mem_append_right _ (List.mem_flatMap.mpr ⟨p, List.getElem?_mem hp, hkp⟩)
  have hcount := split_names_count (prune_nodup hnd) hnames hval hkeys
  have hrest : (input_lines (write_header graph.node.length graph.initializer.length st1) 0
        graph.input ++ lines).length
      = graph.input.length + graph.node.length
        + ((graph.input ++ graph.node.flatMap (fun n => n.output)).filter
            (needs_split (prune_node_reference st1.node_reference))).length := by
    rw [List.length_append, hil, hlen, List.filter_append, List.length_append]
    have : (write_header graph.node.length graph.initializer.length st1).node_reference
        = prune_node_reference st1.node_reference := rfl
    rw [this]
    omega
  refine ⟨st1, sb, input_lines (write_header graph.node.length graph.initializer.length st1) 0
      graph.input ++ lines, hclass, hrun, ?_, ?_, ?_, hrest⟩
  · show convert fe graph = _
    unfold convert
    rw [hrun]
    rfl
  · rw [hsbpp]
    show (st1.pp ++ [header_line graph.node.length graph.initializer.length st1]
            ++ input_lines _ 0 graph.input) ++ lines = _
    rw [hpp]
    have : s1.pp = ["7767517\n"] := hpp1
    rw [this]
    simp only [List.cons_append, List.nil_append, List.append_assoc]
  · rw [hrest, ← hcount]
    unfold layer_count
    rw [hred, hinc, hw, hinit]
    have h0 : s1.reduced_node_count = 0 := hred1
    have h1 : s1.input_node_count = 0 := hin1
    rw [h0, h1]
    simp only [List.length_nil]
    push_cast
    omega

set_option maxRecDepth 100000 in
/-- C34 at `fanout_graph`, input `x` and the nodes `Relu(x) -> r`, `Abs(r) -> a`,
`Ceil(r) -> c`: the header announces 5 layers and 5 layer lines follow it, one `Input`,
three node lines and the `Split` of `r`. -/
theorem C34_fanout_witness :
    (∃ st1 st rest,
      classify fanout_graph = .ok st1
      ∧ run example_floats fanout_graph = .ok st
      ∧ onnx2ncnn example_floats (some fanout_graph) = .ok (String.join st.pp, st.bv)
      ∧ st.pp = "7767517\n"
                  :: header_line fanout_graph.node.length fanout_graph.initializer.length st1
                  :: rest
      ∧ layer_count fanout_graph.node.length fanout_graph.initializer.length st1
          = (rest.length : Int)
      ∧ rest.length
          = fanout_graph.input.length + fanout_graph.node.length
            + ((fanout_graph.input ++ fanout_graph.node.flatMap (fun n => n.output)).filter
                (needs_split (prune_node_reference st1.node_reference))).length)
    ∧ onnx2ncnn example_floats (some fanout_graph) = .ok (fanout_param, [])
    ∧ header_counts fanout_param = some (5, 6)
    ∧ (layers fanout_param).length = 5 :=
  ⟨C34_layer_count_matches_layers_written example_floats fanout_graph rfl (by decide)
     (by decide) (by decide)
     (fun i n hi x hx => by
       match i, hi with
       | 0, hi =>
         have e : n = { op_type := "Relu", input := ["x"], output := ["r"] } :=
           (Option.some.inj hi).symm
         rw [e] at hx
         simp only [List.mem_singleton] at hx
         rw [hx]
         exact Or.inl (by decide)
       | 1, hi =>
         have e : n = { op_type := "Abs", input := ["r"], output := ["a"] } :=
           (Option.some.inj hi).symm
         rw [e] at hx
         simp only [List.mem_singleton] at hx
         rw [hx]
         exact Or.inr ⟨0, _, by decide, rfl, by decide⟩
       | 2, hi =>
         have e : n = { op_type := "Ceil", input := ["r"], output := ["c"] } :=
           (Option.some.inj hi).symm
         rw [e] at hx
         simp only [List.mem_singleton] at hx
         rw [hx]
         exact Or.inr ⟨0, _, by decide, rfl, by decide⟩
       | k + 3, hi => simp [fanout_graph] at hi),
   by decide, by decide, by decide⟩

/-! ## C35: the sign of the layer count -/

set_option maxRecDepth 100000 in
/-- C35 fails on `shape_entry_graph`: the classifier stores the output `r` of the
`Reshape` of the weight `k` as a weight and, reading `weights[node.input(1)]` at line 253,
also inserts an empty entry under the shape name `s`, so the weight table has 3 entries
for 1 node and 1 initializer. The integer of the header is `1 - 0 + 0 + 0 + 1 - 3 = -1`
and the header line shows it modulo `2^64`. -/
theorem C35_layer_count_is_negative :
    (classify shape_entry_graph).map (fun st => st.weights.map Prod.fst)
        = .ok ["k", "r", "s"]
    ∧ (classify shape_entry_graph >>= fun st =>
        fuse_nodes st shape_entry_graph.node).map
          (fun r => (r.1.reduced_node_count, r.1.input_node_count,
                     (prune_node_reference r.1.node_reference).length, r.1.weights.length,
                     layer_count shape_entry_graph.node.length
                       shape_entry_graph.initializer.length r.1))
        = .ok (0, 0, 0, 3, -1)
    ∧ ∀ fe, onnx2ncnn fe (some shape_entry_graph)
        = .ok ("7767517\n18446744073709551615 0\n", []) := by
  refine ⟨rfl, rfl, fun fe => rfl⟩

end Onnx2Ncnn
